import Mathlib

/-!
# Zen.Trunk installer custom actions: plan serialisation and component to-do resolution

A shallow embedding of `src/InstanceServiceActions` (InstallerBase.cpp,
UserInstaller.cpp, UrlReservationInstaller.cpp).  `CString` values are lists of
characters, C `int`/enum values are `Int`, the MSI database and the MSI engine
state are explicit arguments.
-/

namespace ZenTrunk

/-! ## CString primitives (ATL) used by the installers -/

/-- A `CString` is modelled as the list of its characters. -/
abbrev CString := List Char

/-- Embeds `CString::Find (ch)`: zero-based index of the first occurrence of `ch`, or `-1`. -/
def Find : CString → Char → Int
  | [], _ => -1
  | c :: cs, ch =>
    if c = ch then 0
    else
      let r := Find cs ch
      if r = -1 then -1 else r + 1

/-- Embeds `CString::Left (nCount)`: the first `nCount` characters (the whole string when
shorter). -/
def Left (s : CString) (nCount : Int) : CString :=
  s.take nCount.toNat

/-- Embeds `CString::Mid (iFirst)`: the characters from position `iFirst` to the end. -/
def Mid (s : CString) (iFirst : Int) : CString :=
  s.drop iFirst.toNat

/-! ## InstallerBase.cpp: delimited block extraction -/

/-- Embeds `CInstallerBase::ExtractNextTabDelimitedBlock (CString& strData)`.
The pair is (returned block, new value of `strData`). -/
def ExtractNextTabDelimitedBlock (strData : CString) : CString × CString :=
  let index := Find strData '\t'
  if index ≠ -1 then
    (Left strData index, Mid strData (index + 1))
  else
    (strData, [])

/-- Embeds `CInstallerBase::ExtractNextBarDelimitedBlock (CString& strData)`.
The pair is (returned block, new value of `strData`). -/
def ExtractNextBarDelimitedBlock (strData : CString) : CString × CString :=
  let index := Find strData '|'
  if index ≠ -1 then
    (Left strData index, Mid strData (index + 1))
  else
    (strData, [])

/-- The common shape of the two extraction functions, for an arbitrary delimiter
character (used to state lemmas once for both). -/
def extractWith (ch : Char) (strData : CString) : CString × CString :=
  let index := Find strData ch
  if index ≠ -1 then
    (Left strData index, Mid strData (index + 1))
  else
    (strData, [])

/-- Fields joined by a delimiter character, the way the planners build their data
(first field as is, every further field appended after one delimiter). -/
def joinFields (delim : Char) : List CString → CString
  | [] => []
  | [f] => f
  | f :: g :: rest => f ++ delim :: joinFields delim (g :: rest)

/-- Apply an extraction function `k` times in sequence, collecting the returned blocks;
the second component is the string left behind. -/
def extractBlocks (extract : CString → CString × CString) :
    Nat → CString → List CString × CString
  | 0, strData => ([], strData)
  | k + 1, strData =>
    let r := extract strData
    let rest := extractBlocks extract k r.2
    (r.1 :: rest.1, rest.2)

/-! ## To-do values and component states -/

/-- Modelled from the spec: the `WCA_TODO` enumeration declared in the absent
`InstanceServiceActions.h`; the spec lists `Unknown | Install | Uninstall | Reinstall`
and encodes Install as `1` on the wire.  Values are C integers. -/
abbrev WCA_TODO := Int

/-- Modelled from the spec: first enumerator of `WCA_TODO`. -/
def WCA_TODO_UNKNOWN : WCA_TODO := 0
/-- Modelled from the spec: second enumerator of `WCA_TODO`. -/
def WCA_TODO_INSTALL : WCA_TODO := 1
/-- Modelled from the spec: third enumerator of `WCA_TODO`. -/
def WCA_TODO_UNINSTALL : WCA_TODO := 2
/-- Modelled from the spec: fourth enumerator of `WCA_TODO`. -/
def WCA_TODO_REINSTALL : WCA_TODO := 3

/-- The `INSTALLSTATE` enumeration of the Windows Installer SDK (`msi.h`), as C integers. -/
abbrev INSTALLSTATE := Int

def INSTALLSTATE_UNKNOWN : INSTALLSTATE := -1
def INSTALLSTATE_REMOVED : INSTALLSTATE := 1
def INSTALLSTATE_ABSENT : INSTALLSTATE := 2
def INSTALLSTATE_LOCAL : INSTALLSTATE := 3
def INSTALLSTATE_SOURCE : INSTALLSTATE := 4
def INSTALLSTATE_DEFAULT : INSTALLSTATE := 5

/-- Win32 `ERROR_SUCCESS`. -/
def ERROR_SUCCESS : Nat := 0

/-- Embeds `CInstallerBase::IsInstalling`. -/
def IsInstalling (isInstalled isAction : INSTALLSTATE) : Bool :=
  (INSTALLSTATE_LOCAL == isAction ||
   INSTALLSTATE_SOURCE == isAction ||
   (INSTALLSTATE_DEFAULT == isAction &&
    (INSTALLSTATE_LOCAL == isInstalled ||
     INSTALLSTATE_SOURCE == isInstalled)))

/-- Embeds `CInstallerBase::IsReInstalling`. -/
def IsReInstalling (isInstalled isAction : INSTALLSTATE) : Bool :=
  ((INSTALLSTATE_LOCAL == isAction ||
    INSTALLSTATE_SOURCE == isAction ||
    INSTALLSTATE_DEFAULT == isAction) &&
   (INSTALLSTATE_LOCAL == isInstalled ||
    INSTALLSTATE_SOURCE == isInstalled))

/-- Embeds `CInstallerBase::IsUninstalling`. -/
def IsUninstalling (isInstalled isAction : INSTALLSTATE) : Bool :=
  ((INSTALLSTATE_ABSENT == isAction ||
    INSTALLSTATE_REMOVED == isAction) &&
   (INSTALLSTATE_LOCAL == isInstalled ||
    INSTALLSTATE_SOURCE == isInstalled))

/-- The answer of `MsiGetComponentState` for one component: the Win32 result code and
the two out-parameters (meaningful when the code is `ERROR_SUCCESS`). -/
structure ComponentStateResult where
  er : Nat
  isInstalled : INSTALLSTATE
  isAction : INSTALLSTATE
deriving DecidableEq, Repr

/-- Embeds `CInstallerBase::GetComponentToDo`, as a function of what `MsiGetComponentState`
answers for the component. -/
def GetComponentToDo (q : ComponentStateResult) : WCA_TODO :=
  if ERROR_SUCCESS ≠ q.er then
    WCA_TODO_UNKNOWN
  else if IsReInstalling q.isInstalled q.isAction then
    WCA_TODO_REINSTALL
  else if IsUninstalling q.isInstalled q.isAction then
    WCA_TODO_UNINSTALL
  else if IsInstalling q.isInstalled q.isAction then
    WCA_TODO_INSTALL
  else
    WCA_TODO_UNKNOWN

/-- Embeds `CInstallerBase::GetTranslatedInstallMode`; `fIsRollback` is the answer of
`IsRollbackMode ()`, i.e. of `MsiGetMode (hInstall, MSIRUNMODE_ROLLBACK)`. -/
def GetTranslatedInstallMode (fIsRollback : Bool) (todoScheduled : WCA_TODO) : WCA_TODO :=
  if fIsRollback then
    if WCA_TODO_INSTALL = todoScheduled then
      WCA_TODO_UNINSTALL
    else if WCA_TODO_UNINSTALL = todoScheduled then
      WCA_TODO_INSTALL
    else
      todoScheduled
  else
    todoScheduled

/-! ## C runtime: `%d` formatting and `_ttoi` -/

/-- Smallest value of a C `int`. -/
def INT_MIN : Int := -2147483648
/-- Largest value of a C `int`. -/
def INT_MAX : Int := 2147483647

/-- The `%d` conversion of `CString::Format`: decimal digits, with a leading minus sign
for a negative value. -/
def formatInt (i : Int) : CString :=
  if i < 0 then '-' :: Nat.toDigits 10 i.natAbs else Nat.toDigits 10 i.toNat

/-- White space skipped by `_ttoi` at the start of its argument. -/
def isSpaceChar (c : Char) : Bool :=
  c == ' ' || c == '\t' || c == '\n' || c == '\x0b' || c == '\x0c' || c == '\r'

/-- Value of a run of decimal digits, read left to right. -/
def digitsValue (l : CString) : Nat :=
  l.foldl (fun a c => a * 10 + (c.toNat - 48)) 0

/-- The signed value `_ttoi` reads once leading white space is skipped: an optional sign
followed by the longest run of decimal digits. -/
def signedDigitsValue (s1 : CString) : Int :=
  match s1 with
  | '-' :: r => - (digitsValue (r.takeWhile Char.isDigit) : Int)
  | '+' :: r => (digitsValue (r.takeWhile Char.isDigit) : Int)
  | _ => (digitsValue (s1.takeWhile Char.isDigit) : Int)

/-- The C runtime `_ttoi`: skips leading white space, reads an optional sign and the
longest run of decimal digits, and saturates at the bounds of `int`. -/
def _ttoi (s : CString) : Int :=
  let v := signedDigitsValue (s.dropWhile isSpaceChar)
  if v < INT_MIN then INT_MIN else if INT_MAX < v then INT_MAX else v

/-! ## The MSI session seen by the custom actions -/

/-- One record of `vActionableUserQuery` (table `UserEx`).  A null string field reads as
the empty string, as `CMsiRecord::GetString` returns it. -/
structure UserExRecord where
  User : CString
  Component_ : CString
  Name : CString
  Domain : CString
  Password : CString
  Attributes : Int
deriving DecidableEq, Repr

/-- One record of `vLookupGroupQuery` (table `Group`): the columns read by the planner. -/
structure GroupRecord where
  Name : CString
  Domain : CString
deriving DecidableEq, Repr

/-- One record of `vActionableUrlReservationQuery` (table `UrlReservation`). -/
structure UrlReservationRecord where
  Reservation : CString
  Component_ : CString
  Url : CString
  Attributes : Int
deriving DecidableEq, Repr

/-- One record of `vActionableUrlReservationAclQuery` (table `UrlReservationAcl`). -/
structure UrlReservationAclRecord where
  Acl : CString
  Name : CString
  Domain : CString
  Attributes : Int
deriving DecidableEq, Repr

/-- One record of `vActionableGroupQuery` (table `GroupEx`). -/
structure GroupExRecord where
  Group : CString
  Component_ : CString
  Name : CString
  Domain : CString
  Description : CString
  Attributes : Int
deriving DecidableEq, Repr

/-- The installer session as the planners observe it, for runs in which every MSI call
that reads the database succeeds: component states, record formatting, and the contents
of the queried tables.  `COST_*` are the per-row cost constants of the absent
`InstanceServiceActions.h`.  `MsiSetProperty` and `MsiDoAction` give the result codes of
the two calls `DoDeferredAction` makes; they succeed unless a session says otherwise. -/
structure MsiSession where
  /-- Answer of `MsiGetComponentState` per component id. -/
  MsiGetComponentState : CString → ComponentStateResult
  /-- Result of `MsiFormatRecord` on a non-empty template string. -/
  MsiFormatRecord : CString → CString
  /-- Whether `IsTable ("UserEx")` holds. -/
  hasUserEx : Bool
  /-- Records fetched by `vActionableUserQuery`, in fetch order. -/
  UserEx : List UserExRecord
  /-- Group keys fetched by `vLookupUserGroupQuery` for a user key, in fetch order. -/
  UserGroup : CString → List CString
  /-- Record fetched by `vLookupGroupQuery` for a group key. -/
  Group : CString → GroupRecord
  /-- Whether `IsTable ("UrlReservation")` holds. -/
  hasUrlReservation : Bool
  /-- Records fetched by `vActionableUrlReservationQuery`, in fetch order. -/
  UrlReservation : List UrlReservationRecord
  /-- Records fetched by `vActionableUrlReservationAclQuery` for a reservation key. -/
  UrlReservationAcl : CString → List UrlReservationAclRecord
  COST_USER_ADD : Int
  COST_USER_DELETE : Int
  COST_URLRESERVATION_ADD : Int
  COST_URLRESERVATION_DELETE : Int
  /-- Whether `IsTable ("GroupEx")` holds. -/
  hasGroupEx : Bool
  /-- Records fetched by `vActionableGroupQuery`, in fetch order. -/
  GroupEx : List GroupExRecord
  COST_GROUP_ADD : Int
  COST_GROUP_DELETE : Int
  /-- Result code of `MsiSetProperty` for a property name and value. -/
  MsiSetProperty : String → CString → Nat := fun _ _ => 0
  /-- Result code of `MsiDoAction` for an action name. -/
  MsiDoAction : String → Nat := fun _ => 0

/-- Embeds `CInstallerBase::GetFormattedString`. -/
def GetFormattedString (h : MsiSession) (pszString : CString) : CString :=
  if pszString.length > 0 then h.MsiFormatRecord pszString else []

/-- Embeds `CInstallerBase::GetRecordFormattedString`, on the string a record field reads as
(a null field reads as the empty string and formats to the empty string). -/
def GetRecordFormattedString (h : MsiSession) (field : CString) : CString :=
  if field.isEmpty then [] else GetFormattedString h field

/-! ## Exceptions and `HRESULT` values -/

/-- What ends a run early.  A C++ `throw` carries a `_com_error` built from an `HRESULT`, or
the `CAtlException` that ATL's `CSid (LPCTSTR)` constructor throws (through
`AtlThrowLastWin32`) when the account name cannot be resolved.  `undefined` is not a C++
exception: it marks a run that has reached a call whose behaviour the language leaves
undefined (a `printf`-style log call whose `%s` is given an integer); no handler of the
code catches it and no statement after that call is part of the run. -/
inductive Thrown where
  | com_error (hr : Int)
  | CAtlException (hr : Int)
  | undefined
deriving DecidableEq, Repr

/-- The signed 32-bit value of a 32-bit pattern. -/
def toHRESULT (x : Nat) : Int :=
  if x % 4294967296 < 2147483648 then ((x % 4294967296 : Nat) : Int)
  else ((x % 4294967296 : Nat) : Int) - 4294967296

/-- The Windows SDK conversion `HRESULT_FROM_WIN32 (x)`:
`(HRESULT)(x) <= 0 ? (HRESULT)(x) :
(HRESULT)(((x) & 0x0000FFFF) | (FACILITY_WIN32 << 16) | 0x80000000)`. -/
def HRESULT_FROM_WIN32 (x : Nat) : Int :=
  if toHRESULT x ≤ 0 then toHRESULT x else toHRESULT ((x &&& 0xFFFF) ||| 0x80070000)

/-- The Windows SDK test `FAILED (hr)`. -/
def FAILED (hr : Int) : Bool := decide (hr < 0)

/-- One call of `CInstallerBase::DoDeferredAction`. -/
structure DeferredAction where
  pszCustomAction : String
  pszCustomActionData : CString
  uCost : Int
deriving DecidableEq, Repr

/-- The value an `int` expression takes when it is passed for a `UINT` parameter: its
32-bit pattern read as an unsigned number (for a product, the product modulo 2^32). -/
def toUINT (x : Int) : Int := x % 4294967296

/-- Embeds `CInstallerBase::DoDeferredAction`: what the call throws, if anything.
`SetProperty` is called when the data is not empty and throws when `MsiSetProperty`
fails; `ProgressMessage` lets nothing escape; a failed `HRESULT` of `MsiDoAction` is
thrown.  The log line is taken to fit its buffer. -/
def DoDeferredAction (h : MsiSession) (d : DeferredAction) : Option Thrown :=
  let erSet :=
    if d.pszCustomActionData.length > 0 then
      h.MsiSetProperty d.pszCustomAction d.pszCustomActionData
    else ERROR_SUCCESS
  if erSet ≠ ERROR_SUCCESS then some (.com_error (HRESULT_FROM_WIN32 erSet))
  else if FAILED (HRESULT_FROM_WIN32 (h.MsiDoAction d.pszCustomAction)) then
    some (.com_error (HRESULT_FROM_WIN32 (h.MsiDoAction d.pszCustomAction)))
  else none

/-- The `DoDeferredAction` calls made out of a sequence of them written one after the
other: each call is made unless an earlier one has thrown. -/
def DoDeferredActions (h : MsiSession) : List DeferredAction → List DeferredAction
  | [] => []
  | d :: more =>
    match DoDeferredAction h d with
    | some _ => [d]
    | none => d :: DoDeferredActions h more

/-- What a sequence of `DoDeferredAction` calls throws: what its first throwing call
throws. -/
def DoDeferredActionsThrown (h : MsiSession) : List DeferredAction → Option Thrown
  | [] => none
  | d :: more =>
    match DoDeferredAction h d with
    | some e => some e
    | none => DoDeferredActionsThrown h more

/-- The planners' test `(todoComponent == WCA_TODO_REINSTALL ? WCA_TODO_INSTALL :
todoComponent) != todoScheduled`; true when the row is skipped. -/
def todoMismatch (todoComponent todoScheduled : WCA_TODO) : Bool :=
  (if todoComponent = WCA_TODO_REINSTALL then WCA_TODO_INSTALL else todoComponent)
    != todoScheduled

/-- The planners' append step: `strAll = strResult` when `strAll` is empty, else
`strAll.AppendFormat ("<delim>%s", strResult)`. -/
def appendBlock (delim : Char) (strAll strResult : CString) : CString :=
  if strAll.isEmpty then strResult else strAll ++ delim :: strResult

/-! ## UserInstaller.cpp: planner and executor -/

/-- The membership loop of `CUserInstaller::ScheduleUsers`: for each fetched group key
the group record is looked up, formatted as `"%s|%s"` and appended to `strMembership`. -/
def ScheduleUsersMembership (h : MsiSession) : List CString → CString → CString
  | [], strMembership => strMembership
  | strGroupKey :: more, strMembership =>
    let groupRecord := h.Group strGroupKey
    let strMemberGroup := GetRecordFormattedString h groupRecord.Name
    let strMemberDomain := GetRecordFormattedString h groupRecord.Domain
    let strResult := strMemberGroup ++ '|' :: strMemberDomain
    ScheduleUsersMembership h more (appendBlock '|' strMembership strResult)

/-- The text `ScheduleUsers` formats for one matching record:
`"%d\t%s\t%s\t%d\t%s\t%s"` of to-do, name, domain, attributes, password, membership. -/
def ScheduleUsersBlock (h : MsiSession) (record : UserExRecord) : CString :=
  let todoComponent := GetComponentToDo (h.MsiGetComponentState record.Component_)
  let strName := GetRecordFormattedString h record.Name
  let strDomain := GetRecordFormattedString h record.Domain
  let strPassword := GetRecordFormattedString h record.Password
  let iAttributes := record.Attributes
  let strMembership := ScheduleUsersMembership h (h.UserGroup record.User) []
  formatInt todoComponent ++ '\t' :: strName ++ '\t' :: strDomain ++ '\t' ::
    formatInt iAttributes ++ '\t' :: strPassword ++ '\t' :: strMembership

/-- The fetch loop of `CUserInstaller::ScheduleUsers` over the remaining records; the
state is `(strAllCAData, iInstanceCount)`. -/
def ScheduleUsersLoop (h : MsiSession) (todoScheduled : WCA_TODO) :
    List UserExRecord → CString × Int → CString × Int
  | [], st => st
  | record :: more, (strAllCAData, iInstanceCount) =>
    let todoComponent := GetComponentToDo (h.MsiGetComponentState record.Component_)
    if todoMismatch todoComponent todoScheduled then
      ScheduleUsersLoop h todoScheduled more (strAllCAData, iInstanceCount)
    else
      let strResult := ScheduleUsersBlock h record
      ScheduleUsersLoop h todoScheduled more
        (appendBlock '\t' strAllCAData strResult, iInstanceCount + 1)

/-- Embeds `CUserInstaller::ScheduleUsers`: the `DoDeferredAction` calls it makes, in order
(the second call is not reached when the first throws).  The cost argument is the `int`
product, in wrapping 32-bit arithmetic, passed for a `UINT` parameter. -/
def ScheduleUsers (h : MsiSession) (todoScheduled : WCA_TODO) : List DeferredAction :=
  if !h.hasUserEx then []
  else
    let st := ScheduleUsersLoop h todoScheduled h.UserEx ([], 0)
    let strAllCAData := st.1
    let iInstanceCount := st.2
    if !strAllCAData.isEmpty then
      if todoScheduled = WCA_TODO_INSTALL then
        DoDeferredActions h
          [⟨"SuiExecUsersInstall", strAllCAData, toUINT (iInstanceCount * h.COST_USER_ADD)⟩,
           ⟨"SuiRollbackUsersInstall", strAllCAData,
             toUINT (iInstanceCount * h.COST_USER_ADD)⟩]
      else
        DoDeferredActions h
          [⟨"SuiExecUsersUninstall", strAllCAData,
             toUINT (iInstanceCount * h.COST_USER_DELETE)⟩,
           ⟨"SuiRollbackUsersUninstall", strAllCAData,
             toUINT (iInstanceCount * h.COST_USER_DELETE)⟩]
    else []

/-- What `CUserInstaller::ScheduleUsers` throws after a successful table check: what its
first throwing `DoDeferredAction` call throws (the handler logs and throws it again). -/
def ScheduleUsersThrown (h : MsiSession) (todoScheduled : WCA_TODO) : Option Thrown :=
  if !h.hasUserEx then none
  else
    let st := ScheduleUsersLoop h todoScheduled h.UserEx ([], 0)
    let strAllCAData := st.1
    let iInstanceCount := st.2
    if !strAllCAData.isEmpty then
      if todoScheduled = WCA_TODO_INSTALL then
        DoDeferredActionsThrown h
          [⟨"SuiExecUsersInstall", strAllCAData, toUINT (iInstanceCount * h.COST_USER_ADD)⟩,
           ⟨"SuiRollbackUsersInstall", strAllCAData,
             toUINT (iInstanceCount * h.COST_USER_ADD)⟩]
      else
        DoDeferredActionsThrown h
          [⟨"SuiExecUsersUninstall", strAllCAData,
             toUINT (iInstanceCount * h.COST_USER_DELETE)⟩,
           ⟨"SuiRollbackUsersUninstall", strAllCAData,
             toUINT (iInstanceCount * h.COST_USER_DELETE)⟩]
    else none

/-- The fields `ExecuteUser` reads for one pass of its loop. -/
structure UserWorkItem where
  strName : CString
  strDomain : CString
  iAttributes : Int
  strPassword : CString
  strMembership : CString
deriving DecidableEq, Repr

/-- The `while (!strData.IsEmpty ())` loop of `CUserInstaller::ExecuteUser`: the field
tuples read by the successive passes.  `fuel` bounds the number of passes; every pass
shortens a non-empty `strData`, so `strData.length` passes always suffice. -/
def ExecuteUserLoop : Nat → CString → List UserWorkItem
  | 0, _ => []
  | fuel + 1, strData =>
    if strData.isEmpty then []
    else
      let rName := ExtractNextTabDelimitedBlock strData
      let rDomain := ExtractNextTabDelimitedBlock rName.2
      let rAttrib := ExtractNextTabDelimitedBlock rDomain.2
      let iAttributes := _ttoi rAttrib.1
      let rPassword := ExtractNextTabDelimitedBlock rAttrib.2
      let rMembership := ExtractNextTabDelimitedBlock rPassword.2
      ⟨rName.1, rDomain.1, iAttributes, rPassword.1, rMembership.1⟩ ::
        ExecuteUserLoop fuel rMembership.2

/-- A sub-action call made by `ExecuteUser`. -/
inductive UserSubAction where
  | AddUser (pszName pszDomain : CString) (iAttributes : Int)
      (pszPassword pszMembership : CString)
  | RemoveUser (pszName pszDomain : CString) (iAttributes : Int) (pszMembership : CString)
deriving DecidableEq, Repr

/-- The `switch (todo)` of `ExecuteUser` for one work item. -/
def ExecuteUserSwitch (todo : WCA_TODO) (w : UserWorkItem) : Option UserSubAction :=
  if todo = WCA_TODO_INSTALL ∨ todo = WCA_TODO_REINSTALL then
    some (.AddUser w.strName w.strDomain w.iAttributes w.strPassword w.strMembership)
  else if todo = WCA_TODO_UNINSTALL then
    some (.RemoveUser w.strName w.strDomain w.iAttributes w.strMembership)
  else none

/-- The decoding part of `CUserInstaller::ExecuteUser` on the `CustomActionData` value:
the leading to-do after translation, and the work items read by the loop. -/
def ExecuteUserDecode (fIsRollback : Bool) (CustomActionData : CString) :
    WCA_TODO × List UserWorkItem :=
  let rTodo := ExtractNextTabDelimitedBlock CustomActionData
  let todo := GetTranslatedInstallMode fIsRollback (_ttoi rTodo.1)
  (todo, ExecuteUserLoop rTodo.2.length rTodo.2)

/-- Embeds `CUserInstaller::ExecuteUser` for runs in which no sub-action throws: the
sub-action calls made, in order. -/
def ExecuteUser (fIsRollback : Bool) (CustomActionData : CString) : List UserSubAction :=
  let d := ExecuteUserDecode fIsRollback CustomActionData
  d.2.filterMap (ExecuteUserSwitch d.1)

/-- The work item `ScheduleUsers` plans for one record: the values it formats into the
record's block after the to-do field. -/
def plannedUserItem (h : MsiSession) (record : UserExRecord) : UserWorkItem :=
  ⟨GetRecordFormattedString h record.Name, GetRecordFormattedString h record.Domain,
   record.Attributes, GetRecordFormattedString h record.Password,
   ScheduleUsersMembership h (h.UserGroup record.User) []⟩

/-- The records `ScheduleUsers` plans for a pass: those whose component to-do matches. -/
def plannedUsers (h : MsiSession) (todoScheduled : WCA_TODO) : List UserExRecord :=
  h.UserEx.filter (fun record =>
    !todoMismatch (GetComponentToDo (h.MsiGetComponentState record.Component_)) todoScheduled)

/-! ## UrlReservationInstaller.cpp: planner and executor -/

/-- The ACL loop of `CUrlReservationInstaller::ScheduleUrlReservations`: each fetched ACL
record is formatted as `"%s|%s|%d"` and appended to `strAcl`. -/
def ScheduleUrlReservationsAcl (h : MsiSession) :
    List UrlReservationAclRecord → CString → CString
  | [], strAcl => strAcl
  | aclRecord :: more, strAcl =>
    let strAclUser := GetRecordFormattedString h aclRecord.Name
    let strAclDomain := GetRecordFormattedString h aclRecord.Domain
    let iAclAttributes := aclRecord.Attributes
    let strResult := strAclUser ++ '|' :: strAclDomain ++ '|' :: formatInt iAclAttributes
    ScheduleUrlReservationsAcl h more (appendBlock '|' strAcl strResult)

/-- The fetch loop of `ScheduleUrlReservations` over the remaining records; the state is
`(strAllCAData, iInstanceCount)`. -/
def ScheduleUrlReservationsLoop (h : MsiSession) (todoScheduled : WCA_TODO) :
    List UrlReservationRecord → CString × Int → CString × Int
  | [], st => st
  | record :: more, (strAllCAData, iInstanceCount) =>
    let todoComponent := GetComponentToDo (h.MsiGetComponentState record.Component_)
    if todoMismatch todoComponent todoScheduled then
      ScheduleUrlReservationsLoop h todoScheduled more (strAllCAData, iInstanceCount)
    else
      let strUrl := GetRecordFormattedString h record.Url
      let iAttributes := record.Attributes
      let strAcl := ScheduleUrlReservationsAcl h (h.UrlReservationAcl record.Reservation) []
      if strAcl.isEmpty then
        ScheduleUrlReservationsLoop h todoScheduled more (strAllCAData, iInstanceCount)
      else
        let strResult := formatInt todoComponent ++ '\t' :: strUrl ++ '\t' ::
          formatInt iAttributes ++ '\t' :: strAcl
        ScheduleUrlReservationsLoop h todoScheduled more
          (appendBlock '\t' strAllCAData strResult, iInstanceCount + 1)

/-- Embeds `CUrlReservationInstaller::ScheduleUrlReservations`: the `DoDeferredAction`
calls it makes, in order (the second call is not reached when the first throws).  The
cost argument is the `int` product, in wrapping 32-bit arithmetic, passed for a `UINT`
parameter. -/
def ScheduleUrlReservations (h : MsiSession) (todoScheduled : WCA_TODO) :
    List DeferredAction :=
  if !h.hasUrlReservation then []
  else
    let st := ScheduleUrlReservationsLoop h todoScheduled h.UrlReservation ([], 0)
    let strAllCAData := st.1
    let iInstanceCount := st.2
    if !strAllCAData.isEmpty then
      if todoScheduled = WCA_TODO_INSTALL then
        DoDeferredActions h
          [⟨"SuiExecUrlReservationsInstall", strAllCAData,
              toUINT (iInstanceCount * h.COST_URLRESERVATION_ADD)⟩,
           ⟨"SuiRollbackUrlReservationsInstall", strAllCAData,
              toUINT (iInstanceCount * h.COST_URLRESERVATION_ADD)⟩]
      else
        DoDeferredActions h
          [⟨"SuiExecUrlReservationsUninstall", strAllCAData,
              toUINT (iInstanceCount * h.COST_URLRESERVATION_DELETE)⟩,
           ⟨"SuiRollbackUrlReservationsUninstall", strAllCAData,
              toUINT (iInstanceCount * h.COST_URLRESERVATION_DELETE)⟩]
    else []

/-- What `ScheduleUrlReservations` throws after a successful table check: what its first
throwing `DoDeferredAction` call throws (the handler logs and throws it again). -/
def ScheduleUrlReservationsThrown (h : MsiSession) (todoScheduled : WCA_TODO) :
    Option Thrown :=
  if !h.hasUrlReservation then none
  else
    let st := ScheduleUrlReservationsLoop h todoScheduled h.UrlReservation ([], 0)
    let strAllCAData := st.1
    let iInstanceCount := st.2
    if !strAllCAData.isEmpty then
      if todoScheduled = WCA_TODO_INSTALL then
        DoDeferredActionsThrown h
          [⟨"SuiExecUrlReservationsInstall", strAllCAData,
              toUINT (iInstanceCount * h.COST_URLRESERVATION_ADD)⟩,
           ⟨"SuiRollbackUrlReservationsInstall", strAllCAData,
              toUINT (iInstanceCount * h.COST_URLRESERVATION_ADD)⟩]
      else
        DoDeferredActionsThrown h
          [⟨"SuiExecUrlReservationsUninstall", strAllCAData,
              toUINT (iInstanceCount * h.COST_URLRESERVATION_DELETE)⟩,
           ⟨"SuiRollbackUrlReservationsUninstall", strAllCAData,
              toUINT (iInstanceCount * h.COST_URLRESERVATION_DELETE)⟩]
    else none

/-- The fields `ExecuteUrlReservation` reads for one pass of its loop; `todo` is
`(WCA_TODO)_ttoi (strTodo)`, before translation. -/
structure UrlReservationWorkItem where
  todo : WCA_TODO
  strUrl : CString
  iAttributes : Int
  strAcl : CString
deriving DecidableEq, Repr

/-- The `while (!strData.IsEmpty ())` loop of
`CUrlReservationInstaller::ExecuteUrlReservation`: the field tuples read by the
successive passes.  `fuel` bounds the number of passes; every pass shortens a non-empty
`strData`, so `strData.length` passes always suffice. -/
def ExecuteUrlReservationLoop : Nat → CString → List UrlReservationWorkItem
  | 0, _ => []
  | fuel + 1, strData =>
    if strData.isEmpty then []
    else
      let rTodo := ExtractNextTabDelimitedBlock strData
      let rUrl := ExtractNextTabDelimitedBlock rTodo.2
      let rAttributes := ExtractNextTabDelimitedBlock rUrl.2
      let iAttributes := _ttoi rAttributes.1
      let rAcl := ExtractNextTabDelimitedBlock rAttributes.2
      ⟨_ttoi rTodo.1, rUrl.1, iAttributes, rAcl.1⟩ ::
        ExecuteUrlReservationLoop fuel rAcl.2

/-- The decoding part of `ExecuteUrlReservation` on the `CustomActionData` value. -/
def ExecuteUrlReservationDecode (CustomActionData : CString) :
    List UrlReservationWorkItem :=
  ExecuteUrlReservationLoop CustomActionData.length CustomActionData

/-- A sub-action call made by `ExecuteUrlReservation`. -/
inductive UrlReservationSubAction where
  | AddUrlReservation (pszUrl : CString) (iAttributes : Int) (pszAcl : CString)
  | RemoveUrlReservation (pszUrl : CString)
deriving DecidableEq, Repr

/-- The `switch (todo)` of `ExecuteUrlReservation` for one work item, after translating
the item's to-do. -/
def ExecuteUrlReservationSwitch (fIsRollback : Bool) (w : UrlReservationWorkItem) :
    Option UrlReservationSubAction :=
  let todo := GetTranslatedInstallMode fIsRollback w.todo
  if todo = WCA_TODO_INSTALL ∨ todo = WCA_TODO_REINSTALL then
    some (.AddUrlReservation w.strUrl w.iAttributes w.strAcl)
  else if todo = WCA_TODO_UNINSTALL then
    some (.RemoveUrlReservation w.strUrl)
  else none

/-- Embeds `CUrlReservationInstaller::ExecuteUrlReservation` for runs in which no sub-action
throws: the sub-action calls made, in order. -/
def ExecuteUrlReservation (fIsRollback : Bool) (CustomActionData : CString) :
    List UrlReservationSubAction :=
  (ExecuteUrlReservationDecode CustomActionData).filterMap
    (ExecuteUrlReservationSwitch fIsRollback)

/-- The work item `ScheduleUrlReservations` plans for one record: the values it formats
into the record's block. -/
def plannedUrlReservationItem (h : MsiSession) (record : UrlReservationRecord) :
    UrlReservationWorkItem :=
  ⟨GetComponentToDo (h.MsiGetComponentState record.Component_),
   GetRecordFormattedString h record.Url, record.Attributes,
   ScheduleUrlReservationsAcl h (h.UrlReservationAcl record.Reservation) []⟩

/-- The records `ScheduleUrlReservations` plans for a pass: those whose component to-do
matches and whose ACL string is not empty. -/
def plannedUrlReservations (h : MsiSession) (todoScheduled : WCA_TODO) :
    List UrlReservationRecord :=
  h.UrlReservation.filter (fun record =>
    !todoMismatch (GetComponentToDo (h.MsiGetComponentState record.Component_)) todoScheduled
      && !(ScheduleUrlReservationsAcl h (h.UrlReservationAcl record.Reservation) []).isEmpty)

/-- The block of text `ScheduleUrlReservations` formats for a work item:
`"%d\t%s\t%d\t%s"` of to-do, URL, attributes and ACL string. -/
def encodeUrlReservationItem (w : UrlReservationWorkItem) : CString :=
  formatInt w.todo ++ '\t' :: w.strUrl ++ '\t' :: formatInt w.iAttributes ++ '\t' :: w.strAcl

/-- A work item whose URL and ACL string contain no tab and whose two numbers are C
`int` values. -/
def UrlItemDecodable (w : UrlReservationWorkItem) : Prop :=
  '\t' ∉ w.strUrl ∧ '\t' ∉ w.strAcl ∧
  INT_MIN ≤ w.todo ∧ w.todo ≤ INT_MAX ∧ INT_MIN ≤ w.iAttributes ∧ w.iAttributes ≤ INT_MAX

/-! ## A concrete session -/

/-- A session with one component that is being installed (installed state Absent, action
state Local), two `UserEx` records (Bob, then Alice who belongs to one group) and two
`UrlReservation` records with two ACL records each, and one `GroupEx` record; formatting
leaves text unchanged. -/
def exampleSession : MsiSession where
  MsiGetComponentState := fun _ => ⟨ERROR_SUCCESS, INSTALLSTATE_ABSENT, INSTALLSTATE_LOCAL⟩
  MsiFormatRecord := fun s => s
  hasUserEx := true
  UserEx :=
    [⟨"u2".toList, "c1".toList, "Bob".toList, [], "pw".toList, 16⟩,
     ⟨"u1".toList, "c1".toList, "Alice".toList, "CORP".toList, "S3cr3t!".toList, 0⟩]
  UserGroup := fun u => if u = "u1".toList then ["g1".toList] else []
  Group := fun _ => ⟨"Admins".toList, "CORP".toList⟩
  hasUrlReservation := true
  UrlReservation :=
    [⟨"r1".toList, "c1".toList, "http://+:80/app/".toList, 2⟩,
     ⟨"r2".toList, "c1".toList, "http://+:81/".toList, 0⟩]
  UrlReservationAcl := fun _ =>
    [⟨"a1".toList, "jdoe".toList, "CORP".toList, 1⟩, ⟨"a2".toList, "svc".toList, [], 3⟩]
  COST_USER_ADD := 1
  COST_USER_DELETE := 1
  COST_URLRESERVATION_ADD := 1
  COST_URLRESERVATION_DELETE := 1
  hasGroupEx := true
  GroupEx := [⟨"g1".toList, "c1".toList, "Admins".toList, [], "Administrators".toList, 0⟩]
  COST_GROUP_ADD := 1
  COST_GROUP_DELETE := 1

/-- The Reinstall rule in the words of the specification: action state Local or Source
and installed state Local or Source. -/
def specReinstallRule (isInstalled isAction : INSTALLSTATE) : Prop :=
  (isAction = INSTALLSTATE_LOCAL ∨ isAction = INSTALLSTATE_SOURCE) ∧
  (isInstalled = INSTALLSTATE_LOCAL ∨ isInstalled = INSTALLSTATE_SOURCE)

/-- The Uninstall rule in the words of the specification: action state Absent or Removed
and installed state Local or Source. -/
def specUninstallRule (isInstalled isAction : INSTALLSTATE) : Prop :=
  (isAction = INSTALLSTATE_ABSENT ∨ isAction = INSTALLSTATE_REMOVED) ∧
  (isInstalled = INSTALLSTATE_LOCAL ∨ isInstalled = INSTALLSTATE_SOURCE)

/-- The Install rule in the words of the specification: action state Local or Source
(installed state anything), or action state Default with installed state Local or Source. -/
def specInstallRule (isInstalled isAction : INSTALLSTATE) : Prop :=
  (isAction = INSTALLSTATE_LOCAL ∨ isAction = INSTALLSTATE_SOURCE) ∨
  (isAction = INSTALLSTATE_DEFAULT ∧
    (isInstalled = INSTALLSTATE_LOCAL ∨ isInstalled = INSTALLSTATE_SOURCE))

instance (i a : INSTALLSTATE) : Decidable (specReinstallRule i a) := by
  unfold specReinstallRule
  infer_instance

instance (i a : INSTALLSTATE) : Decidable (specUninstallRule i a) := by
  unfold specUninstallRule
  infer_instance

instance (i a : INSTALLSTATE) : Decidable (specInstallRule i a) := by
  unfold specInstallRule
  infer_instance

/-! ## GroupInstaller.cpp: planner and executor -/

/-- The text `ScheduleGroups` formats for one matching record: `"%d\t%s\t%s\t%d\t%s"` of
to-do, name, domain, attributes, description. -/
def ScheduleGroupsBlock (h : MsiSession) (record : GroupExRecord) : CString :=
  let todoComponent := GetComponentToDo (h.MsiGetComponentState record.Component_)
  let strName := GetRecordFormattedString h record.Name
  let strDomain := GetRecordFormattedString h record.Domain
  let strDescription := GetRecordFormattedString h record.Description
  let iAttributes := record.Attributes
  formatInt todoComponent ++ '\t' :: strName ++ '\t' :: strDomain ++ '\t' ::
    formatInt iAttributes ++ '\t' :: strDescription

/-- The fetch loop of `CGroupInstaller::ScheduleGroups` over the remaining records; the
state is `(strAllCAData, iInstanceCount)`. -/
def ScheduleGroupsLoop (h : MsiSession) (todoScheduled : WCA_TODO) :
    List GroupExRecord → CString × Int → CString × Int
  | [], st => st
  | record :: more, (strAllCAData, iInstanceCount) =>
    let todoComponent := GetComponentToDo (h.MsiGetComponentState record.Component_)
    if todoMismatch todoComponent todoScheduled then
      ScheduleGroupsLoop h todoScheduled more (strAllCAData, iInstanceCount)
    else
      let strResult := ScheduleGroupsBlock h record
      ScheduleGroupsLoop h todoScheduled more
        (appendBlock '\t' strAllCAData strResult, iInstanceCount + 1)

/-- Embeds `CGroupInstaller::ScheduleGroups`: the `DoDeferredAction` calls it makes, in
order, in a run where each of them succeeds.  The test before scheduling is
`if (strAllCAData.IsEmpty ())`, as in the source. -/
def ScheduleGroups (h : MsiSession) (todoScheduled : WCA_TODO) : List DeferredAction :=
  if !h.hasGroupEx then []
  else
    let st := ScheduleGroupsLoop h todoScheduled h.GroupEx ([], 0)
    let strAllCAData := st.1
    let iInstanceCount := st.2
    if strAllCAData.isEmpty then
      if todoScheduled = WCA_TODO_INSTALL then
        [⟨"SuiExecGroupsInstall", strAllCAData, iInstanceCount * h.COST_GROUP_ADD⟩,
         ⟨"SuiRollbackGroupsInstall", strAllCAData, iInstanceCount * h.COST_GROUP_ADD⟩]
      else
        [⟨"SuiExecGroupsUninstall", strAllCAData, iInstanceCount * h.COST_GROUP_DELETE⟩,
         ⟨"SuiRollbackGroupsUninstall", strAllCAData, iInstanceCount * h.COST_GROUP_DELETE⟩]
    else []

/-- The fields `ExecuteGroup` reads for one pass of its loop. -/
structure GroupWorkItem where
  strName : CString
  strDomain : CString
  iAttributes : Int
  strDescription : CString
deriving DecidableEq, Repr

/-- The `while (!strData.IsEmpty ())` loop of `CGroupInstaller::ExecuteGroup`: the field
tuples read by the successive passes.  `fuel` bounds the number of passes; every pass
shortens a non-empty `strData`, so `strData.length` passes always suffice. -/
def ExecuteGroupLoop : Nat → CString → List GroupWorkItem
  | 0, _ => []
  | fuel + 1, strData =>
    if strData.isEmpty then []
    else
      let rName := ExtractNextTabDelimitedBlock strData
      let rDomain := ExtractNextTabDelimitedBlock rName.2
      let rAttrib := ExtractNextTabDelimitedBlock rDomain.2
      let rDescription := ExtractNextTabDelimitedBlock rAttrib.2
      let iAttributes := _ttoi rAttrib.1
      ⟨rName.1, rDomain.1, iAttributes, rDescription.1⟩ ::
        ExecuteGroupLoop fuel rDescription.2

/-- A sub-action call made by `ExecuteGroup`. -/
inductive GroupSubAction where
  | AddGroup (pszName pszDomain : CString) (iAttributes : Int) (pszDescription : CString)
  | RemoveGroup (pszName pszDomain : CString) (iAttributes : Int)
deriving DecidableEq, Repr

/-- The `switch (todo)` of `ExecuteGroup` for one work item. -/
def ExecuteGroupSwitch (todo : WCA_TODO) (w : GroupWorkItem) : Option GroupSubAction :=
  if todo = WCA_TODO_INSTALL ∨ todo = WCA_TODO_REINSTALL then
    some (.AddGroup w.strName w.strDomain w.iAttributes w.strDescription)
  else if todo = WCA_TODO_UNINSTALL then
    some (.RemoveGroup w.strName w.strDomain w.iAttributes)
  else none

/-- The decoding part of `CGroupInstaller::ExecuteGroup` on the `CustomActionData` value:
the leading to-do after translation, and the work items read by the loop. -/
def ExecuteGroupDecode (fIsRollback : Bool) (CustomActionData : CString) :
    WCA_TODO × List GroupWorkItem :=
  let rTodo := ExtractNextTabDelimitedBlock CustomActionData
  let todo := GetTranslatedInstallMode fIsRollback (_ttoi rTodo.1)
  (todo, ExecuteGroupLoop rTodo.2.length rTodo.2)

/-- Embeds `CGroupInstaller::ExecuteGroup` for runs in which no sub-action throws: the
sub-action calls made, in order. -/
def ExecuteGroup (fIsRollback : Bool) (CustomActionData : CString) : List GroupSubAction :=
  let d := ExecuteGroupDecode fIsRollback CustomActionData
  d.2.filterMap (ExecuteGroupSwitch d.1)

/-- The example session with its component being reinstalled (installed state Local, action
state Local). -/
def exampleReinstallSession : MsiSession :=
  { exampleSession with
    MsiGetComponentState := fun _ => ⟨ERROR_SUCCESS, INSTALLSTATE_LOCAL, INSTALLSTATE_LOCAL⟩ }

/-- The example session with its component being removed (installed state Local, action
state Absent). -/
def exampleUninstallSession : MsiSession :=
  { exampleSession with
    MsiGetComponentState := fun _ => ⟨ERROR_SUCCESS, INSTALLSTATE_LOCAL, INSTALLSTATE_ABSENT⟩ }
/-- The example session being uninstalled, with Alice as the only `UserEx` record. -/
def exampleSingleUserUninstallSession : MsiSession :=
  { exampleUninstallSession with
    UserEx := [⟨"u1".toList, "c1".toList, "Alice".toList, "CORP".toList, "S3cr3t!".toList, 0⟩] }

/-! ## Calls outside the repository and what they answer -/

/-- One call leaving the repository's own code, with the arguments that matter.
`LookupAccountName` is the account lookup inside the constructor `CSid sid (name)`;
`HttpQueryServiceConfiguration` carries whether a result buffer was supplied;
`ProgressMessage` is `CInstallerBase::ProgressMessage`, which reports progress to the
host through `MsiProcessMessage` and lets no exception escape. -/
inductive OsCall where
  | LookupAccountName (pszAccountName : CString)
  | DsGetDcName (pszDomain : CString)
  | NetUserAdd (servername name password : CString) (flags : Nat)
  | NetUserGetInfo (servername username : CString)
  | NetUserSetInfo (servername username password : CString) (flags : Nat)
  | NetUserDel (servername username : CString)
  | LsaOpenPolicy
  | LsaAddAccountRights (account : CString)
  | LsaRemoveAccountRights (account : CString)
  | LsaClose
  | NetGroupAddUser (servername : Option CString) (GroupName username : CString)
  | NetLocalGroupAddMembers (servername groupname member : CString)
  | NetGroupDelUser (servername : Option CString) (GroupName username : CString)
  | NetLocalGroupDelMembers (servername groupname member : CString)
  | ADsGetObject (path : CString)
  | IADsGroup_Add (group member : CString)
  | IADsGroup_Remove (group member : CString)
  | NetLocalGroupAdd (servername name comment : CString)
  | NetLocalGroupGetInfo (servername name : CString)
  | NetLocalGroupSetInfo (servername name comment : CString)
  | NetLocalGroupDel (servername name : CString)
  | HttpInitialize
  | HttpQueryServiceConfiguration (url : CString) (withBuffer : Bool)
  | HttpDeleteServiceConfiguration (url : CString)
  | HttpSetServiceConfiguration (url : CString) (dacl : List (CString × Nat))
  | HttpTerminate
  | ProgressMessage (uiCost : Int) (fExtendProgressBar : Bool)
deriving DecidableEq, Repr

/-- The answers of the operating system, as far as the executors look at them. -/
structure OS where
  /-- Result code of a call: the Win32 or `NERR_` code it returns (for
  `LookupAccountName`, `0` when the account resolves and else the last error; for
  `LsaOpenPolicy` and the account-rights calls the code after `LsaNtStatusToWinError`;
  for `ADsGetObject` and the `IADsGroup` methods the 32-bit pattern of the `HRESULT`). -/
  result : OsCall → Nat
  /-- Whether the SID of a resolved account is one of `Sids::Service ()`,
  `Sids::System ()`, `Sids::NetworkService ()`. -/
  isWellKnownServiceSid : CString → Bool
  /-- The controller name `DsGetDcName` reports for a domain, without its leading `\\`. -/
  DomainControllerName : CString → CString
  /-- The `usri1_flags` that `NetUserGetInfo` reports for an existing user. -/
  usri1_flags : CString → CString → Nat

/-- The calls made by a piece of code, in order, and what it threw, if anything. -/
structure Outcome where
  calls : List OsCall
  thrown : Option Thrown
deriving DecidableEq, Repr

/-- Run `a`, then `b` unless `a` threw. -/
def Outcome.andThen (a b : Outcome) : Outcome :=
  match a.thrown with
  | some _ => a
  | none => ⟨a.calls ++ b.calls, b.thrown⟩


def NO_ERROR : Nat := 0
def NERR_Success : Nat := 0
def NERR_GroupNotFound : Nat := 2220
def NERR_UserNotFound : Nat := 2221
def NERR_GroupExists : Nat := 2223
def NERR_UserExists : Nat := 2224
def NERR_PasswordTooShort : Nat := 2245
def NERR_PasswordTooLong : Nat := 2703
def ERROR_FILE_NOT_FOUND : Nat := 2
def ERROR_INSUFFICIENT_BUFFER : Nat := 122
def ERROR_NONE_MAPPED : Nat := 1332
def ERROR_MEMBER_IN_ALIAS : Nat := 1378
def ERROR_ALIAS_EXISTS : Nat := 1379
def ERROR_OBJECT_ALREADY_EXISTS : Nat := 5010
/-- The `HRESULT` `E_FAIL` (`0x80004005`). -/
def E_FAIL : Int := -2147467259

def UF_SCRIPT : Nat := 0x1
def UF_ACCOUNTDISABLE : Nat := 0x2
def UF_PASSWD_CANT_CHANGE : Nat := 0x40
def UF_DONT_EXPIRE_PASSWD : Nat := 0x10000
def UF_PASSWORD_EXPIRED : Nat := 0x800000
def GENERIC_WRITE : Nat := 0x40000000
def GENERIC_EXECUTE : Nat := 0x20000000

/-! ### Attribute bits (UserInstaller.h, GroupInstaller.h, UrlReservationInstaller.h) -/

def SCAU_DONT_EXPIRE_PASSWRD : Nat := 0x00000001
def SCAU_PASSWD_CANT_CHANGE : Nat := 0x00000002
def SCAU_PASSWD_CHANGE_REQD_ON_LOGIN : Nat := 0x00000004
def SCAU_DISABLE_ACCOUNT : Nat := 0x00000008
def SCAU_FAIL_IF_EXISTS : Nat := 0x00000010
def SCAU_UPDATE_IF_EXISTS : Nat := 0x00000020
def SCAU_ALLOW_LOGON_AS_SERVICE : Nat := 0x00000040
def SCAU_IGNORE_SERVICE_ACCOUNTS : Nat := 0x00000080
def SCAU_DONT_REMOVE_ON_UNINSTALL : Nat := 0x00000100
def SCAU_DONT_CREATE_USER : Nat := 0x00000200

def SCAG_FAIL_IF_EXISTS : Nat := 0x00000010
def SCAG_UPDATE_IF_EXISTS : Nat := 0x00000020
def SCAG_DONT_REMOVE_ON_UNINSTALL : Nat := 0x00000100
def SCAG_DONT_CREATE_GROUP : Nat := 0x00000200

def SCAUR_FAIL_IF_EXISTS : Nat := 0x00000001
def SCAUR_UPDATE_IF_EXISTS : Nat := 0x00000002
def SCAUR_DONT_REMOVE_ON_UNINSTALL : Nat := 0x00000004

def SCAURA_CAN_REGISTER : Nat := 0x00000001
def SCAURA_CAN_DELEGATE : Nat := 0x00000002

/-- The C test `(mask & iAttributes) != 0` on a 32-bit `int` in two's complement. -/
def testFlag (iAttributes : Int) (mask : Nat) : Bool :=
  ((iAttributes % 4294967296).toNat &&& mask) != 0

/-- The text `"%s\\%s"` of domain and name when the domain is not empty, else the name:
the fully qualified account name the installers build. -/
def fqAccountName (strDomain strName : CString) : CString :=
  if strDomain.length > 0 then strDomain ++ '\\' :: strName else strName

/-- Throw `_com_error (HRESULT_FROM_WIN32 (er))` when that `HRESULT` is a failure:
the pattern `hr = HRESULT_FROM_WIN32 (er); if (FAILED (hr)) throw _com_error (hr);`
after the calls made so far. -/
def throwIfFailed (calls : List OsCall) (er : Nat) : Outcome :=
  if FAILED (HRESULT_FROM_WIN32 er) then
    ⟨calls, some (.com_error (HRESULT_FROM_WIN32 er))⟩
  else ⟨calls, none⟩

/-! ### PrincipalInstaller.cpp -/

/-- Embeds `CPrincipalInstaller::GetDomainOrControllerName`: the calls made and the name
returned. -/
def GetDomainOrControllerName (os : OS) (pszDomain : CString) : List OsCall × CString :=
  if pszDomain.length > 0 then
    if os.result (.DsGetDcName pszDomain) = ERROR_SUCCESS then
      ([.DsGetDcName pszDomain], os.DomainControllerName pszDomain)
    else
      ([.DsGetDcName pszDomain], pszDomain)
  else ([], [])
/-! ### UserInstaller.cpp: sub-actions -/

/-- Set the bits of `mask` in a 32-bit flag word when `b` holds, clear them otherwise. -/
def setOrClearFlag (flags mask : Nat) (b : Bool) : Nat :=
  if b then flags ||| mask else flags &&& (4294967295 - mask)

/-- Embeds `CUserInstaller::SetUserPasswordAndAttributes`, on the `usri1_flags` word:
the flags after the four attribute tests. -/
def SetUserPasswordAndAttributes (usri1_flags : Nat) (iAttributes : Int) : Nat :=
  let f1 := setOrClearFlag usri1_flags UF_DONT_EXPIRE_PASSWD
    (testFlag iAttributes SCAU_DONT_EXPIRE_PASSWRD)
  let f2 := setOrClearFlag f1 UF_PASSWD_CANT_CHANGE
    (testFlag iAttributes SCAU_PASSWD_CANT_CHANGE)
  let f3 := setOrClearFlag f2 UF_ACCOUNTDISABLE (testFlag iAttributes SCAU_DISABLE_ACCOUNT)
  setOrClearFlag f3 UF_PASSWORD_EXPIRED
    (testFlag iAttributes SCAU_PASSWD_CHANGE_REQD_ON_LOGIN)

/-- The text `"WinNT://%s/%s,user"` or `"WinNT://%s/%s,group"` of a domain and a name. -/
def adsPath (strDomain strName : CString) (kind : String) : CString :=
  "WinNT://".toList ++ strDomain ++ '/' :: strName ++ ',' :: kind.toList

/-- Embeds `CUserInstaller::AddUserToGroup`. -/
def AddUserToGroup (os : OS) (strUser strUserDomain strGroup strGroupDomain : CString) :
    Outcome :=
  let pwzGroupDomain : Option CString :=
    if strGroupDomain.length > 0 then some strGroupDomain else none
  let cGlobal := OsCall.NetGroupAddUser pwzGroupDomain strGroup strUser
  let cLocal := OsCall.NetLocalGroupAddMembers strGroupDomain strGroup
    (fqAccountName strUserDomain strUser)
  let fLocal : Bool := decide (NERR_GroupNotFound = os.result cGlobal)
  let calls := if fLocal then [cGlobal, cLocal] else [cGlobal]
  let ui := if fLocal then os.result cLocal else os.result cGlobal
  let hr : Int := if ui = ERROR_MEMBER_IN_ALIAS then 0 else HRESULT_FROM_WIN32 ui
  if FAILED hr then
    let strADUser := adsPath strUserDomain strUser "user"
    let strADGroup := adsPath strGroupDomain strGroup "group"
    let cGet := OsCall.ADsGetObject strADGroup
    let hrGet := toHRESULT (os.result cGet)
    if FAILED hrGet then
      ⟨calls ++ [cGet], some (.com_error hrGet)⟩
    else
      let cAdd := OsCall.IADsGroup_Add strADGroup strADUser
      let hrAdd := toHRESULT (os.result cAdd)
      let hrAdd2 : Int :=
        if HRESULT_FROM_WIN32 ERROR_OBJECT_ALREADY_EXISTS = hrAdd ∨
            HRESULT_FROM_WIN32 ERROR_MEMBER_IN_ALIAS = hrAdd then 0 else hrAdd
      if FAILED hrAdd2 then
        ⟨calls ++ [cGet, cAdd], some (.com_error hrAdd2)⟩
      else
        ⟨calls ++ [cGet, cAdd], none⟩
  else
    ⟨calls, none⟩

/-- Embeds `CUserInstaller::RemoveUserFromGroup`; its `catch (...)` handler logs and does
not rethrow. -/
def RemoveUserFromGroup (os : OS) (strUser strUserDomain strGroup strGroupDomain : CString) :
    Outcome :=
  let pwzGroupDomain : Option CString :=
    if strGroupDomain.length > 0 then some strGroupDomain else none
  let cGlobal := OsCall.NetGroupDelUser pwzGroupDomain strGroup strUser
  let cLocal := OsCall.NetLocalGroupDelMembers strGroupDomain strGroup
    (fqAccountName strUserDomain strUser)
  let fLocal : Bool := decide (NERR_GroupNotFound = os.result cGlobal)
  let calls := if fLocal then [cGlobal, cLocal] else [cGlobal]
  let ui := if fLocal then os.result cLocal else os.result cGlobal
  let hr : Int := HRESULT_FROM_WIN32 ui
  if FAILED hr then
    let strADUser := adsPath strUserDomain strUser "user"
    let strADGroup := adsPath strGroupDomain strGroup "group"
    let cGet := OsCall.ADsGetObject strADGroup
    let hrGet := toHRESULT (os.result cGet)
    if FAILED hrGet then
      ⟨calls ++ [cGet], none⟩
    else
      ⟨calls ++ [cGet, OsCall.IADsGroup_Remove strADGroup strADUser], none⟩
  else
    ⟨calls, none⟩

/-- Embeds `CUserInstaller::ModifyUserLocalServiceRight`; its outer `catch (...)`
handler rethrows when `fAdd` holds and only logs otherwise. -/
def ModifyUserLocalServiceRight (os : OS) (strDomain strName : CString) (fAdd : Bool) :
    Outcome :=
  let strFQUserName := fqAccountName strDomain strName
  let cSid := OsCall.LookupAccountName strFQUserName
  let cRight := if fAdd then OsCall.LsaAddAccountRights strFQUserName
    else OsCall.LsaRemoveAccountRights strFQUserName
  let body : Outcome :=
    if os.result cSid ≠ 0 then
      ⟨[cSid], some (.CAtlException (HRESULT_FROM_WIN32 (os.result cSid)))⟩
    else if os.isWellKnownServiceSid strFQUserName then
      ⟨[cSid], none⟩
    else if FAILED (HRESULT_FROM_WIN32 (os.result .LsaOpenPolicy)) then
      ⟨[cSid, .LsaOpenPolicy],
        some (.com_error (HRESULT_FROM_WIN32 (os.result .LsaOpenPolicy)))⟩
    else
      throwIfFailed [cSid, .LsaOpenPolicy, cRight, .LsaClose] (os.result cRight)
  if fAdd then body else ⟨body.calls, none⟩

/-- The block of `CUserInstaller::AddUser` that creates the account (the body of
`if (!(SCAU_DONT_CREATE_USER & iAttributes))`, UserInstaller.cpp lines 251-301). -/
def AddUserCreate (os : OS) (strName pszDomain : CString) (iAttributes : Int)
    (strPassword : CString) : Outcome :=
  if testFlag iAttributes SCAU_DONT_CREATE_USER then ⟨[], none⟩
  else
    let flags := SetUserPasswordAndAttributes UF_SCRIPT iAttributes
    let dc := GetDomainOrControllerName os pszDomain
    let cAdd := OsCall.NetUserAdd dc.2 strName strPassword flags
    let er := os.result cAdd
    if NERR_UserExists = er then
      if testFlag iAttributes SCAU_UPDATE_IF_EXISTS then
        let cGet := OsCall.NetUserGetInfo dc.2 strName
        if NERR_Success = os.result cGet then
          let cSet := OsCall.NetUserSetInfo dc.2 strName strPassword
            (SetUserPasswordAndAttributes (os.usri1_flags dc.2 strName) iAttributes)
          throwIfFailed (dc.1 ++ [cAdd, cGet, cSet]) (os.result cSet)
        else
          throwIfFailed (dc.1 ++ [cAdd, cGet]) (os.result cGet)
      else if !testFlag iAttributes SCAU_FAIL_IF_EXISTS then
        throwIfFailed (dc.1 ++ [cAdd]) NERR_Success
      else
        throwIfFailed (dc.1 ++ [cAdd]) er
    else if NERR_PasswordTooShort = er ∨ NERR_PasswordTooLong = er then
      ⟨dc.1 ++ [cAdd], some (.com_error (HRESULT_FROM_WIN32 er))⟩
    else
      throwIfFailed (dc.1 ++ [cAdd]) er

/-- The membership loop of `CUserInstaller::AddUser`
(`while (!strMembership.IsEmpty ())`): two bar-delimited blocks per pass, and a call of
`AddUserToGroup` when the group name is not empty.  `fuel` bounds the number of passes;
`strMembership.length` passes always suffice. -/
def AddUserMembership (os : OS) (strName strDomain : CString) : Nat → CString → Outcome
  | 0, _ => ⟨[], none⟩
  | fuel + 1, strMembership =>
    if strMembership.isEmpty then ⟨[], none⟩
    else
      let rGroup := ExtractNextBarDelimitedBlock strMembership
      let rGroupDomain := ExtractNextBarDelimitedBlock rGroup.2
      if rGroup.1.length > 0 then
        (AddUserToGroup os strName strDomain rGroup.1 rGroupDomain.1).andThen
          (AddUserMembership os strName strDomain fuel rGroupDomain.2)
      else
        AddUserMembership os strName strDomain fuel rGroupDomain.2

/-- Embeds `CUserInstaller::AddUser`.  `COST_USER_ADD` is the constant of the absent
`InstanceServiceActions.h`. -/
def AddUser (os : OS) (COST_USER_ADD : Int) (pszName pszDomain : CString)
    (iAttributes : Int) (pszPassword pszMembership : CString) : Outcome :=
  let strFQUserName := fqAccountName pszDomain pszName
  let cSid := OsCall.LookupAccountName strFQUserName
  if os.result cSid ≠ 0 then
    ⟨[cSid], some (.CAtlException (HRESULT_FROM_WIN32 (os.result cSid)))⟩
  else
    let fServiceAccount := os.isWellKnownServiceSid strFQUserName
    let body : Outcome :=
      if !fServiceAccount || !testFlag iAttributes SCAU_IGNORE_SERVICE_ACCOUNTS then
        (AddUserCreate os pszName pszDomain iAttributes pszPassword).andThen
          ((if testFlag iAttributes SCAU_ALLOW_LOGON_AS_SERVICE then
              ModifyUserLocalServiceRight os pszDomain pszName true
            else ⟨[], none⟩).andThen
            (AddUserMembership os pszName pszDomain pszMembership.length pszMembership))
      else ⟨[], none⟩
    (Outcome.mk [cSid] none).andThen
      (body.andThen ⟨[.ProgressMessage COST_USER_ADD false], none⟩)

/-- The membership loop of `CUserInstaller::RemoveUser`: two bar-delimited blocks per pass,
and a call of `RemoveUserFromGroup` when the group name is not empty. -/
def RemoveUserMembership (os : OS) (strName strDomain : CString) : Nat → CString → Outcome
  | 0, _ => ⟨[], none⟩
  | fuel + 1, strMembership =>
    if strMembership.isEmpty then ⟨[], none⟩
    else
      let rGroup := ExtractNextBarDelimitedBlock strMembership
      let rGroupDomain := ExtractNextBarDelimitedBlock rGroup.2
      if rGroup.1.length > 0 then
        (RemoveUserFromGroup os strName strDomain rGroup.1 rGroupDomain.1).andThen
          (RemoveUserMembership os strName strDomain fuel rGroupDomain.2)
      else
        RemoveUserMembership os strName strDomain fuel rGroupDomain.2

/-- Embeds `CUserInstaller::RemoveUser`. -/
def RemoveUser (os : OS) (COST_USER_DELETE : Int) (pszName pszDomain : CString)
    (iAttributes : Int) (pszMembership : CString) : Outcome :=
  let strFQUserName := fqAccountName pszDomain pszName
  let cSid := OsCall.LookupAccountName strFQUserName
  if os.result cSid ≠ 0 then
    ⟨[cSid], some (.CAtlException (HRESULT_FROM_WIN32 (os.result cSid)))⟩
  else
    let fServiceAccount := os.isWellKnownServiceSid strFQUserName
    let body : Outcome :=
      if !fServiceAccount || !testFlag iAttributes SCAU_IGNORE_SERVICE_ACCOUNTS then
        (if testFlag iAttributes SCAU_ALLOW_LOGON_AS_SERVICE then
            ModifyUserLocalServiceRight os pszDomain pszName false
          else ⟨[], none⟩).andThen
          (if !testFlag iAttributes SCAU_DONT_CREATE_USER then
            let dc := GetDomainOrControllerName os pszDomain
            let cDel := OsCall.NetUserDel dc.2 pszName
            let er := if NERR_UserNotFound = os.result cDel then NERR_Success
              else os.result cDel
            throwIfFailed (dc.1 ++ [cDel]) er
          else
            RemoveUserMembership os pszName pszDomain pszMembership.length pszMembership)
      else ⟨[], none⟩
    (Outcome.mk [cSid] none).andThen
      (body.andThen ⟨[.ProgressMessage COST_USER_DELETE false], none⟩)
/-! ### GroupInstaller.cpp: sub-actions -/

/-- Embeds `CGroupInstaller::AddGroup`.  `COST_GROUP_ADD` is the constant of the absent
`InstanceServiceActions.h`. -/
def AddGroup (os : OS) (COST_GROUP_ADD : Int) (pszName pszDomain : CString)
    (iAttributes : Int) (pszDescription : CString) : Outcome :=
  let body : Outcome :=
    if testFlag iAttributes SCAG_DONT_CREATE_GROUP then ⟨[], none⟩
    else
      let dc := GetDomainOrControllerName os pszDomain
      let cAdd := OsCall.NetLocalGroupAdd dc.2 pszName pszDescription
      let er := os.result cAdd
      if er = NERR_GroupExists ∨ er = ERROR_ALIAS_EXISTS then
        if testFlag iAttributes SCAG_UPDATE_IF_EXISTS then
          let cGet := OsCall.NetLocalGroupGetInfo dc.2 pszName
          if NERR_Success = os.result cGet then
            let cSet := OsCall.NetLocalGroupSetInfo dc.2 pszName pszDescription
            throwIfFailed (dc.1 ++ [cAdd, cGet, cSet]) (os.result cSet)
          else
            throwIfFailed (dc.1 ++ [cAdd, cGet]) (os.result cGet)
        else if !testFlag iAttributes SCAG_FAIL_IF_EXISTS then
          throwIfFailed (dc.1 ++ [cAdd]) NERR_Success
        else
          throwIfFailed (dc.1 ++ [cAdd]) er
      else
        throwIfFailed (dc.1 ++ [cAdd]) er
  body.andThen ⟨[.ProgressMessage COST_GROUP_ADD false], none⟩

/-- Embeds `CGroupInstaller::RemoveGroup`. -/
def RemoveGroup (os : OS) (COST_GROUP_DELETE : Int) (pszName pszDomain : CString)
    (iAttributes : Int) : Outcome :=
  let body : Outcome :=
    if !testFlag iAttributes SCAG_DONT_CREATE_GROUP then
      let dc := GetDomainOrControllerName os pszDomain
      let cDel := OsCall.NetLocalGroupDel dc.2 pszName
      let er := if NERR_GroupNotFound = os.result cDel then NERR_Success
        else os.result cDel
      throwIfFailed (dc.1 ++ [cDel]) er
    else ⟨[], none⟩
  body.andThen ⟨[.ProgressMessage COST_GROUP_DELETE false], none⟩

/-! ### UrlReservationInstaller.cpp: sub-actions -/

/-- The access mask `AddUrlReservation` computes for one ACL entry. -/
def aclAccessMask (iAclAttributes : Int) : Nat :=
  let mask0 : Nat := 0
  let mask1 := if testFlag iAclAttributes SCAURA_CAN_REGISTER then mask0 ||| GENERIC_EXECUTE
    else mask0
  if testFlag iAclAttributes SCAURA_CAN_REGISTER then mask1 ||| GENERIC_WRITE else mask1

/-- The ACL loop of `CUrlReservationInstaller::AddUrlReservation`
(`while (!strAcl.IsEmpty ())`): three bar-delimited blocks per pass, an account lookup
for the SID and one allowed entry added to the access control list.  The result is the
lookups made and either what was thrown or the entries (account, mask) accumulated after
`dacl`.  `fuel` bounds the number of passes; `strAcl.length` passes always suffice. -/
def AddUrlReservationAcl (os : OS) :
    Nat → CString → List (CString × Nat) →
      List OsCall × Except Thrown (List (CString × Nat))
  | 0, _, dacl => ([], .ok dacl)
  | fuel + 1, strAcl, dacl =>
    if strAcl.isEmpty then ([], .ok dacl)
    else
      let rName := ExtractNextBarDelimitedBlock strAcl
      let rDomain := ExtractNextBarDelimitedBlock rName.2
      let rAttrib := ExtractNextBarDelimitedBlock rDomain.2
      let iAclAttributes := _ttoi rAttrib.1
      let mask := aclAccessMask iAclAttributes
      let strFQUserName := fqAccountName rDomain.1 rName.1
      let cSid := OsCall.LookupAccountName strFQUserName
      if os.result cSid ≠ 0 then
        ([cSid], .error (.CAtlException (HRESULT_FROM_WIN32 (os.result cSid))))
      else
        let rest := AddUrlReservationAcl os fuel rAttrib.2 (dacl ++ [(strFQUserName, mask)])
        (cSid :: rest.1, rest.2)

/-- The result of the exact-match query of a URL: the calls made and the last result
code (a second call with a buffer follows `ERROR_INSUFFICIENT_BUFFER`). -/
def queryUrlReservation (os : OS) (strUrl : CString) : List OsCall × Nat :=
  let cQuery := OsCall.HttpQueryServiceConfiguration strUrl false
  if os.result cQuery = ERROR_INSUFFICIENT_BUFFER then
    ([cQuery, .HttpQueryServiceConfiguration strUrl true],
      os.result (.HttpQueryServiceConfiguration strUrl true))
  else ([cQuery], os.result cQuery)

/-- The part of `AddUrlReservation` between a successful `HttpInitialize` and
`HttpTerminate`: query, optional delete, optional create
(UrlReservationInstaller.cpp lines 341-411).  After a failed delete or create call the
source calls `LogError` with a format holding `%s` and `%08lX` and the one integer
argument `lResult` (lines 383 and 408): the run ends there as `undefined`, before the
`throw` that follows in the text. -/
def AddUrlReservationConfigure (os : OS) (strUrl : CString) (iAttributes : Int)
    (dacl : List (CString × Nat)) : Outcome :=
  let q := queryUrlReservation os strUrl
  let cSet := OsCall.HttpSetServiceConfiguration strUrl dacl
  let create (calls : List OsCall) : Outcome :=
    if os.result cSet ≠ NO_ERROR then
      ⟨calls ++ [cSet], some .undefined⟩
    else ⟨calls ++ [cSet], none⟩
  if q.2 = NO_ERROR then
    if testFlag iAttributes SCAUR_UPDATE_IF_EXISTS then
      let cDel := OsCall.HttpDeleteServiceConfiguration strUrl
      if os.result cDel ≠ NO_ERROR then
        ⟨q.1 ++ [cDel], some .undefined⟩
      else create (q.1 ++ [cDel])
    else if testFlag iAttributes SCAUR_FAIL_IF_EXISTS then
      ⟨q.1, some (.com_error E_FAIL)⟩
    else ⟨q.1, none⟩
  else create q.1

/-- Embeds `CUrlReservationInstaller::AddUrlReservation`.  `COST_URLRESERVATION_ADD` is
the constant of the absent `InstanceServiceActions.h`.  The handler
`catch (const _com_error& error)` calls `HttpTerminate` and throws again; a run that has
ended as `undefined` does not reach it. -/
def AddUrlReservation (os : OS) (COST_URLRESERVATION_ADD : Int) (pszUrl : CString)
    (iAttributes : Int) (pszAcl : CString) : Outcome :=
  let acl := AddUrlReservationAcl os pszAcl.length pszAcl []
  match acl.2 with
  | .error e => ⟨acl.1, some e⟩
  | .ok dacl =>
    if os.result .HttpInitialize ≠ NO_ERROR then
      ⟨acl.1 ++ [.HttpInitialize],
        some (.com_error (HRESULT_FROM_WIN32 (os.result .HttpInitialize)))⟩
    else
      let r := AddUrlReservationConfigure os pszUrl iAttributes dacl
      match r.thrown with
      | some (.com_error hr) =>
        ⟨acl.1 ++ [.HttpInitialize] ++ r.calls ++ [.HttpTerminate], some (.com_error hr)⟩
      | some e => ⟨acl.1 ++ [.HttpInitialize] ++ r.calls, some e⟩
      | none =>
        ⟨acl.1 ++ [.HttpInitialize] ++ r.calls ++
          [.HttpTerminate, .ProgressMessage COST_URLRESERVATION_ADD false], none⟩

/-- Embeds `CUrlReservationInstaller::RemoveUrlReservation`.  After a failed delete call
the source calls `LogError` with a format holding `%s` and `%08lX` and the one integer
argument `lResult` (line 501): the run ends there as `undefined`, before the `throw`
and the handler that would call `HttpTerminate`. -/
def RemoveUrlReservation (os : OS) (COST_URLRESERVATION_DELETE : Int) (pszUrl : CString) :
    Outcome :=
  if os.result .HttpInitialize ≠ NO_ERROR then
    ⟨[.HttpInitialize], some (.com_error (HRESULT_FROM_WIN32 (os.result .HttpInitialize)))⟩
  else
    let q := queryUrlReservation os pszUrl
    let cDel := OsCall.HttpDeleteServiceConfiguration pszUrl
    if q.2 = NO_ERROR then
      if os.result cDel ≠ NO_ERROR then
        ⟨[.HttpInitialize] ++ q.1 ++ [cDel], some .undefined⟩
      else
        ⟨[.HttpInitialize] ++ q.1 ++
          [cDel, .HttpTerminate, .ProgressMessage COST_URLRESERVATION_DELETE false], none⟩
    else
      ⟨[.HttpInitialize] ++ q.1 ++
        [.HttpTerminate, .ProgressMessage COST_URLRESERVATION_DELETE false], none⟩

/-! ### The executors with their sub-actions run -/

/-- Per-item costs of the absent `InstanceServiceActions.h`, as the executors use them. -/
structure Costs where
  COST_USER_ADD : Int
  COST_USER_DELETE : Int
  COST_GROUP_ADD : Int
  COST_GROUP_DELETE : Int
  COST_URLRESERVATION_ADD : Int
  COST_URLRESERVATION_DELETE : Int

/-- Run the outcomes of a list of steps in order, stopping at the first that throws. -/
def runInOrder : List Outcome → Outcome
  | [] => ⟨[], none⟩
  | o :: more => o.andThen (runInOrder more)

/-- What `ExecuteUser` does for one decoded work item: the body of its `switch (todo)`. -/
def ExecuteUserItem (os : OS) (c : Costs) (todo : WCA_TODO) (w : UserWorkItem) : Outcome :=
  match ExecuteUserSwitch todo w with
  | some (.AddUser n d a p m) => AddUser os c.COST_USER_ADD n d a p m
  | some (.RemoveUser n d a m) => RemoveUser os c.COST_USER_DELETE n d a m
  | none => ⟨[], none⟩

/-- What `ExecuteGroup` does for one decoded work item: the body of its `switch (todo)`. -/
def ExecuteGroupItem (os : OS) (c : Costs) (todo : WCA_TODO) (w : GroupWorkItem) : Outcome :=
  match ExecuteGroupSwitch todo w with
  | some (.AddGroup n d a desc) => AddGroup os c.COST_GROUP_ADD n d a desc
  | some (.RemoveGroup n d a) => RemoveGroup os c.COST_GROUP_DELETE n d a
  | none => ⟨[], none⟩

/-- What `ExecuteUrlReservation` does for one decoded work item: translation of the
item's to-do and the body of its `switch (todo)`. -/
def ExecuteUrlReservationItem (os : OS) (c : Costs) (fIsRollback : Bool)
    (w : UrlReservationWorkItem) : Outcome :=
  match ExecuteUrlReservationSwitch fIsRollback w with
  | some (.AddUrlReservation u a acl) => AddUrlReservation os c.COST_URLRESERVATION_ADD u a acl
  | some (.RemoveUrlReservation u) => RemoveUrlReservation os c.COST_URLRESERVATION_DELETE u
  | none => ⟨[], none⟩

/-- Embeds `CUserInstaller::ExecuteUser` with its sub-actions run against `os`: the loop
stops at the first work item whose sub-action throws. -/
def ExecuteUserRun (os : OS) (c : Costs) (fIsRollback : Bool) (CustomActionData : CString) :
    Outcome :=
  let d := ExecuteUserDecode fIsRollback CustomActionData
  runInOrder (d.2.map (ExecuteUserItem os c d.1))

/-- Embeds `CGroupInstaller::ExecuteGroup` with its sub-actions run against `os`. -/
def ExecuteGroupRun (os : OS) (c : Costs) (fIsRollback : Bool) (CustomActionData : CString) :
    Outcome :=
  let d := ExecuteGroupDecode fIsRollback CustomActionData
  runInOrder (d.2.map (ExecuteGroupItem os c d.1))

/-- Embeds `CUrlReservationInstaller::ExecuteUrlReservation` with its sub-actions run
against `os`. -/
def ExecuteUrlReservationRun (os : OS) (c : Costs) (fIsRollback : Bool)
    (CustomActionData : CString) : Outcome :=
  runInOrder ((ExecuteUrlReservationDecode CustomActionData).map
    (ExecuteUrlReservationItem os c fIsRollback))

/-! ### Concrete operating-system answers -/

/-- An operating system in which every call succeeds and no account is a well-known
service account; `DsGetDcName` reports the controller `dc01`. -/
def successOS : OS where
  result := fun _ => 0
  isWellKnownServiceSid := fun _ => false
  DomainControllerName := fun _ => "dc01".toList
  usri1_flags := fun _ _ => UF_SCRIPT

/-- An operating system in which the principals are absent: account lookups fail with
`ERROR_NONE_MAPPED`, deleting a user or a group reports not found, the URL query reports
`ERROR_FILE_NOT_FOUND`, and every other call succeeds. -/
def absentOS : OS where
  result := fun c =>
    match c with
    | .LookupAccountName _ => ERROR_NONE_MAPPED
    | .NetUserDel _ _ => NERR_UserNotFound
    | .NetLocalGroupDel _ _ => NERR_GroupNotFound
    | .HttpQueryServiceConfiguration _ _ => ERROR_FILE_NOT_FOUND
    | _ => 0
  isWellKnownServiceSid := fun _ => false
  DomainControllerName := fun d => d
  usri1_flags := fun _ _ => UF_SCRIPT

/-- An operating system in which every principal exists already: creating a user, a group
or querying a URL reservation reports that it exists, and every other call succeeds. -/
def existingOS : OS where
  result := fun c =>
    match c with
    | .NetUserAdd _ _ _ _ => NERR_UserExists
    | .NetLocalGroupAdd _ _ _ => NERR_GroupExists
    | .HttpQueryServiceConfiguration _ false => ERROR_INSUFFICIENT_BUFFER
    | _ => 0
  isWellKnownServiceSid := fun _ => false
  DomainControllerName := fun d => d
  usri1_flags := fun _ _ => UF_SCRIPT

/-- Unit costs for the examples. -/
def exampleCosts : Costs := ⟨1, 1, 1, 1, 1, 1⟩

/-! ## Membership strings, the removal block and attribute bits -/

/-- The body of the `try` block of `CUserInstaller::RemoveUserFromGroup`, before its
`catch (...)` handler: the calls made and what the block throws. -/
def RemoveUserFromGroupTry (os : OS)
    (strUser strUserDomain strGroup strGroupDomain : CString) : Outcome :=
  let pwzGroupDomain : Option CString :=
    if strGroupDomain.length > 0 then some strGroupDomain else none
  let cGlobal := OsCall.NetGroupDelUser pwzGroupDomain strGroup strUser
  let cLocal := OsCall.NetLocalGroupDelMembers strGroupDomain strGroup
    (fqAccountName strUserDomain strUser)
  let fLocal : Bool := decide (NERR_GroupNotFound = os.result cGlobal)
  let calls := if fLocal then [cGlobal, cLocal] else [cGlobal]
  let ui := if fLocal then os.result cLocal else os.result cGlobal
  let hr : Int := HRESULT_FROM_WIN32 ui
  if FAILED hr then
    let strADUser := adsPath strUserDomain strUser "user"
    let strADGroup := adsPath strGroupDomain strGroup "group"
    let cGet := OsCall.ADsGetObject strADGroup
    let hrGet := toHRESULT (os.result cGet)
    if FAILED hrGet then
      ⟨calls ++ [cGet], some (.com_error hrGet)⟩
    else
      let cRemove := OsCall.IADsGroup_Remove strADGroup strADUser
      let hrRemove := toHRESULT (os.result cRemove)
      let hrRemove2 : Int :=
        if HRESULT_FROM_WIN32 ERROR_OBJECT_ALREADY_EXISTS = hrRemove ∨
            HRESULT_FROM_WIN32 ERROR_MEMBER_IN_ALIAS = hrRemove then 0 else hrRemove
      if FAILED hrRemove2 then
        ⟨calls ++ [cGet, cRemove], some (.com_error hrRemove2)⟩
      else
        ⟨calls ++ [cGet, cRemove], none⟩
  else
    ⟨calls, none⟩

/-- The (group, domain) pairs that the membership loops of `AddUser` and `RemoveUser`
read from a membership string: two bar-delimited blocks per pass.  `fuel` bounds the
number of passes. -/
def membershipPairs : Nat → CString → List (CString × CString)
  | 0, _ => []
  | fuel + 1, strMembership =>
    if strMembership.isEmpty then []
    else
      let rGroup := ExtractNextBarDelimitedBlock strMembership
      let rGroupDomain := ExtractNextBarDelimitedBlock rGroup.2
      (rGroup.1, rGroupDomain.1) :: membershipPairs fuel rGroupDomain.2

/-- The membership string the membership loop of `ScheduleUsers` builds from the formatted
(group, domain) pairs of a user's groups: each pair as `"%s|%s"`, appended with a bar. -/
def membershipString (pairs : List (CString × CString)) (strMembership : CString) :
    CString :=
  pairs.foldl (fun acc p => appendBlock '|' acc (p.1 ++ '|' :: p.2)) strMembership

/-- The block of `CUserInstaller::RemoveUser` that removes the account or the memberships
(the `if (!(SCAU_DONT_CREATE_USER & iAttributes)) ... else ...` of UserInstaller.cpp
lines 387-419). -/
def RemoveUserAccountOrMembership (os : OS) (pszName pszDomain : CString)
    (iAttributes : Int) (pszMembership : CString) : Outcome :=
  if !testFlag iAttributes SCAU_DONT_CREATE_USER then
    let dc := GetDomainOrControllerName os pszDomain
    let cDel := OsCall.NetUserDel dc.2 pszName
    let er := if NERR_UserNotFound = os.result cDel then NERR_Success
      else os.result cDel
    throwIfFailed (dc.1 ++ [cDel]) er
  else
    RemoveUserMembership os pszName pszDomain pszMembership.length pszMembership

/-- Whether a call is the account delete call `NetUserDel`. -/
def OsCall.isNetUserDel : OsCall → Bool
  | .NetUserDel _ _ => true
  | _ => false

/-- Whether a call is one of the calls `RemoveUserFromGroup` makes. -/
def OsCall.isGroupRemoval : OsCall → Bool
  | .NetGroupDelUser _ _ _ => true
  | .NetLocalGroupDelMembers _ _ _ => true
  | .ADsGetObject _ => true
  | .IADsGroup_Remove _ _ => true
  | _ => false

/-- Two attribute values agree on every bit of their 32-bit patterns outside `mask`. -/
def sameOutsideMask (a b : Int) (mask : Nat) : Prop :=
  (a % 4294967296).toNat &&& (4294967295 - mask) =
    (b % 4294967296).toNat &&& (4294967295 - mask)

instance (a b : Int) (mask : Nat) : Decidable (sameOutsideMask a b mask) := by
  unfold sameOutsideMask
  infer_instance

/-- A session as `exampleSession` but with a second `UrlReservation` row, of the same
component, that has no ACL rows. -/
def exampleNoAclSession : MsiSession :=
  { exampleSession with
    UrlReservation :=
      [⟨"r1".toList, "c1".toList, "http://+:80/app/".toList, 2⟩,
       ⟨"r9".toList, "c1".toList, "http://+:82/".toList, 0⟩]
    UrlReservationAcl := fun r =>
      if r = "r1".toList then [⟨"a1".toList, "jdoe".toList, "CORP".toList, 1⟩] else [] }

/-! ## InstallerBase.cpp: progress messages -/

def IDOK : Nat := 1
def IDCANCEL : Nat := 2
def IDABORT : Nat := 3
def IDYES : Nat := 6
def ERROR_INSTALL_USEREXIT : Nat := 1602
def ERROR_INSTALL_FAILURE : Nat := 1603
def ERROR_INVALID_HANDLE : Nat := 6
def ERROR_INVALID_TABLE : Nat := 1628
/-- The `HRESULT` `E_UNEXPECTED` (`0x8000FFFF`). -/
def E_UNEXPECTED : Int := -2147418113

/-- A message handed to the host through `MsiProcessMessage`: a progress record of three
integer fields, or a line of the error log (with the `HRESULT` it reports, if any). -/
inductive HostMessage where
  | progress (field1 field2 field3 : Int)
  | error (pszText : String) (hr : Option Int)
deriving DecidableEq, Repr

/-- The host as `ProgressMessage` sees it. -/
structure ProgressHost where
  /-- The answer of `MsiProcessMessage` to a message. -/
  MsiProcessMessage : HostMessage → Nat
  /-- Whether `MsiGetMode` reports one of the scheduled, commit or rollback modes. -/
  fDeferredMode : Bool

/-- What a call of `ProgressMessage` does: the messages sent to the host, what is thrown,
and the value of the function's static flag `fExplicitProgressMessages` afterwards. -/
structure ProgressOutcome where
  messages : List HostMessage
  thrown : Option Thrown
  fExplicitProgressMessages : Bool
deriving DecidableEq, Repr

/-- The answer test of `ProgressMessage`: `0 == er || IDOK == er || IDYES == er`. -/
def progressAccepted (er : Nat) : Bool := decide (0 = er ∨ IDOK = er ∨ IDYES = er)

/-- The answer test of `ProgressMessage`: `IDABORT == er || IDCANCEL == er`. -/
def progressCancelled (er : Nat) : Bool := decide (IDABORT = er ∨ IDCANCEL = er)

/-- The body of the `try` block of `CInstallerBase::ProgressMessage` (release build):
the optional message that switches the host to explicit progress messages, then the
progress message itself.  The first argument is the value of the static flag
`fExplicitProgressMessages` on entry. -/
def ProgressMessageTry (host : ProgressHost) (fExplicitProgressMessages : Bool)
    (uiCost : Int) (fExtendProgressBar : Bool) : ProgressOutcome :=
  let send (sent : List HostMessage) (fExplicit : Bool) : ProgressOutcome :=
    let progress := HostMessage.progress (if fExtendProgressBar then 3 else 2) uiCost 0
    let er := host.MsiProcessMessage progress
    if progressAccepted er then ⟨sent ++ [progress], none, fExplicit⟩
    else if progressCancelled er then
      ⟨sent ++ [progress], some (.com_error (HRESULT_FROM_WIN32 ERROR_INSTALL_USEREXIT)),
        fExplicit⟩
    else
      ⟨sent ++ [progress], some (.com_error (HRESULT_FROM_WIN32 2147549183)), fExplicit⟩
  if !fExtendProgressBar && !fExplicitProgressMessages then
    let warn : List HostMessage :=
      if !host.fDeferredMode then
        [.error "can only send progress bar messages in a deferred CustomAction" none]
      else []
    let explicit := HostMessage.progress 1 1 0
    let er := host.MsiProcessMessage explicit
    if progressAccepted er then send (warn ++ [explicit]) true
    else if progressCancelled er then
      ⟨warn ++ [explicit], some (.com_error (HRESULT_FROM_WIN32 ERROR_INSTALL_USEREXIT)),
        fExplicitProgressMessages⟩
    else
      ⟨warn ++
          [explicit, .error "Failed to get Darwin into explicit mode." (some E_UNEXPECTED)],
        some (.com_error E_UNEXPECTED), fExplicitProgressMessages⟩
  else send [] fExplicitProgressMessages

/-- Embeds `CInstallerBase::ProgressMessage`: the `try` block, and the handler
`catch (const _com_error& error)` that writes the error to the log and returns. -/
def ProgressMessage (host : ProgressHost) (fExplicitProgressMessages : Bool)
    (uiCost : Int) (fExtendProgressBar : Bool) : ProgressOutcome :=
  let r := ProgressMessageTry host fExplicitProgressMessages uiCost fExtendProgressBar
  match r.thrown with
  | some (.com_error hr) =>
    ⟨r.messages ++ [.error "Caught exception in ProgressMessage" (some hr)], none,
      r.fExplicitProgressMessages⟩
  | some e => ⟨r.messages, some e, r.fExplicitProgressMessages⟩
  | none => r

/-- A host in deferred mode whose user has pressed Cancel: every message is answered
`IDCANCEL`. -/
def cancellingHost : ProgressHost where
  MsiProcessMessage := fun _ => IDCANCEL
  fDeferredMode := true

/-- A host in deferred mode that accepts every message. -/
def acceptingHost : ProgressHost where
  MsiProcessMessage := fun _ => IDOK
  fDeferredMode := true
/-! ## The scheduling entry points and the code they return -/

/-- First `HRESULT` that carries a `wCode` (comdef.h `WCODE_HRESULT_FIRST`,
`MAKE_HRESULT (SEVERITY_ERROR, FACILITY_ITF, 0x200)`, `0x80040200`). -/
def WCODE_HRESULT_FIRST : Int := -2147220992

/-- Last `HRESULT` that carries a `wCode` (comdef.h `WCODE_HRESULT_LAST`,
`MAKE_HRESULT (SEVERITY_ERROR, FACILITY_ITF + 1, 0) - 1`, `0x8004FFFF`). -/
def WCODE_HRESULT_LAST : Int := -2147155969

/-- The compiler support library's `_com_error::WCode ()` (comdef.h):
`(hr >= WCODE_HRESULT_FIRST && hr <= WCODE_HRESULT_LAST) ? WORD (hr - WCODE_HRESULT_FIRST)
: 0`. -/
def WCode (hr : Int) : Nat :=
  if WCODE_HRESULT_FIRST ≤ hr ∧ hr ≤ WCODE_HRESULT_LAST then
    (hr - WCODE_HRESULT_FIRST).toNat % 65536
  else 0

/-- Embeds `CMsiDatabase::IsTable` (MsiApi.h) on the result code of
`MsiDatabaseGetPrimaryKeys`. -/
def IsTable (er : Nat) : Except Thrown Bool :=
  if ERROR_SUCCESS = er then .ok true
  else if ERROR_INVALID_TABLE = er then .ok false
  else .error (.com_error (HRESULT_FROM_WIN32 er))

/-- A planner run from its table check on: `erPrimaryKeys` is the result code of
`MsiDatabaseGetPrimaryKeys` for the planner's table.  What `IsTable` throws reaches the
planner's handler `catch (const _com_error& e)`, which logs and throws `e` again; the
remaining MSI calls succeed as in the planner given. -/
def scheduleFrom (erPrimaryKeys : Nat) (planner : Bool → List DeferredAction) :
    Except Thrown (List DeferredAction) :=
  match IsTable erPrimaryKeys with
  | .error e => .error e
  | .ok fTable => .ok (planner fTable)

/-- A planner run from its table check on, for a planner whose `DoDeferredAction` calls
can throw: `thrown` is what the planner throws once the table check has succeeded (its
handler logs and throws it again), `planner` the calls it makes. -/
def scheduleFromThrowing (erPrimaryKeys : Nat) (planner : Bool → List DeferredAction)
    (thrown : Bool → Option Thrown) : Except Thrown (List DeferredAction) :=
  match IsTable erPrimaryKeys with
  | .error e => .error e
  | .ok fTable =>
    match thrown fTable with
    | some e => .error e
    | none => .ok (planner fTable)

/-- The body shared by the six scheduling entry points:
`try { tHelper.Schedule... (todo); return 0; }
catch (const _com_error& e) { tHelper.LogError (...); return e.WCode (); }`.
The result is the code returned, or what leaves the entry point as an exception. -/
def schedEntryPoint (r : Except Thrown (List DeferredAction)) : Except Thrown Nat :=
  match r with
  | .ok _ => .ok 0
  | .error (.com_error hr) => .ok (WCode hr)
  | .error e => .error e

/-- Embeds the entry point `SchedUsersInstall`. -/
def SchedUsersInstall (erPrimaryKeys : Nat) (h : MsiSession) : Except Thrown Nat :=
  schedEntryPoint (scheduleFromThrowing erPrimaryKeys
    (fun fTable => ScheduleUsers { h with hasUserEx := fTable } WCA_TODO_INSTALL)
    (fun fTable => ScheduleUsersThrown { h with hasUserEx := fTable } WCA_TODO_INSTALL))

/-- Embeds the entry point `SchedUsersUninstall`. -/
def SchedUsersUninstall (erPrimaryKeys : Nat) (h : MsiSession) : Except Thrown Nat :=
  schedEntryPoint (scheduleFromThrowing erPrimaryKeys
    (fun fTable => ScheduleUsers { h with hasUserEx := fTable } WCA_TODO_UNINSTALL)
    (fun fTable => ScheduleUsersThrown { h with hasUserEx := fTable } WCA_TODO_UNINSTALL))

/-- Embeds the entry point `SchedGroupsInstall`. -/
def SchedGroupsInstall (erPrimaryKeys : Nat) (h : MsiSession) : Except Thrown Nat :=
  schedEntryPoint (scheduleFrom erPrimaryKeys
    (fun fTable => ScheduleGroups { h with hasGroupEx := fTable } WCA_TODO_INSTALL))

/-- Embeds the entry point `SchedGroupsUninstall`. -/
def SchedGroupsUninstall (erPrimaryKeys : Nat) (h : MsiSession) : Except Thrown Nat :=
  schedEntryPoint (scheduleFrom erPrimaryKeys
    (fun fTable => ScheduleGroups { h with hasGroupEx := fTable } WCA_TODO_UNINSTALL))

/-- Embeds the entry point `SchedUrlReservationsInstall`. -/
def SchedUrlReservationsInstall (erPrimaryKeys : Nat) (h : MsiSession) :
    Except Thrown Nat :=
  schedEntryPoint (scheduleFromThrowing erPrimaryKeys
    (fun fTable =>
      ScheduleUrlReservations { h with hasUrlReservation := fTable } WCA_TODO_INSTALL)
    (fun fTable =>
      ScheduleUrlReservationsThrown { h with hasUrlReservation := fTable } WCA_TODO_INSTALL))

/-- Embeds the entry point `SchedUrlReservationsUninstall`. -/
def SchedUrlReservationsUninstall (erPrimaryKeys : Nat) (h : MsiSession) :
    Except Thrown Nat :=
  schedEntryPoint (scheduleFromThrowing erPrimaryKeys
    (fun fTable =>
      ScheduleUrlReservations { h with hasUrlReservation := fTable } WCA_TODO_UNINSTALL)
    (fun fTable =>
      ScheduleUrlReservationsThrown { h with hasUrlReservation := fTable } WCA_TODO_UNINSTALL))

/-- The code the sibling entry points `ExecUser`, `ExecGroup` and `ExecUrlReservation`
return: `ERROR_INSTALL_FAILURE` from their handler `catch (const _com_error&)`,
`ERROR_SUCCESS` otherwise. -/
def execEntryPoint (o : Outcome) : Except Thrown Nat :=
  match o.thrown with
  | none => .ok ERROR_SUCCESS
  | some (.com_error _) => .ok ERROR_INSTALL_FAILURE
  | some e => .error e

/-! ## ServiceInstaller.cpp: ValidateInstanceName -/

/-- Whether `s` begins with the characters of `sub`. -/
def startsWith : CString → CString → Bool
  | _, [] => true
  | [], _ :: _ => false
  | c :: cs, p :: ps => c == p && startsWith cs ps

/-- Embeds `CString::Find (pszSub)`, the overload taking a string: zero-based index of the
first occurrence of the string `pszSub` inside the string, or `-1`. -/
def FindString : CString → CString → Int
  | [], pszSub => if pszSub.isEmpty then 0 else -1
  | c :: cs, pszSub =>
    if startsWith (c :: cs) pszSub then 0
    else
      let r := FindString cs pszSub
      if r = -1 then -1 else r + 1

/-- What `ValidateInstanceName` does: the `SetProperty` calls made and what it throws. -/
structure ValidateOutcome where
  SetProperty : List (String × CString)
  thrown : Option Thrown
deriving DecidableEq, Repr

/-- Embeds `CServiceInstaller::ValidateInstanceName`, for a session whose property reads
and writes succeed; `GetProperty` gives the value of a property. -/
def ValidateInstanceName (GetProperty : String → CString) : ValidateOutcome :=
  let strInstanceType := GetProperty "INSTANCETYPE"
  if strInstanceType = "0".toList then
    ⟨[("SUI_INSTANCENAME_VALID", "1".toList)], none⟩
  else
    let strInstanceName := GetProperty "INSTANCENAME"
    if strInstanceName.length = 0 then
      ⟨[], some (.com_error ERROR_INSTALL_FAILURE)⟩
    else if FindString strInstanceName ".$/\\[]".toList ≠ -1 then
      ⟨[], some (.com_error ERROR_INSTALL_FAILURE)⟩
    else
      let strServiceNamePrefix := GetProperty "InstancePrefix"
      let strServiceName := strServiceNamePrefix ++ '$' :: strInstanceName ++ ".XX".toList
      if strServiceName.length > 256 then
        ⟨[], some (.com_error ERROR_INSTALL_FAILURE)⟩
      else
        ⟨[("SUI_INSTANCENAME_VALID", "1".toList)], none⟩

/-- The properties of a custom instance (`INSTANCETYPE` is `1`) with the given instance
name and the service name prefix `Zen`. -/
def customInstance (strInstanceName : CString) : String → CString := fun name =>
  if name = "INSTANCETYPE" then "1".toList
  else if name = "INSTANCENAME" then strInstanceName
  else if name = "InstancePrefix" then "Zen".toList
  else []

/-- Whether a name contains one of the reserved characters `.`, `$`, `/`, `\`, `[`, `]`. -/
def containsReservedCharacter (strInstanceName : CString) : Bool :=
  strInstanceName.any (fun c => ".$/\\[]".toList.contains c)

/-! ## Sessions and operating systems for the failing runs -/

/-- The example session in which `MsiDoAction` fails with `ERROR_INSTALL_FAILURE` (1603)
for the forward action of the URL reservation Install pass. -/
def exampleFailingDoActionSession : MsiSession :=
  { exampleSession with
    MsiDoAction := fun pszCustomAction =>
      if pszCustomAction = "SuiExecUrlReservationsInstall" then ERROR_INSTALL_FAILURE else 0 }

/-- An operating system in which every call succeeds and every account resolves to one of
the well-known service SIDs (Service, System, NetworkService). -/
def serviceAccountOS : OS where
  result := fun _ => 0
  isWellKnownServiceSid := fun _ => true
  DomainControllerName := fun _ => "dc01".toList
  usri1_flags := fun _ _ => UF_SCRIPT

/-- An operating system in which the URL reservation exists already and cannot be deleted:
the exact-match query succeeds on its second call, `HttpDeleteServiceConfiguration` fails
with `ERROR_ACCESS_DENIED` (5), and every other call succeeds. -/
def deleteFailsOS : OS where
  result := fun c =>
    match c with
    | .HttpQueryServiceConfiguration _ false => ERROR_INSUFFICIENT_BUFFER
    | .HttpDeleteServiceConfiguration _ => 5
    | _ => 0
  isWellKnownServiceSid := fun _ => false
  DomainControllerName := fun d => d
  usri1_flags := fun _ _ => UF_SCRIPT

/-- The example session with a per-row cost of 2147483649 for adding a URL reservation;
twice that cost does not fit in 32 bits. -/
def exampleLargeCostSession : MsiSession :=
  { exampleSession with COST_URLRESERVATION_ADD := 2147483649 }

/-! ## Theorems -/

theorem Find_eq_neg_one_iff (s : CString) (ch : Char) : Find s ch = -1 ↔ ch ∉ s := by
  induction s with
  | nil => simp [Find]
  | cons c cs ih =>
    by_cases h : c = ch
    · simp [Find, h]
    · have hne : ¬ ch = c := fun e => h e.symm
      by_cases hr : Find cs ch = -1
      · simp [Find, h, hr, hne, ih.mp hr]
      · have hmem : ch ∈ cs := by
          by_contra hcon
          exact hr (ih.mpr hcon)
        have hnn : 0 ≤ Find cs ch := by
          clear ih hmem
          induction cs with
          | nil => simp [Find] at hr
          | cons d ds ihd =>
            by_cases hd : d = ch
            · simp [Find, hd]
            · by_cases hr2 : Find ds ch = -1
              · simp [Find, hd, hr2] at hr
              · have := ihd hr2
                simp only [Find, hd, hr2, if_false]
                omega
        simp only [Find, h, hr, if_false]
        simp [hne, hmem]
        omega

theorem Find_cons_ne (c ch : Char) (cs : CString) (h : ¬ c = ch) :
    Find (c :: cs) ch = if Find cs ch = -1 then -1 else Find cs ch + 1 := by
  simp [Find, h]

theorem Find_append_cons (p t : CString) (ch : Char) (h : ch ∉ p) :
    Find (p ++ ch :: t) ch = (p.length : Int) := by
  induction p with
  | nil => simp [Find]
  | cons c cs ih =>
    have hc : ¬ c = ch := fun e => h (by simp [e])
    have hcs : ch ∉ cs := fun e => h (by simp [e])
    have ih2 := ih hcs
    have hne : ¬ ((cs.length : Int) = -1) := by omega
    rw [List.cons_append, Find_cons_ne c ch _ hc, ih2, if_neg hne, List.length_cons]
    push_cast
    rfl

theorem ExtractNextTabDelimitedBlock_eq (s : CString) :
    ExtractNextTabDelimitedBlock s = extractWith '\t' s := rfl

theorem ExtractNextBarDelimitedBlock_eq (s : CString) :
    ExtractNextBarDelimitedBlock s = extractWith '|' s := rfl

theorem extractWith_of_not_mem (ch : Char) (s : CString) (h : ch ∉ s) :
    extractWith ch s = (s, []) := by
  simp [extractWith, (Find_eq_neg_one_iff s ch).mpr h]

theorem extractWith_append_cons (ch : Char) (p t : CString) (h : ch ∉ p) :
    extractWith ch (p ++ ch :: t) = (p, t) := by
  have hf := Find_append_cons p t ch h
  have hne : ¬ ((p.length : Int) = -1) := by omega
  simp only [extractWith, hf, ne_eq, hne, not_false_eq_true, if_true, Left, Mid]
  have h1 : ((p.length : Int) + 1).toNat = p.length + 1 := by omega
  simp [h1]

theorem split_at_first (ch : Char) (s : CString) (h : ch ∈ s) :
    s = s.takeWhile (fun c => c != ch) ++ ch :: (s.dropWhile (fun c => c != ch)).drop 1 := by
  induction s with
  | nil => simp at h
  | cons c cs ih =>
    by_cases hc : c = ch
    · simp [List.takeWhile, List.dropWhile, hc]
    · have hmem : ch ∈ cs := by
        rcases List.mem_cons.mp h with e | e
        · exact absurd e.symm hc
        · exact e
      have hb : (c != ch) = true := by simp [hc]
      rw [List.takeWhile_cons, List.dropWhile_cons]
      simp only [hb, if_true, List.cons_append]
      rw [← ih hmem]

theorem not_mem_takeWhile_ne (ch : Char) (s : CString) :
    ch ∉ s.takeWhile (fun c => c != ch) := by
  intro h
  have := List.mem_takeWhile_imp h
  simp at this

theorem extractWith_eq (ch : Char) (s : CString) :
    extractWith ch s =
      if ch ∈ s then
        (s.takeWhile (fun c => c != ch), (s.dropWhile (fun c => c != ch)).drop 1)
      else (s, []) := by
  by_cases h : ch ∈ s
  · rw [if_pos h]
    have hs := split_at_first ch s h
    have := extractWith_append_cons ch _ ((s.dropWhile (fun c => c != ch)).drop 1)
      (not_mem_takeWhile_ne ch s)
    rw [← hs] at this
    exact this
  · rw [if_neg h]
    exact extractWith_of_not_mem ch s h

theorem extractBlocks_succ (e : CString → CString × CString) (k : Nat) (s : CString) :
    extractBlocks e (k + 1) s =
      ((e s).1 :: (extractBlocks e k (e s).2).1, (extractBlocks e k (e s).2).2) := rfl

theorem extractBlocks_joinFields (ch : Char) (fields : List CString)
    (hno : ∀ f ∈ fields, ch ∉ f) :
    extractBlocks (extractWith ch) fields.length (joinFields ch fields) = (fields, []) := by
  induction fields with
  | nil => simp [extractBlocks, joinFields]
  | cons f rest ih =>
    have hf : ch ∉ f := hno f (by simp)
    have hrest : ∀ g ∈ rest, ch ∉ g := fun g hg => hno g (by simp [hg])
    cases rest with
    | nil =>
      simp [extractBlocks, joinFields, extractWith_of_not_mem ch f hf]
    | cons g gs =>
      have ih2 := ih hrest
      rw [List.length_cons, extractBlocks_succ, joinFields,
        extractWith_append_cons ch f _ hf, ih2]

/-- C1: for a non-empty list of fields none of which contains the delimiter, extracting
once per field from the delimiter-joined string gives back the fields in order and leaves
the remaining string empty; for the tab extractor and for the bar extractor. -/
theorem C1_extract_roundtrip (fields : List CString) (_hne : fields ≠ []) :
    ((∀ f ∈ fields, '\t' ∉ f) →
      extractBlocks ExtractNextTabDelimitedBlock fields.length (joinFields '\t' fields)
        = (fields, [])) ∧
    ((∀ f ∈ fields, '|' ∉ f) →
      extractBlocks ExtractNextBarDelimitedBlock fields.length (joinFields '|' fields)
        = (fields, [])) := by
  constructor
  · intro h
    exact extractBlocks_joinFields '\t' fields h
  · intro h
    exact extractBlocks_joinFields '|' fields h

/-- Witness for C1 on the fields Alice, CORP, 0. -/
theorem C1_extract_roundtrip_witness :
    extractBlocks ExtractNextTabDelimitedBlock 3
        (joinFields '\t' ["Alice".toList, "CORP".toList, "0".toList])
      = (["Alice".toList, "CORP".toList, "0".toList], []) ∧
    extractBlocks ExtractNextBarDelimitedBlock 3
        (joinFields '|' ["Alice".toList, "CORP".toList, "0".toList])
      = (["Alice".toList, "CORP".toList, "0".toList], []) :=
  ⟨(C1_extract_roundtrip ["Alice".toList, "CORP".toList, "0".toList] (by decide)).1
      (by decide),
   (C1_extract_roundtrip ["Alice".toList, "CORP".toList, "0".toList] (by decide)).2
      (by decide)⟩

/-- C2: the tab extractor returns the part of the string before the first tab and leaves
the part after that tab; without a tab it returns the whole string and leaves the empty
string.  The bar extractor does the same with the bar character. -/
theorem C2_extract_splits_at_first_delimiter (s : CString) :
    ExtractNextTabDelimitedBlock s =
      (if '\t' ∈ s then
        (s.takeWhile (fun c => c != '\t'), (s.dropWhile (fun c => c != '\t')).drop 1)
      else (s, [])) ∧
    ExtractNextBarDelimitedBlock s =
      (if '|' ∈ s then
        (s.takeWhile (fun c => c != '|'), (s.dropWhile (fun c => c != '|')).drop 1)
      else (s, [])) :=
  ⟨extractWith_eq '\t' s, extractWith_eq '|' s⟩

/-- C3: when the state query succeeds with action state Local or Source and installed
state Local or Source, GetComponentToDo returns Reinstall. -/
theorem C3_reinstall (q : ComponentStateResult) (hq : q.er = ERROR_SUCCESS)
    (ha : q.isAction = INSTALLSTATE_LOCAL ∨ q.isAction = INSTALLSTATE_SOURCE)
    (hi : q.isInstalled = INSTALLSTATE_LOCAL ∨ q.isInstalled = INSTALLSTATE_SOURCE) :
    GetComponentToDo q = WCA_TODO_REINSTALL := by
  obtain ⟨er, i, a⟩ := q
  simp only at hq ha hi
  subst hq
  rcases ha with rfl | rfl <;> rcases hi with rfl | rfl <;> decide

/-- Witness for C3: installed Source, action Local. -/
theorem C3_reinstall_witness :
    GetComponentToDo ⟨ERROR_SUCCESS, INSTALLSTATE_SOURCE, INSTALLSTATE_LOCAL⟩
      = WCA_TODO_REINSTALL :=
  C3_reinstall ⟨ERROR_SUCCESS, INSTALLSTATE_SOURCE, INSTALLSTATE_LOCAL⟩ rfl
    (Or.inl rfl) (Or.inr rfl)

/-- C4: when the state query succeeds with action state Absent or Removed and installed
state Local or Source, GetComponentToDo returns Uninstall. -/
theorem C4_uninstall (q : ComponentStateResult) (hq : q.er = ERROR_SUCCESS)
    (ha : q.isAction = INSTALLSTATE_ABSENT ∨ q.isAction = INSTALLSTATE_REMOVED)
    (hi : q.isInstalled = INSTALLSTATE_LOCAL ∨ q.isInstalled = INSTALLSTATE_SOURCE) :
    GetComponentToDo q = WCA_TODO_UNINSTALL := by
  obtain ⟨er, i, a⟩ := q
  simp only at hq ha hi
  subst hq
  rcases ha with rfl | rfl <;> rcases hi with rfl | rfl <;> decide

/-- Witness for C4: installed Local, action Absent. -/
theorem C4_uninstall_witness :
    GetComponentToDo ⟨ERROR_SUCCESS, INSTALLSTATE_LOCAL, INSTALLSTATE_ABSENT⟩
      = WCA_TODO_UNINSTALL :=
  C4_uninstall ⟨ERROR_SUCCESS, INSTALLSTATE_LOCAL, INSTALLSTATE_ABSENT⟩ rfl
    (Or.inl rfl) (Or.inl rfl)

/-- C5, as stated, fails: with a successful query, installed state Local and action
state Default, GetComponentToDo returns Reinstall and not Install. -/
theorem C5_counterexample :
    GetComponentToDo ⟨ERROR_SUCCESS, INSTALLSTATE_LOCAL, INSTALLSTATE_DEFAULT⟩
        = WCA_TODO_REINSTALL ∧
    GetComponentToDo ⟨ERROR_SUCCESS, INSTALLSTATE_LOCAL, INSTALLSTATE_DEFAULT⟩
        ≠ WCA_TODO_INSTALL := by
  decide

/-- C5 (amended): when the state query succeeds, GetComponentToDo returns Install when
the action state is Local or Source and the installed state is neither Local nor Source;
when the action state is Default and the installed state is Local or Source it returns
Reinstall. -/
theorem C5_install_amended (q : ComponentStateResult) (hq : q.er = ERROR_SUCCESS) :
    ((q.isAction = INSTALLSTATE_LOCAL ∨ q.isAction = INSTALLSTATE_SOURCE) →
      (q.isInstalled ≠ INSTALLSTATE_LOCAL ∧ q.isInstalled ≠ INSTALLSTATE_SOURCE) →
      GetComponentToDo q = WCA_TODO_INSTALL) ∧
    (q.isAction = INSTALLSTATE_DEFAULT →
      (q.isInstalled = INSTALLSTATE_LOCAL ∨ q.isInstalled = INSTALLSTATE_SOURCE) →
      GetComponentToDo q = WCA_TODO_REINSTALL) := by
  obtain ⟨er, i, a⟩ := q
  simp only at hq
  subst hq
  constructor
  · intro ha hi
    simp only [INSTALLSTATE_LOCAL, INSTALLSTATE_SOURCE] at ha hi
    have h3 : ¬ ((3 : Int) = i) := fun e => hi.1 e.symm
    have h4 : ¬ ((4 : Int) = i) := fun e => hi.2 e.symm
    rcases ha with rfl | rfl <;>
      simp [GetComponentToDo, IsReInstalling, IsUninstalling, IsInstalling, ERROR_SUCCESS,
        INSTALLSTATE_LOCAL, INSTALLSTATE_SOURCE, INSTALLSTATE_DEFAULT, INSTALLSTATE_ABSENT,
        INSTALLSTATE_REMOVED, h3, h4]
  · intro ha hi
    simp only at ha hi
    subst ha
    rcases hi with rfl | rfl <;> decide

/-- Witness for C5 (amended): installed Absent with action Local gives Install, and
installed Local with action Default gives Reinstall. -/
theorem C5_install_amended_witness :
    GetComponentToDo ⟨ERROR_SUCCESS, INSTALLSTATE_ABSENT, INSTALLSTATE_LOCAL⟩
        = WCA_TODO_INSTALL ∧
    GetComponentToDo ⟨ERROR_SUCCESS, INSTALLSTATE_LOCAL, INSTALLSTATE_DEFAULT⟩
        = WCA_TODO_REINSTALL :=
  ⟨(C5_install_amended ⟨ERROR_SUCCESS, INSTALLSTATE_ABSENT, INSTALLSTATE_LOCAL⟩ rfl).1
      (Or.inl rfl) (by decide),
   (C5_install_amended ⟨ERROR_SUCCESS, INSTALLSTATE_LOCAL, INSTALLSTATE_DEFAULT⟩ rfl).2
      rfl (Or.inl rfl)⟩

/-- C6: for every (installed state, action state) pair matching none of the Reinstall,
Uninstall and Install rules of the specification, GetComponentToDo returns Unknown
(whatever the result code of the state query). -/
theorem C6_unknown_otherwise (q : ComponentStateResult)
    (hr : ¬ specReinstallRule q.isInstalled q.isAction)
    (hu : ¬ specUninstallRule q.isInstalled q.isAction)
    (hi : ¬ specInstallRule q.isInstalled q.isAction) :
    GetComponentToDo q = WCA_TODO_UNKNOWN := by
  obtain ⟨er, i, a⟩ := q
  simp only [specReinstallRule, specUninstallRule, specInstallRule, INSTALLSTATE_LOCAL,
    INSTALLSTATE_SOURCE, INSTALLSTATE_DEFAULT, INSTALLSTATE_ABSENT, INSTALLSTATE_REMOVED]
    at hr hu hi
  simp only [GetComponentToDo, IsReInstalling, IsUninstalling, IsInstalling,
    INSTALLSTATE_LOCAL, INSTALLSTATE_SOURCE, INSTALLSTATE_DEFAULT, INSTALLSTATE_ABSENT,
    INSTALLSTATE_REMOVED, WCA_TODO_UNKNOWN, WCA_TODO_REINSTALL, WCA_TODO_UNINSTALL,
    WCA_TODO_INSTALL]
  by_cases e3 : (3 : Int) = a
  · exact absurd (Or.inl (Or.inl e3.symm)) hi
  by_cases e4 : (4 : Int) = a
  · exact absurd (Or.inl (Or.inr e4.symm)) hi
  by_cases i3 : (3 : Int) = i
  · have e5 : ¬ ((5 : Int) = a) := fun e => hi (Or.inr ⟨e.symm, Or.inl i3.symm⟩)
    have e2 : ¬ ((2 : Int) = a) := fun e => hu ⟨Or.inl e.symm, Or.inl i3.symm⟩
    have e1 : ¬ ((1 : Int) = a) := fun e => hu ⟨Or.inr e.symm, Or.inl i3.symm⟩
    simp [e3, e4, e5, e2, e1]
  by_cases i4 : (4 : Int) = i
  · have e5 : ¬ ((5 : Int) = a) := fun e => hi (Or.inr ⟨e.symm, Or.inr i4.symm⟩)
    have e2 : ¬ ((2 : Int) = a) := fun e => hu ⟨Or.inl e.symm, Or.inr i4.symm⟩
    have e1 : ¬ ((1 : Int) = a) := fun e => hu ⟨Or.inr e.symm, Or.inr i4.symm⟩
    simp [e3, e4, e5, e2, e1]
  simp [e3, e4, i3, i4]

/-- Witness for C6: installed Absent with action Absent matches no rule and gives Unknown. -/
theorem C6_unknown_otherwise_witness :
    GetComponentToDo ⟨ERROR_SUCCESS, INSTALLSTATE_ABSENT, INSTALLSTATE_ABSENT⟩
      = WCA_TODO_UNKNOWN :=
  C6_unknown_otherwise ⟨ERROR_SUCCESS, INSTALLSTATE_ABSENT, INSTALLSTATE_ABSENT⟩
    (by decide) (by decide) (by decide)

/-- C7: in rollback mode GetTranslatedInstallMode maps Install to Uninstall and Uninstall
to Install and returns Reinstall and Unknown unchanged; outside rollback mode it returns
every to-do value unchanged. -/
theorem C7_translated_install_mode :
    GetTranslatedInstallMode true WCA_TODO_INSTALL = WCA_TODO_UNINSTALL ∧
    GetTranslatedInstallMode true WCA_TODO_UNINSTALL = WCA_TODO_INSTALL ∧
    GetTranslatedInstallMode true WCA_TODO_REINSTALL = WCA_TODO_REINSTALL ∧
    GetTranslatedInstallMode true WCA_TODO_UNKNOWN = WCA_TODO_UNKNOWN ∧
    (∀ todo : WCA_TODO, GetTranslatedInstallMode false todo = todo) := by
  refine ⟨by decide, by decide, by decide, by decide, ?_⟩
  intro todo
  simp [GetTranslatedInstallMode]

/-- C8: for a fixed rollback flag, translating twice gives back every to-do value; under
rollback Reinstall and Unknown are fixed points. -/
theorem C8_translation_involution :
    (∀ (fIsRollback : Bool) (todo : WCA_TODO),
      GetTranslatedInstallMode fIsRollback (GetTranslatedInstallMode fIsRollback todo)
        = todo) ∧
    GetTranslatedInstallMode true WCA_TODO_REINSTALL = WCA_TODO_REINSTALL ∧
    GetTranslatedInstallMode true WCA_TODO_UNKNOWN = WCA_TODO_UNKNOWN := by
  refine ⟨?_, by decide, by decide⟩
  intro b todo
  cases b
  · simp [GetTranslatedInstallMode]
  · simp only [GetTranslatedInstallMode, if_true, WCA_TODO_INSTALL, WCA_TODO_UNINSTALL]
    by_cases h1 : (1 : Int) = todo
    · subst h1
      decide
    · by_cases h2 : (2 : Int) = todo
      · subst h2
        decide
      · simp [h1, h2]

/-! ### `%d` and `_ttoi` -/

theorem digitChar_isDigit (d : Nat) (h : d < 10) : (Nat.digitChar d).isDigit = true := by
  interval_cases d <;> decide

theorem digitChar_value (d : Nat) (h : d < 10) : (Nat.digitChar d).toNat - 48 = d := by
  interval_cases d <;> decide

theorem toDigitsCore_isDigit (fuel n : Nat) (ds : CString)
    (hds : ∀ c ∈ ds, c.isDigit = true) :
    ∀ c ∈ Nat.toDigitsCore 10 fuel n ds, c.isDigit = true := by
  induction fuel generalizing n ds with
  | zero => simpa [Nat.toDigitsCore] using hds
  | succ fuel ih =>
    have hd : (Nat.digitChar (n % 10)).isDigit = true :=
      digitChar_isDigit _ (Nat.mod_lt _ (by decide))
    have hds2 : ∀ c ∈ Nat.digitChar (n % 10) :: ds, c.isDigit = true := by
      intro c hc
      rcases List.mem_cons.mp hc with e | e
      · rw [e]; exact hd
      · exact hds c e
    simp only [Nat.toDigitsCore]
    split
    · exact hds2
    · exact ih _ _ hds2

theorem toDigitsCore_ne_nil (fuel n : Nat) (ds : CString) (h : 0 < fuel) :
    Nat.toDigitsCore 10 fuel n ds ≠ [] := by
  induction fuel generalizing n ds with
  | zero => omega
  | succ fuel ih =>
    simp only [Nat.toDigitsCore]
    split
    · simp
    · rename_i hne
      cases fuel with
      | zero => simp [Nat.toDigitsCore]
      | succ k => exact ih _ _ (by omega)

theorem foldl_toDigitsCore (fuel n : Nat) (ds : CString) (h : n < fuel) :
    (Nat.toDigitsCore 10 fuel n ds).foldl (fun a c => a * 10 + (c.toNat - 48)) 0
      = ds.foldl (fun a c => a * 10 + (c.toNat - 48)) n := by
  induction fuel generalizing n ds with
  | zero => omega
  | succ fuel ih =>
    have hv := digitChar_value (n % 10) (Nat.mod_lt _ (by decide))
    simp only [Nat.toDigitsCore]
    split
    · rename_i h0
      simp only [List.foldl_cons, hv]
      congr 1
      omega
    · rename_i h0
      have hlt : n / 10 < fuel := by omega
      rw [ih _ _ hlt]
      simp only [List.foldl_cons, hv]
      congr 1
      omega

theorem toDigits_isDigit (n : Nat) : ∀ c ∈ Nat.toDigits 10 n, c.isDigit = true :=
  toDigitsCore_isDigit _ _ _ (by simp)

theorem toDigits_ne_nil (n : Nat) : Nat.toDigits 10 n ≠ [] :=
  toDigitsCore_ne_nil _ _ _ (by omega)

theorem digitsValue_toDigits (n : Nat) : digitsValue (Nat.toDigits 10 n) = n := by
  unfold digitsValue Nat.toDigits
  rw [foldl_toDigitsCore _ _ _ (by omega)]
  rfl

theorem isDigit_not_special (c : Char) (h : c.isDigit = true) :
    c ≠ '-' ∧ c ≠ '+' ∧ c ≠ '\t' ∧ isSpaceChar c = false := by
  refine ⟨?_, ?_, ?_, ?_⟩
  · rintro rfl; exact absurd h (by decide)
  · rintro rfl; exact absurd h (by decide)
  · rintro rfl; exact absurd h (by decide)
  · simp only [isSpaceChar, Bool.or_eq_false_iff, beq_eq_false_iff_ne, ne_eq]
    refine ⟨⟨⟨⟨⟨?_, ?_⟩, ?_⟩, ?_⟩, ?_⟩, ?_⟩ <;>
      (rintro rfl; exact absurd h (by decide))

theorem takeWhile_isDigit_toDigits (n : Nat) :
    (Nat.toDigits 10 n).takeWhile Char.isDigit = Nat.toDigits 10 n := by
  rw [List.takeWhile_eq_self_iff]
  exact toDigits_isDigit n

theorem formatInt_ne_nil (i : Int) : formatInt i ≠ [] := by
  unfold formatInt
  split
  · simp
  · exact toDigits_ne_nil _

theorem tab_not_mem_formatInt (i : Int) : '\t' ∉ formatInt i := by
  unfold formatInt
  split
  · intro h
    rcases List.mem_cons.mp h with e | e
    · exact absurd e (by decide)
    · exact (isDigit_not_special _ (toDigits_isDigit _ _ e)).2.2.1 rfl
  · intro e
    exact (isDigit_not_special _ (toDigits_isDigit _ _ e)).2.2.1 rfl

theorem signedDigitsValue_minus (r : CString) :
    signedDigitsValue ('-' :: r) = - (digitsValue (r.takeWhile Char.isDigit) : Int) := rfl

theorem signedDigitsValue_digit (d : Char) (ds : CString) (h1 : d ≠ '-') (h2 : d ≠ '+') :
    signedDigitsValue (d :: ds) = (digitsValue ((d :: ds).takeWhile Char.isDigit) : Int) := by
  unfold signedDigitsValue
  split
  · rename_i r heq
    exact absurd (List.cons.inj heq).1 h1
  · rename_i r heq
    exact absurd (List.cons.inj heq).1 h2
  · rfl

theorem ttoi_formatInt (i : Int) (hlo : INT_MIN ≤ i) (hhi : i ≤ INT_MAX) :
    _ttoi (formatInt i) = i := by
  unfold INT_MIN at hlo
  unfold INT_MAX at hhi
  by_cases hneg : i < 0
  · have hf : formatInt i = '-' :: Nat.toDigits 10 i.natAbs := by simp [formatInt, hneg]
    have hd : List.dropWhile isSpaceChar ('-' :: Nat.toDigits 10 i.natAbs)
        = '-' :: Nat.toDigits 10 i.natAbs := by
      rw [List.dropWhile_cons]
      have : isSpaceChar '-' = false := by decide
      simp [this]
    simp only [_ttoi, hf, hd, signedDigitsValue_minus, takeWhile_isDigit_toDigits,
      digitsValue_toDigits, INT_MIN, INT_MAX]
    have : -((i.natAbs : Nat) : Int) = i := by omega
    rw [this]
    split_ifs <;> omega
  · have hf : formatInt i = Nat.toDigits 10 i.toNat := by simp [formatInt, hneg]
    obtain ⟨d, ds, hds⟩ := List.exists_cons_of_ne_nil (toDigits_ne_nil i.toNat)
    have hdig : d.isDigit = true := toDigits_isDigit i.toNat d (by rw [hds]; simp)
    obtain ⟨h1, h2, _, h4⟩ := isDigit_not_special d hdig
    have htw := takeWhile_isDigit_toDigits i.toNat
    have hval := digitsValue_toDigits i.toNat
    rw [hds] at htw hval
    have hd : List.dropWhile isSpaceChar (d :: ds) = d :: ds := by
      rw [List.dropWhile_cons]
      simp [h4]
    have hv : ((i.toNat : Nat) : Int) = i := by omega
    simp only [_ttoi, hf, hds, hd, signedDigitsValue_digit d ds h1 h2, htw, hval, hv,
      INT_MIN, INT_MAX]
    split_ifs <;> omega

/-! ### Plan construction and decoding -/

theorem joinFields_cons_cons (d : Char) (f g : CString) (rest : List CString) :
    joinFields d (f :: g :: rest) = f ++ d :: joinFields d (g :: rest) := rfl

theorem joinFields_ne_nil (d : Char) (f : CString) (rest : List CString) (hf : f ≠ []) :
    joinFields d (f :: rest) ≠ [] := by
  cases rest with
  | nil => simpa [joinFields] using hf
  | cons g gs => simp [joinFields]

theorem appendBlock_ne_nil (d : Char) (acc b : CString) (hb : b ≠ []) :
    appendBlock d acc b ≠ [] := by
  unfold appendBlock
  split
  · exact hb
  · simp

theorem foldl_appendBlock (d : Char) (blocks : List CString)
    (hne : ∀ b ∈ blocks, b ≠ []) (acc : CString) :
    blocks.foldl (appendBlock d) acc =
      if acc = [] then joinFields d blocks
      else if blocks = [] then acc else acc ++ d :: joinFields d blocks := by
  induction blocks generalizing acc with
  | nil =>
    by_cases ha : acc = []
    · simp [ha, joinFields]
    · simp [ha]
  | cons b bs ih =>
    have hb : b ≠ [] := hne b (by simp)
    have hbs : ∀ c ∈ bs, c ≠ [] := fun c hc => hne c (by simp [hc])
    rw [List.foldl_cons, ih hbs, if_neg (appendBlock_ne_nil d acc b hb)]
    cases bs with
    | nil =>
      by_cases ha : acc = []
      · simp [ha, joinFields, appendBlock]
      · simp [ha, joinFields, appendBlock]
    | cons c cs =>
      by_cases ha : acc = []
      · simp [ha, joinFields, appendBlock]
      · simp [ha, joinFields, appendBlock]

theorem ScheduleUrlReservationsLoop_eq (h : MsiSession) (todoScheduled : WCA_TODO)
    (records : List UrlReservationRecord) (strAllCAData : CString) (iInstanceCount : Int) :
    ScheduleUrlReservationsLoop h todoScheduled records (strAllCAData, iInstanceCount) =
      (((records.filter (fun record =>
          !todoMismatch (GetComponentToDo (h.MsiGetComponentState record.Component_))
              todoScheduled
            && !(ScheduleUrlReservationsAcl h
                  (h.UrlReservationAcl record.Reservation) []).isEmpty)).map
          (fun record => encodeUrlReservationItem (plannedUrlReservationItem h record))).foldl
        (appendBlock '\t') strAllCAData,
       iInstanceCount + ((records.filter (fun record =>
          !todoMismatch (GetComponentToDo (h.MsiGetComponentState record.Component_))
              todoScheduled
            && !(ScheduleUrlReservationsAcl h
                  (h.UrlReservationAcl record.Reservation) []).isEmpty)).length : Int)) := by
  induction records generalizing strAllCAData iInstanceCount with
  | nil => simp [ScheduleUrlReservationsLoop]
  | cons r rs ih =>
    by_cases hm : todoMismatch (GetComponentToDo (h.MsiGetComponentState r.Component_))
        todoScheduled = true
    · simp [ScheduleUrlReservationsLoop, hm, ih]
    · by_cases he : (ScheduleUrlReservationsAcl h (h.UrlReservationAcl r.Reservation)
          []).isEmpty = true
      · simp [ScheduleUrlReservationsLoop, hm, he, ih]
      · simp only [ScheduleUrlReservationsLoop, hm, he, ih, Bool.false_eq_true, if_false,
          Bool.not_eq_true] 
        simp [List.filter_cons, hm, he, encodeUrlReservationItem, plannedUrlReservationItem]
        omega

theorem encodeUrlReservationItem_ne_nil (w : UrlReservationWorkItem) :
    encodeUrlReservationItem w ≠ [] := by
  intro h
  have := congrArg List.length h
  simp [encodeUrlReservationItem] at this

theorem ExtractTab_append_cons (p t : CString) (h : '\t' ∉ p) :
    ExtractNextTabDelimitedBlock (p ++ '\t' :: t) = (p, t) :=
  extractWith_append_cons '\t' p t h

theorem ExtractTab_of_not_mem (s : CString) (h : '\t' ∉ s) :
    ExtractNextTabDelimitedBlock s = (s, []) :=
  extractWith_of_not_mem '\t' s h

theorem ExecuteUrlReservationLoop_nil (fuel : Nat) : ExecuteUrlReservationLoop fuel [] = [] := by
  cases fuel <;> simp [ExecuteUrlReservationLoop]

theorem ExecuteUrlReservationLoop_step (fuel : Nat) (w : UrlReservationWorkItem)
    (tail : CString) (hw : UrlItemDecodable w) :
    ExecuteUrlReservationLoop (fuel + 1) (encodeUrlReservationItem w ++ '\t' :: tail)
      = w :: ExecuteUrlReservationLoop fuel tail := by
  obtain ⟨hu, ha, ht1, ht2, hi1, hi2⟩ := hw
  have hne : (encodeUrlReservationItem w ++ '\t' :: tail).isEmpty = false := by
    cases hx : encodeUrlReservationItem w ++ '\t' :: tail with
    | nil => simp at hx
    | cons _ _ => rfl
  have hshape : encodeUrlReservationItem w ++ '\t' :: tail =
      formatInt w.todo ++ '\t' :: (w.strUrl ++ '\t' ::
        (formatInt w.iAttributes ++ '\t' :: (w.strAcl ++ '\t' :: tail))) := by
    simp [encodeUrlReservationItem, List.append_assoc]
  rw [ExecuteUrlReservationLoop, hne, hshape]
  simp only [Bool.false_eq_true, if_false,
    ExtractTab_append_cons _ _ (tab_not_mem_formatInt _),
    ExtractTab_append_cons _ _ hu, ExtractTab_append_cons _ _ ha,
    ttoi_formatInt _ ht1 ht2, ttoi_formatInt _ hi1 hi2]

theorem ExecuteUrlReservationLoop_last (fuel : Nat) (w : UrlReservationWorkItem)
    (hw : UrlItemDecodable w) :
    ExecuteUrlReservationLoop (fuel + 1) (encodeUrlReservationItem w) = [w] := by
  obtain ⟨hu, ha, ht1, ht2, hi1, hi2⟩ := hw
  have hne : (encodeUrlReservationItem w).isEmpty = false := by
    cases hx : encodeUrlReservationItem w with
    | nil => exact absurd hx (encodeUrlReservationItem_ne_nil w)
    | cons _ _ => rfl
  have hshape : encodeUrlReservationItem w =
      formatInt w.todo ++ '\t' :: (w.strUrl ++ '\t' ::
        (formatInt w.iAttributes ++ '\t' :: w.strAcl)) := by
    simp [encodeUrlReservationItem, List.append_assoc]
  rw [ExecuteUrlReservationLoop, hne, hshape]
  simp only [Bool.false_eq_true, if_false,
    ExtractTab_append_cons _ _ (tab_not_mem_formatInt _),
    ExtractTab_append_cons _ _ hu, ExtractTab_of_not_mem _ ha,
    ttoi_formatInt _ ht1 ht2, ttoi_formatInt _ hi1 hi2, ExecuteUrlReservationLoop_nil]

theorem ExecuteUrlReservationLoop_joinFields (items : List UrlReservationWorkItem)
    (hw : ∀ w ∈ items, UrlItemDecodable w) (fuel : Nat)
    (hfuel : (joinFields '\t' (items.map encodeUrlReservationItem)).length ≤ fuel) :
    ExecuteUrlReservationLoop fuel (joinFields '\t' (items.map encodeUrlReservationItem))
      = items := by
  induction items generalizing fuel with
  | nil => simp [joinFields, ExecuteUrlReservationLoop_nil]
  | cons w ws ih =>
    have hw1 : UrlItemDecodable w := hw w (by simp)
    have hws : ∀ v ∈ ws, UrlItemDecodable v := fun v hv => hw v (by simp [hv])
    have hpos : 0 < (encodeUrlReservationItem w).length :=
      List.length_pos.mpr (encodeUrlReservationItem_ne_nil w)
    cases ws with
    | nil =>
      simp only [List.map_cons, List.map_nil, joinFields] at hfuel ⊢
      obtain ⟨k, rfl⟩ : ∃ k, fuel = k + 1 := ⟨fuel - 1, by omega⟩
      exact ExecuteUrlReservationLoop_last k w hw1
    | cons v vs =>
      simp only [List.map_cons, joinFields_cons_cons, List.length_append,
        List.length_cons] at hfuel ⊢
      obtain ⟨k, rfl⟩ : ∃ k, fuel = k + 1 := ⟨fuel - 1, by omega⟩
      rw [ExecuteUrlReservationLoop_step k w _ hw1]
      have := ih hws k (by simp only [List.map_cons]; omega)
      simp only [List.map_cons] at this
      rw [this]

theorem GetComponentToDo_range (q : ComponentStateResult) :
    INT_MIN ≤ GetComponentToDo q ∧ GetComponentToDo q ≤ INT_MAX := by
  unfold GetComponentToDo
  split_ifs <;> decide

theorem tab_not_mem_appendBlock (acc b : CString) (ha : '\t' ∉ acc) (hb : '\t' ∉ b) :
    '\t' ∉ appendBlock '|' acc b := by
  unfold appendBlock
  split
  · exact hb
  · intro hmem
    rcases List.mem_append.mp hmem with e | e
    · exact ha e
    · rcases List.mem_cons.mp e with e2 | e2
      · exact absurd e2 (by decide)
      · exact hb e2

theorem tab_not_mem_ScheduleUrlReservationsAcl (h : MsiSession)
    (records : List UrlReservationAclRecord)
    (hrec : ∀ a ∈ records, '\t' ∉ GetRecordFormattedString h a.Name ∧
      '\t' ∉ GetRecordFormattedString h a.Domain)
    (strAcl : CString) (hacc : '\t' ∉ strAcl) :
    '\t' ∉ ScheduleUrlReservationsAcl h records strAcl := by
  induction records generalizing strAcl with
  | nil => simpa [ScheduleUrlReservationsAcl] using hacc
  | cons a more ih =>
    have ha := hrec a (by simp)
    have hmore : ∀ b ∈ more, '\t' ∉ GetRecordFormattedString h b.Name ∧
        '\t' ∉ GetRecordFormattedString h b.Domain := fun b hb => hrec b (by simp [hb])
    simp only [ScheduleUrlReservationsAcl]
    apply ih hmore
    apply tab_not_mem_appendBlock _ _ hacc
    intro hmem
    simp only [List.mem_append, List.mem_cons] at hmem
    rcases hmem with (e | e | e) | e | e
    · exact ha.1 e
    · exact absurd e (by decide)
    · exact ha.2 e
    · exact absurd e (by decide)
    · exact tab_not_mem_formatInt _ e

/-- C9 fails on the code: for the two matching `UserEx` records of the example session the
planner writes a to-do field in front of each record, but `ExecuteUser` reads a to-do field
only once; it therefore decodes three work items, the second made of the second record's
to-do, name, domain and attributes and the third of its membership list. -/
theorem C9_execute_user_misreads_second_record :
    (plannedUsers exampleSession WCA_TODO_INSTALL).length = 2 ∧
    (ScheduleUsersLoop exampleSession WCA_TODO_INSTALL exampleSession.UserEx ([], 0)).1
      = "1\tBob\t\t16\tpw\t\t1\tAlice\tCORP\t0\tS3cr3t!\tAdmins|CORP".toList ∧
    (ExecuteUserDecode false
        (ScheduleUsersLoop exampleSession WCA_TODO_INSTALL exampleSession.UserEx ([], 0)).1).2
      = [⟨"Bob".toList, [], 16, "pw".toList, []⟩,
         ⟨"1".toList, "Alice".toList, 0, "0".toList, "S3cr3t!".toList⟩,
         ⟨"Admins|CORP".toList, [], 0, [], []⟩] ∧
    (ExecuteUserDecode false
        (ScheduleUsersLoop exampleSession WCA_TODO_INSTALL exampleSession.UserEx ([], 0)).1).2
      ≠ (plannedUsers exampleSession WCA_TODO_INSTALL).map (plannedUserItem exampleSession) := by
  decide

theorem mem_DoDeferredActions (h : MsiSession) (l : List DeferredAction)
    (d : DeferredAction) (hd : d ∈ DoDeferredActions h l) : d ∈ l := by
  induction l with
  | nil => simp [DoDeferredActions] at hd
  | cons a more ih =>
    rw [DoDeferredActions] at hd
    split at hd
    · simp only [List.mem_singleton] at hd
      simp [hd]
    · rcases List.mem_cons.mp hd with e | e
      · simp [e]
      · exact List.mem_cons_of_mem _ (ih e)

theorem DoDeferredActions_pair (h : MsiSession) (a b : DeferredAction) :
    DoDeferredActions h [a, b] = a :: (if DoDeferredAction h a = none then [b] else []) ∧
    DoDeferredActionsThrown h [a, b] =
      (if DoDeferredAction h a = none then DoDeferredAction h b
        else DoDeferredAction h a) := by
  cases ha : DoDeferredAction h a with
  | none =>
    cases hb : DoDeferredAction h b <;>
      simp [DoDeferredActions, DoDeferredActionsThrown, ha, hb]
  | some e => simp [DoDeferredActions, DoDeferredActionsThrown, ha]

theorem ScheduleUrlReservations_data (h : MsiSession) (todoScheduled : WCA_TODO)
    (d : DeferredAction) (hd : d ∈ ScheduleUrlReservations h todoScheduled) :
    d.pszCustomActionData =
      (ScheduleUrlReservationsLoop h todoScheduled h.UrlReservation ([], 0)).1 := by
  simp only [ScheduleUrlReservations] at hd
  split_ifs at hd
  · simp at hd
  · have := mem_DoDeferredActions h _ d hd
    simp at this
    rcases this with rfl | rfl <;> rfl
  · have := mem_DoDeferredActions h _ d hd
    simp at this
    rcases this with rfl | rfl <;> rfl
  · simp at hd

/-- C10: for every URL reservation plan that ScheduleUrlReservations builds from n >= 1
planned records whose formatted URL and ACL name and domain fields contain no tab (the
attribute columns holding C int values), ExecuteUrlReservation decodes exactly n work
items, the i-th being the to-do, URL, attributes and ACL string of the i-th planned
record; the same holds for the data of every deferred action the planner schedules. -/
theorem C10_url_reservation_plan_roundtrip (h : MsiSession) (todoScheduled : WCA_TODO)
    (_hn : 1 ≤ (plannedUrlReservations h todoScheduled).length)
    (hurl : ∀ r ∈ plannedUrlReservations h todoScheduled,
      '\t' ∉ GetRecordFormattedString h r.Url)
    (hacl : ∀ r ∈ plannedUrlReservations h todoScheduled,
      ∀ a ∈ h.UrlReservationAcl r.Reservation,
        '\t' ∉ GetRecordFormattedString h a.Name ∧
        '\t' ∉ GetRecordFormattedString h a.Domain)
    (hint : ∀ r ∈ plannedUrlReservations h todoScheduled,
      INT_MIN ≤ r.Attributes ∧ r.Attributes ≤ INT_MAX) :
    (ExecuteUrlReservationDecode
        (ScheduleUrlReservationsLoop h todoScheduled h.UrlReservation ([], 0)).1).length
      = (plannedUrlReservations h todoScheduled).length ∧
    ExecuteUrlReservationDecode
        (ScheduleUrlReservationsLoop h todoScheduled h.UrlReservation ([], 0)).1
      = (plannedUrlReservations h todoScheduled).map (plannedUrlReservationItem h) ∧
    ∀ d ∈ ScheduleUrlReservations h todoScheduled,
      ExecuteUrlReservationDecode d.pszCustomActionData
        = (plannedUrlReservations h todoScheduled).map (plannedUrlReservationItem h) := by
  have hdec : ∀ w ∈ (plannedUrlReservations h todoScheduled).map (plannedUrlReservationItem h),
      UrlItemDecodable w := by
    intro w hw
    obtain ⟨r, hr, rfl⟩ := List.mem_map.mp hw
    refine ⟨hurl r hr, ?_, (GetComponentToDo_range _).1, (GetComponentToDo_range _).2,
      (hint r hr).1, (hint r hr).2⟩
    exact tab_not_mem_ScheduleUrlReservationsAcl h _ (hacl r hr) [] (by simp)
  have hplan : (ScheduleUrlReservationsLoop h todoScheduled h.UrlReservation ([], 0)).1 =
      joinFields '\t' (((plannedUrlReservations h todoScheduled).map
        (plannedUrlReservationItem h)).map encodeUrlReservationItem) := by
    rw [ScheduleUrlReservationsLoop_eq, foldl_appendBlock]
    · simp [plannedUrlReservations, List.map_map, Function.comp_def]
    · intro b hb
      obtain ⟨r, _, rfl⟩ := List.mem_map.mp hb
      exact encodeUrlReservationItem_ne_nil _
  have hmain : ExecuteUrlReservationDecode
        (ScheduleUrlReservationsLoop h todoScheduled h.UrlReservation ([], 0)).1
      = (plannedUrlReservations h todoScheduled).map (plannedUrlReservationItem h) := by
    rw [hplan]
    exact ExecuteUrlReservationLoop_joinFields _ hdec _ (le_refl _)
  refine ⟨?_, hmain, ?_⟩
  · rw [hmain, List.length_map]
  · intro d hd
    rw [ScheduleUrlReservations_data h todoScheduled d hd]
    exact hmain

/-- Witness for C10 on the example session and the Install pass. -/
theorem C10_url_reservation_plan_roundtrip_witness :
    ExecuteUrlReservationDecode
        (ScheduleUrlReservationsLoop exampleSession WCA_TODO_INSTALL
          exampleSession.UrlReservation ([], 0)).1
      = (plannedUrlReservations exampleSession WCA_TODO_INSTALL).map
          (plannedUrlReservationItem exampleSession) :=
  (C10_url_reservation_plan_roundtrip exampleSession WCA_TODO_INSTALL
    (by decide) (by decide) (by decide) (by decide)).2.1

/-! ### Planner loops as joins of blocks -/

theorem ScheduleUsersBlock_ne_nil (h : MsiSession) (record : UserExRecord) :
    ScheduleUsersBlock h record ≠ [] := by
  intro e
  have := congrArg List.length e
  simp [ScheduleUsersBlock] at this

theorem ScheduleUsersLoop_eq (h : MsiSession) (todoScheduled : WCA_TODO)
    (records : List UserExRecord) (strAllCAData : CString) (iInstanceCount : Int) :
    ScheduleUsersLoop h todoScheduled records (strAllCAData, iInstanceCount) =
      (((records.filter (fun record =>
          !todoMismatch (GetComponentToDo (h.MsiGetComponentState record.Component_))
              todoScheduled)).map (ScheduleUsersBlock h)).foldl
        (appendBlock '\t') strAllCAData,
       iInstanceCount + ((records.filter (fun record =>
          !todoMismatch (GetComponentToDo (h.MsiGetComponentState record.Component_))
              todoScheduled)).length : Int)) := by
  induction records generalizing strAllCAData iInstanceCount with
  | nil => simp [ScheduleUsersLoop]
  | cons r rs ih =>
    by_cases hm : todoMismatch (GetComponentToDo (h.MsiGetComponentState r.Component_))
        todoScheduled = true
    · simp [ScheduleUsersLoop, hm, ih]
    · simp only [ScheduleUsersLoop, hm, ih, Bool.false_eq_true, if_false, Bool.not_eq_true]
      simp [List.filter_cons, hm]
      omega

theorem ScheduleUsersLoop_plan (h : MsiSession) (todoScheduled : WCA_TODO) :
    ScheduleUsersLoop h todoScheduled h.UserEx ([], 0) =
      (joinFields '\t' ((plannedUsers h todoScheduled).map (ScheduleUsersBlock h)),
       ((plannedUsers h todoScheduled).length : Int)) := by
  rw [ScheduleUsersLoop_eq, foldl_appendBlock]
  · simp [plannedUsers]
  · intro b hb
    obtain ⟨r, _, rfl⟩ := List.mem_map.mp hb
    exact ScheduleUsersBlock_ne_nil h r

theorem ScheduleUrlReservationsLoop_plan (h : MsiSession) (todoScheduled : WCA_TODO) :
    ScheduleUrlReservationsLoop h todoScheduled h.UrlReservation ([], 0) =
      (joinFields '\t' ((plannedUrlReservations h todoScheduled).map
          (fun record => encodeUrlReservationItem (plannedUrlReservationItem h record))),
       ((plannedUrlReservations h todoScheduled).length : Int)) := by
  rw [ScheduleUrlReservationsLoop_eq, foldl_appendBlock]
  · simp [plannedUrlReservations]
  · intro b hb
    obtain ⟨r, _, rfl⟩ := List.mem_map.mp hb
    exact encodeUrlReservationItem_ne_nil _

theorem joinFields_eq_nil_iff (d : Char) (blocks : List CString)
    (hne : ∀ b ∈ blocks, b ≠ []) : joinFields d blocks = [] ↔ blocks = [] := by
  cases blocks with
  | nil => simp [joinFields]
  | cons b bs =>
    simp only [reduceCtorEq, iff_false]
    exact joinFields_ne_nil d b bs (hne b (by simp))

theorem todoMismatch_eq_false_iff (todoComponent todoScheduled : WCA_TODO) :
    todoMismatch todoComponent todoScheduled = false ↔
      (if todoComponent = WCA_TODO_REINSTALL then WCA_TODO_INSTALL else todoComponent)
        = todoScheduled := by
  simp [todoMismatch]

theorem plannedUsers_eq (h : MsiSession) (todoScheduled : WCA_TODO) :
    plannedUsers h todoScheduled =
      h.UserEx.filter (fun record => decide
        ((if GetComponentToDo (h.MsiGetComponentState record.Component_) = WCA_TODO_REINSTALL
          then WCA_TODO_INSTALL
          else GetComponentToDo (h.MsiGetComponentState record.Component_)) = todoScheduled)) := by
  unfold plannedUsers
  congr 1
  funext record
  by_cases e : (if GetComponentToDo (h.MsiGetComponentState record.Component_)
        = WCA_TODO_REINSTALL
      then WCA_TODO_INSTALL
      else GetComponentToDo (h.MsiGetComponentState record.Component_)) = todoScheduled
  · simp [todoMismatch, e]
  · simp [todoMismatch, e]

/-- C14: a UserEx record is among the records ScheduleUsers plans if and only if it is in
the table and its component to-do, with Reinstall folded into Install, equals the
requested pass; the planned records keep the query order; the plan string is the tab-join
of their blocks, and this is the string ScheduleUsers hands to DoDeferredAction: with the
table present and at least one planned record it calls the forward action of the pass
with the plan, and the rollback action with the same plan once that call has returned.
When the only record's component resolves to Uninstall and the pass is Install, the plan
is empty and no call is made. -/
theorem C14_schedule_users_selects_matching_rows (h : MsiSession)
    (todoScheduled : WCA_TODO) :
    (∀ record : UserExRecord, record ∈ plannedUsers h todoScheduled ↔
      (record ∈ h.UserEx ∧
        (if GetComponentToDo (h.MsiGetComponentState record.Component_)
              = WCA_TODO_REINSTALL
          then WCA_TODO_INSTALL
          else GetComponentToDo (h.MsiGetComponentState record.Component_))
            = todoScheduled)) ∧
    (plannedUsers h todoScheduled).Sublist h.UserEx ∧
    ScheduleUsersLoop h todoScheduled h.UserEx ([], 0) =
      (joinFields '\t' ((plannedUsers h todoScheduled).map (ScheduleUsersBlock h)),
       ((plannedUsers h todoScheduled).length : Int)) ∧
    ScheduleUsers h todoScheduled =
      (if h.hasUserEx && !(plannedUsers h todoScheduled).isEmpty then
        (⟨if todoScheduled = WCA_TODO_INSTALL then "SuiExecUsersInstall"
            else "SuiExecUsersUninstall",
          joinFields '\t' ((plannedUsers h todoScheduled).map (ScheduleUsersBlock h)),
          toUINT (((plannedUsers h todoScheduled).length : Int) *
            (if todoScheduled = WCA_TODO_INSTALL then h.COST_USER_ADD
              else h.COST_USER_DELETE))⟩ : DeferredAction) ::
        (if DoDeferredAction h
            ⟨if todoScheduled = WCA_TODO_INSTALL then "SuiExecUsersInstall"
                else "SuiExecUsersUninstall",
              joinFields '\t' ((plannedUsers h todoScheduled).map (ScheduleUsersBlock h)),
              toUINT (((plannedUsers h todoScheduled).length : Int) *
                (if todoScheduled = WCA_TODO_INSTALL then h.COST_USER_ADD
                  else h.COST_USER_DELETE))⟩ = none then
          [⟨if todoScheduled = WCA_TODO_INSTALL then "SuiRollbackUsersInstall"
              else "SuiRollbackUsersUninstall",
            joinFields '\t' ((plannedUsers h todoScheduled).map (ScheduleUsersBlock h)),
            toUINT (((plannedUsers h todoScheduled).length : Int) *
              (if todoScheduled = WCA_TODO_INSTALL then h.COST_USER_ADD
                else h.COST_USER_DELETE))⟩]
        else [])
      else []) ∧
    (∀ record : UserExRecord, h.UserEx = [record] →
      GetComponentToDo (h.MsiGetComponentState record.Component_) = WCA_TODO_UNINSTALL →
      (ScheduleUsersLoop h WCA_TODO_INSTALL h.UserEx ([], 0)).1 = [] ∧
      ScheduleUsers h WCA_TODO_INSTALL = []) := by
  have hplan := ScheduleUsersLoop_plan h todoScheduled
  refine ⟨?_, ?_, hplan, ?_, ?_⟩
  · intro record
    rw [plannedUsers_eq]
    simp [List.mem_filter]
  · exact List.filter_sublist _
  · unfold ScheduleUsers
    rw [hplan]
    by_cases htable : h.hasUserEx = true
    · by_cases hp : plannedUsers h todoScheduled = []
      · simp [htable, hp, joinFields]
      · have hjoin : joinFields '\t'
            ((plannedUsers h todoScheduled).map (ScheduleUsersBlock h)) ≠ [] := by
          intro hx
          have := (joinFields_eq_nil_iff '\t' _ (by
            intro b hb
            obtain ⟨r, _, rfl⟩ := List.mem_map.mp hb
            exact ScheduleUsersBlock_ne_nil h r)).mp hx
          exact hp (List.map_eq_nil_iff.mp this)
        have he : (plannedUsers h todoScheduled).isEmpty = false := by
          cases hx : plannedUsers h todoScheduled with
          | nil => exact absurd hx hp
          | cons _ _ => rfl
        have hje : (joinFields '\t'
            ((plannedUsers h todoScheduled).map (ScheduleUsersBlock h))).isEmpty = false := by
          cases hx : joinFields '\t'
              ((plannedUsers h todoScheduled).map (ScheduleUsersBlock h)) with
          | nil => exact absurd hx hjoin
          | cons _ _ => rfl
        by_cases ht : todoScheduled = WCA_TODO_INSTALL
        · subst ht
          simp only [htable, he, hje, Bool.not_true, Bool.false_eq_true, if_false,
            Bool.not_false, if_true, Bool.and_self, (DoDeferredActions_pair h _ _).1]
        · simp only [htable, he, hje, ht, Bool.not_true, Bool.false_eq_true, if_false,
            Bool.not_false, if_true, Bool.and_self, (DoDeferredActions_pair h _ _).1]
    · simp [htable]
  · intro record hrec htodo
    have hp : plannedUsers h WCA_TODO_INSTALL = [] := by
      rw [plannedUsers_eq, hrec]
      simp [htodo, WCA_TODO_UNINSTALL, WCA_TODO_REINSTALL, WCA_TODO_INSTALL]
    have hl : (ScheduleUsersLoop h WCA_TODO_INSTALL h.UserEx ([], 0)).1 = [] := by
      rw [ScheduleUsersLoop_plan, hp]
      rfl
    refine ⟨hl, ?_⟩
    unfold ScheduleUsers
    simp [hl]

/-- Witness for C14: the Install pass of the example session plans Bob and then Alice and
hands their two blocks, joined by a tab, to the forward and the rollback action; the
single record of a session being uninstalled is left out of the Install plan. -/
theorem C14_schedule_users_selects_matching_rows_witness :
    ScheduleUsers exampleSession WCA_TODO_INSTALL =
      [⟨"SuiExecUsersInstall",
        "1\tBob\t\t16\tpw\t\t1\tAlice\tCORP\t0\tS3cr3t!\tAdmins|CORP".toList, 2⟩,
       ⟨"SuiRollbackUsersInstall",
        "1\tBob\t\t16\tpw\t\t1\tAlice\tCORP\t0\tS3cr3t!\tAdmins|CORP".toList, 2⟩] ∧
    ((ScheduleUsersLoop exampleSingleUserUninstallSession WCA_TODO_INSTALL
        exampleSingleUserUninstallSession.UserEx ([], 0)).1 = [] ∧
      ScheduleUsers exampleSingleUserUninstallSession WCA_TODO_INSTALL = []) :=
  ⟨(C14_schedule_users_selects_matching_rows exampleSession WCA_TODO_INSTALL).2.2.2.1.trans
      (by decide),
   (C14_schedule_users_selects_matching_rows exampleSingleUserUninstallSession
      WCA_TODO_INSTALL).2.2.2.2
      ⟨"u1".toList, "c1".toList, "Alice".toList, "CORP".toList, "S3cr3t!".toList, 0⟩
      rfl (by decide)⟩

/-- C15 fails on the code: for the one matching `GroupEx` record of the example session
the Group planner builds a non-empty plan with instance count 1 and then schedules
nothing, because its test before scheduling is `strAllCAData.IsEmpty ()`. -/
theorem C15_schedule_groups_skips_nonempty_plan :
    ScheduleGroupsLoop exampleSession WCA_TODO_INSTALL exampleSession.GroupEx ([], 0)
      = ("1\tAdmins\t\t0\tAdministrators".toList, 1) ∧
    ScheduleGroups exampleSession WCA_TODO_INSTALL = [] := by
  decide

theorem ScheduleGroups_of_plan_ne_nil (h : MsiSession) (todoScheduled : WCA_TODO)
    (hne : (ScheduleGroupsLoop h todoScheduled h.GroupEx ([], 0)).1 ≠ []) :
    ScheduleGroups h todoScheduled = [] := by
  unfold ScheduleGroups
  have : (ScheduleGroupsLoop h todoScheduled h.GroupEx ([], 0)).1.isEmpty = false := by
    cases hx : (ScheduleGroupsLoop h todoScheduled h.GroupEx ([], 0)).1 with
    | nil => exact absurd hx hne
    | cons _ _ => rfl
  simp [this]

theorem plannedUrlReservations_blocks_ne_nil (h : MsiSession) (todoScheduled : WCA_TODO) :
    ∀ b ∈ (plannedUrlReservations h todoScheduled).map
        (fun record => encodeUrlReservationItem (plannedUrlReservationItem h record)),
      b ≠ [] := by
  intro b hb
  obtain ⟨r, _, rfl⟩ := List.mem_map.mp hb
  exact encodeUrlReservationItem_ne_nil _

theorem toUINT_of_range (x : Int) (h0 : 0 ≤ x) (h1 : x < 4294967296) : toUINT x = x := by
  unfold toUINT
  exact Int.emod_eq_of_lt h0 h1

/-- C16, as stated, fails: in the example session with `MsiDoAction` failing for the
forward action, the Install pass plans two records and ScheduleUrlReservations makes one
DoDeferredAction call, not two; the failed `HRESULT` of that call is thrown and the
rollback action is never scheduled. -/
theorem C16_counterexample :
    (plannedUrlReservations exampleFailingDoActionSession WCA_TODO_INSTALL).length = 2 ∧
    ScheduleUrlReservations exampleFailingDoActionSession WCA_TODO_INSTALL =
      [⟨"SuiExecUrlReservationsInstall",
        ("1\thttp://+:80/app/\t2\tjdoe|CORP|1|svc||3\t" ++
          "1\thttp://+:81/\t0\tjdoe|CORP|1|svc||3").toList, 2⟩] ∧
    ScheduleUrlReservationsThrown exampleFailingDoActionSession WCA_TODO_INSTALL =
      some (.com_error (HRESULT_FROM_WIN32 ERROR_INSTALL_FAILURE)) := by
  decide

/-- C16 (amended): with the table present and at least one record planned,
ScheduleUrlReservations calls DoDeferredAction for the forward action of the requested
pass and, when that call throws nothing, for the rollback action next; a throw of the
first call is what the planner throws and leaves the one call.  Both calls carry the plan
string (the tab-join of the planned records' blocks) and as cost the number of planned
records times the per-row cost of the pass, passed as a 32-bit unsigned value (the
product itself when it lies between 0 and 4294967295).  When no record was planned it
makes no call and throws nothing. -/
theorem C16_schedule_url_reservations_amended (h : MsiSession) (todoScheduled : WCA_TODO) :
    (h.hasUrlReservation = true → 1 ≤ (plannedUrlReservations h todoScheduled).length →
      (todoScheduled = WCA_TODO_INSTALL →
        ScheduleUrlReservations h todoScheduled =
          (⟨"SuiExecUrlReservationsInstall",
            joinFields '\t' ((plannedUrlReservations h todoScheduled).map
              (fun record => encodeUrlReservationItem (plannedUrlReservationItem h record))),
            toUINT (((plannedUrlReservations h todoScheduled).length : Int)
              * h.COST_URLRESERVATION_ADD)⟩ : DeferredAction) ::
          (if DoDeferredAction h
              ⟨"SuiExecUrlReservationsInstall",
                joinFields '\t' ((plannedUrlReservations h todoScheduled).map
                  (fun record =>
                    encodeUrlReservationItem (plannedUrlReservationItem h record))),
                toUINT (((plannedUrlReservations h todoScheduled).length : Int)
                  * h.COST_URLRESERVATION_ADD)⟩ = none then
            [⟨"SuiRollbackUrlReservationsInstall",
              joinFields '\t' ((plannedUrlReservations h todoScheduled).map
                (fun record =>
                  encodeUrlReservationItem (plannedUrlReservationItem h record))),
              toUINT (((plannedUrlReservations h todoScheduled).length : Int)
                * h.COST_URLRESERVATION_ADD)⟩]
          else []) ∧
        ScheduleUrlReservationsThrown h todoScheduled =
          (if DoDeferredAction h
              ⟨"SuiExecUrlReservationsInstall",
                joinFields '\t' ((plannedUrlReservations h todoScheduled).map
                  (fun record =>
                    encodeUrlReservationItem (plannedUrlReservationItem h record))),
                toUINT (((plannedUrlReservations h todoScheduled).length : Int)
                  * h.COST_URLRESERVATION_ADD)⟩ = none then
            DoDeferredAction h
              ⟨"SuiRollbackUrlReservationsInstall",
                joinFields '\t' ((plannedUrlReservations h todoScheduled).map
                  (fun record =>
                    encodeUrlReservationItem (plannedUrlReservationItem h record))),
                toUINT (((plannedUrlReservations h todoScheduled).length : Int)
                  * h.COST_URLRESERVATION_ADD)⟩
          else
            DoDeferredAction h
              ⟨"SuiExecUrlReservationsInstall",
                joinFields '\t' ((plannedUrlReservations h todoScheduled).map
                  (fun record =>
                    encodeUrlReservationItem (plannedUrlReservationItem h record))),
                toUINT (((plannedUrlReservations h todoScheduled).length : Int)
                  * h.COST_URLRESERVATION_ADD)⟩)) ∧
      (todoScheduled = WCA_TODO_UNINSTALL →
        ScheduleUrlReservations h todoScheduled =
          (⟨"SuiExecUrlReservationsUninstall",
            joinFields '\t' ((plannedUrlReservations h todoScheduled).map
              (fun record => encodeUrlReservationItem (plannedUrlReservationItem h record))),
            toUINT (((plannedUrlReservations h todoScheduled).length : Int)
              * h.COST_URLRESERVATION_DELETE)⟩ : DeferredAction) ::
          (if DoDeferredAction h
              ⟨"SuiExecUrlReservationsUninstall",
                joinFields '\t' ((plannedUrlReservations h todoScheduled).map
                  (fun record =>
                    encodeUrlReservationItem (plannedUrlReservationItem h record))),
                toUINT (((plannedUrlReservations h todoScheduled).length : Int)
                  * h.COST_URLRESERVATION_DELETE)⟩ = none then
            [⟨"SuiRollbackUrlReservationsUninstall",
              joinFields '\t' ((plannedUrlReservations h todoScheduled).map
                (fun record =>
                  encodeUrlReservationItem (plannedUrlReservationItem h record))),
              toUINT (((plannedUrlReservations h todoScheduled).length : Int)
                * h.COST_URLRESERVATION_DELETE)⟩]
          else []) ∧
        ScheduleUrlReservationsThrown h todoScheduled =
          (if DoDeferredAction h
              ⟨"SuiExecUrlReservationsUninstall",
                joinFields '\t' ((plannedUrlReservations h todoScheduled).map
                  (fun record =>
                    encodeUrlReservationItem (plannedUrlReservationItem h record))),
                toUINT (((plannedUrlReservations h todoScheduled).length : Int)
                  * h.COST_URLRESERVATION_DELETE)⟩ = none then
            DoDeferredAction h
              ⟨"SuiRollbackUrlReservationsUninstall",
                joinFields '\t' ((plannedUrlReservations h todoScheduled).map
                  (fun record =>
                    encodeUrlReservationItem (plannedUrlReservationItem h record))),
                toUINT (((plannedUrlReservations h todoScheduled).length : Int)
                  * h.COST_URLRESERVATION_DELETE)⟩
          else
            DoDeferredAction h
              ⟨"SuiExecUrlReservationsUninstall",
                joinFields '\t' ((plannedUrlReservations h todoScheduled).map
                  (fun record =>
                    encodeUrlReservationItem (plannedUrlReservationItem h record))),
                toUINT (((plannedUrlReservations h todoScheduled).length : Int)
                  * h.COST_URLRESERVATION_DELETE)⟩))) ∧
    (plannedUrlReservations h todoScheduled = [] →
      ScheduleUrlReservations h todoScheduled = [] ∧
      ScheduleUrlReservationsThrown h todoScheduled = none) ∧
    (∀ cost : Int,
      0 ≤ ((plannedUrlReservations h todoScheduled).length : Int) * cost →
      ((plannedUrlReservations h todoScheduled).length : Int) * cost < 4294967296 →
      toUINT (((plannedUrlReservations h todoScheduled).length : Int) * cost) =
        ((plannedUrlReservations h todoScheduled).length : Int) * cost) := by
  have hplan := ScheduleUrlReservationsLoop_plan h todoScheduled
  refine ⟨?_, ?_, fun cost h0 h1 => toUINT_of_range _ h0 h1⟩
  · intro htable hn
    have hne : plannedUrlReservations h todoScheduled ≠ [] := by
      intro e
      rw [e] at hn
      simp at hn
    have hjoin : joinFields '\t' ((plannedUrlReservations h todoScheduled).map
        (fun record => encodeUrlReservationItem (plannedUrlReservationItem h record)))
          ≠ [] := by
      intro hx
      have := (joinFields_eq_nil_iff '\t' _
        (plannedUrlReservations_blocks_ne_nil h todoScheduled)).mp hx
      exact absurd (List.map_eq_nil_iff.mp this) hne
    have hje : (joinFields '\t' ((plannedUrlReservations h todoScheduled).map
        (fun record => encodeUrlReservationItem (plannedUrlReservationItem h record)))).isEmpty
          = false := by
      cases hx : joinFields '\t' ((plannedUrlReservations h todoScheduled).map
          (fun record => encodeUrlReservationItem (plannedUrlReservationItem h record))) with
      | nil => exact absurd hx hjoin
      | cons _ _ => rfl
    constructor
    · intro ht
      subst ht
      unfold ScheduleUrlReservations ScheduleUrlReservationsThrown
      rw [hplan]
      simp only [htable, hje, Bool.not_true, Bool.false_eq_true, if_false, Bool.not_false,
        if_true, (DoDeferredActions_pair h _ _).1, (DoDeferredActions_pair h _ _).2, and_self]
    · intro ht
      subst ht
      have hni : ¬ WCA_TODO_UNINSTALL = WCA_TODO_INSTALL := by decide
      unfold ScheduleUrlReservations ScheduleUrlReservationsThrown
      rw [hplan]
      simp only [htable, hje, hni, Bool.not_true, Bool.false_eq_true, if_false,
        Bool.not_false, if_true, (DoDeferredActions_pair h _ _).1,
        (DoDeferredActions_pair h _ _).2, and_self]
  · intro hnone
    unfold ScheduleUrlReservations ScheduleUrlReservationsThrown
    rw [hplan, hnone]
    simp [joinFields]

/-- Witness for C16 (amended): the Install pass of the example session, whose
DoDeferredAction calls succeed, plans two records and makes the forward and the rollback
call with cost 2; its Uninstall pass plans none and makes no call; with a per-row cost of
2147483649 the two planned records give the cost 2, the product modulo 2^32. -/
theorem C16_schedule_url_reservations_amended_witness :
    ScheduleUrlReservations exampleSession WCA_TODO_INSTALL =
      [⟨"SuiExecUrlReservationsInstall",
        ("1\thttp://+:80/app/\t2\tjdoe|CORP|1|svc||3\t" ++
          "1\thttp://+:81/\t0\tjdoe|CORP|1|svc||3").toList, 2⟩,
       ⟨"SuiRollbackUrlReservationsInstall",
        ("1\thttp://+:80/app/\t2\tjdoe|CORP|1|svc||3\t" ++
          "1\thttp://+:81/\t0\tjdoe|CORP|1|svc||3").toList, 2⟩] ∧
    (ScheduleUrlReservations exampleSession WCA_TODO_UNINSTALL = [] ∧
      ScheduleUrlReservationsThrown exampleSession WCA_TODO_UNINSTALL = none) ∧
    (ScheduleUrlReservations exampleLargeCostSession WCA_TODO_INSTALL).map
        DeferredAction.uCost = [2, 2] :=
  ⟨(((C16_schedule_url_reservations_amended exampleSession WCA_TODO_INSTALL).1
      rfl (by decide)).1 rfl).1.trans (by decide),
   (C16_schedule_url_reservations_amended exampleSession WCA_TODO_UNINSTALL).2.1 (by decide),
   (congrArg (List.map DeferredAction.uCost)
      (((C16_schedule_url_reservations_amended exampleLargeCostSession WCA_TODO_INSTALL).1
        rfl (by decide)).1 rfl).1).trans (by decide)⟩

theorem ExecuteUrlReservationDecode_plan (h : MsiSession) (todoScheduled : WCA_TODO)
    (hurl : ∀ r ∈ plannedUrlReservations h todoScheduled,
      '\t' ∉ GetRecordFormattedString h r.Url)
    (hacl : ∀ r ∈ plannedUrlReservations h todoScheduled,
      ∀ a ∈ h.UrlReservationAcl r.Reservation,
        '\t' ∉ GetRecordFormattedString h a.Name ∧
        '\t' ∉ GetRecordFormattedString h a.Domain)
    (hint : ∀ r ∈ plannedUrlReservations h todoScheduled,
      INT_MIN ≤ r.Attributes ∧ r.Attributes ≤ INT_MAX) :
    ExecuteUrlReservationDecode
        (ScheduleUrlReservationsLoop h todoScheduled h.UrlReservation ([], 0)).1
      = (plannedUrlReservations h todoScheduled).map (plannedUrlReservationItem h) := by
  have hdec : ∀ w ∈ (plannedUrlReservations h todoScheduled).map (plannedUrlReservationItem h),
      UrlItemDecodable w := by
    intro w hw
    obtain ⟨r, hr, rfl⟩ := List.mem_map.mp hw
    refine ⟨hurl r hr, ?_, (GetComponentToDo_range _).1, (GetComponentToDo_range _).2,
      (hint r hr).1, (hint r hr).2⟩
    exact tab_not_mem_ScheduleUrlReservationsAcl h _ (hacl r hr) [] (by simp)
  rw [ScheduleUrlReservationsLoop_plan]
  have := ExecuteUrlReservationLoop_joinFields _ hdec _ (le_refl _)
  rw [List.map_map] at this
  exact this

theorem filterMap_map_eq_map {α β γ : Type} (l : List α) (g : α → β) (f : β → Option γ)
    (k : α → γ) (hk : ∀ a ∈ l, f (g a) = some (k a)) :
    (l.map g).filterMap f = l.map k := by
  induction l with
  | nil => rfl
  | cons a as ih =>
    have ha := hk a (by simp)
    have has : ∀ b ∈ as, f (g b) = some (k b) := fun b hb => hk b (by simp [hb])
    simp [List.filterMap_cons, ha, ih has]

theorem todoMismatch_install (todoComponent : WCA_TODO)
    (hm : todoMismatch todoComponent WCA_TODO_INSTALL = false) :
    todoComponent = WCA_TODO_INSTALL ∨ todoComponent = WCA_TODO_REINSTALL := by
  by_cases hr : todoComponent = WCA_TODO_REINSTALL
  · exact Or.inr hr
  · left
    simpa [todoMismatch, hr] using hm

theorem todoMismatch_uninstall (todoComponent : WCA_TODO)
    (hm : todoMismatch todoComponent WCA_TODO_UNINSTALL = false) :
    todoComponent = WCA_TODO_UNINSTALL := by
  by_cases hr : todoComponent = WCA_TODO_REINSTALL
  · rw [hr] at hm
    exact absurd hm (by decide)
  · simpa [todoMismatch, hr] using hm

theorem mem_plannedUrlReservations (h : MsiSession) (todoScheduled : WCA_TODO)
    (r : UrlReservationRecord) (hr : r ∈ plannedUrlReservations h todoScheduled) :
    todoMismatch (GetComponentToDo (h.MsiGetComponentState r.Component_)) todoScheduled
      = false := by
  unfold plannedUrlReservations at hr
  have := (List.mem_filter.mp hr).2
  simp only [Bool.and_eq_true, Bool.not_eq_true'] at this
  exact this.1

/-- C12, as stated, fails: the records of the example session whose component is being
reinstalled are placed in the Install-pass plan with to-do Reinstall, and the executor in
rollback mode dispatches both to the Add operation. -/
theorem C12_counterexample :
    (plannedUrlReservations exampleReinstallSession WCA_TODO_INSTALL).length = 2 ∧
    ExecuteUrlReservation true
        (ScheduleUrlReservationsLoop exampleReinstallSession WCA_TODO_INSTALL
          exampleReinstallSession.UrlReservation ([], 0)).1
      = [.AddUrlReservation "http://+:80/app/".toList 2 "jdoe|CORP|1|svc||3".toList,
         .AddUrlReservation "http://+:81/".toList 0 "jdoe|CORP|1|svc||3".toList] := by
  decide

/-- C12 (amended): when the URL reservation executor runs in rollback mode on a plan whose
formatted URL and ACL fields contain no tab (attribute columns holding C int values), every
item of an Install-pass plan whose recorded to-do is Install is dispatched to the Remove
operation, while an item recorded as Reinstall goes to the Add operation; every item of an
Uninstall-pass plan is dispatched to the Add operation. -/
theorem C12_rollback_dispatch_amended (h : MsiSession) (todoScheduled : WCA_TODO)
    (hurl : ∀ r ∈ plannedUrlReservations h todoScheduled,
      '\t' ∉ GetRecordFormattedString h r.Url)
    (hacl : ∀ r ∈ plannedUrlReservations h todoScheduled,
      ∀ a ∈ h.UrlReservationAcl r.Reservation,
        '\t' ∉ GetRecordFormattedString h a.Name ∧
        '\t' ∉ GetRecordFormattedString h a.Domain)
    (hint : ∀ r ∈ plannedUrlReservations h todoScheduled,
      INT_MIN ≤ r.Attributes ∧ r.Attributes ≤ INT_MAX) :
    (todoScheduled = WCA_TODO_INSTALL →
      ExecuteUrlReservation true
          (ScheduleUrlReservationsLoop h todoScheduled h.UrlReservation ([], 0)).1
        = (plannedUrlReservations h todoScheduled).map (fun record =>
            if GetComponentToDo (h.MsiGetComponentState record.Component_)
                = WCA_TODO_REINSTALL then
              UrlReservationSubAction.AddUrlReservation
                (plannedUrlReservationItem h record).strUrl
                (plannedUrlReservationItem h record).iAttributes
                (plannedUrlReservationItem h record).strAcl
            else
              UrlReservationSubAction.RemoveUrlReservation
                (plannedUrlReservationItem h record).strUrl)) ∧
    (todoScheduled = WCA_TODO_UNINSTALL →
      ExecuteUrlReservation true
          (ScheduleUrlReservationsLoop h todoScheduled h.UrlReservation ([], 0)).1
        = (plannedUrlReservations h todoScheduled).map (fun record =>
            UrlReservationSubAction.AddUrlReservation
              (plannedUrlReservationItem h record).strUrl
              (plannedUrlReservationItem h record).iAttributes
              (plannedUrlReservationItem h record).strAcl)) := by
  have hdecode := ExecuteUrlReservationDecode_plan h todoScheduled hurl hacl hint
  constructor
  · intro ht
    unfold ExecuteUrlReservation
    rw [hdecode]
    apply filterMap_map_eq_map
    intro r hr
    have hm := mem_plannedUrlReservations h todoScheduled r hr
    rw [ht] at hm
    rcases todoMismatch_install _ hm with e | e
    · simp [ExecuteUrlReservationSwitch, plannedUrlReservationItem, e,
        GetTranslatedInstallMode, WCA_TODO_INSTALL, WCA_TODO_UNINSTALL, WCA_TODO_REINSTALL]
    · simp [ExecuteUrlReservationSwitch, plannedUrlReservationItem, e,
        GetTranslatedInstallMode, WCA_TODO_INSTALL, WCA_TODO_UNINSTALL, WCA_TODO_REINSTALL]
  · intro ht
    unfold ExecuteUrlReservation
    rw [hdecode]
    apply filterMap_map_eq_map
    intro r hr
    have hm := mem_plannedUrlReservations h todoScheduled r hr
    rw [ht] at hm
    have e := todoMismatch_uninstall _ hm
    simp [ExecuteUrlReservationSwitch, plannedUrlReservationItem, e,
      GetTranslatedInstallMode, WCA_TODO_INSTALL, WCA_TODO_UNINSTALL, WCA_TODO_REINSTALL]

/-- Witness for C12 (amended): the Install pass of the example session, whose records
carry to-do Install, is dispatched to Remove in rollback mode; the Uninstall pass of the
session being uninstalled is dispatched to Add. -/
theorem C12_rollback_dispatch_amended_witness :
    ExecuteUrlReservation true
        (ScheduleUrlReservationsLoop exampleSession WCA_TODO_INSTALL
          exampleSession.UrlReservation ([], 0)).1
      = [.RemoveUrlReservation "http://+:80/app/".toList,
         .RemoveUrlReservation "http://+:81/".toList] ∧
    ExecuteUrlReservation true
        (ScheduleUrlReservationsLoop exampleUninstallSession WCA_TODO_UNINSTALL
          exampleUninstallSession.UrlReservation ([], 0)).1
      = [.AddUrlReservation "http://+:80/app/".toList 2 "jdoe|CORP|1|svc||3".toList,
         .AddUrlReservation "http://+:81/".toList 0 "jdoe|CORP|1|svc||3".toList] :=
  ⟨(C12_rollback_dispatch_amended exampleSession WCA_TODO_INSTALL
      (by decide) (by decide) (by decide)).1 rfl,
   (C12_rollback_dispatch_amended exampleUninstallSession WCA_TODO_UNINSTALL
      (by decide) (by decide) (by decide)).2 rfl⟩

/-! ### Executors: dispatch -/

theorem Outcome_nil_andThen (o : Outcome) : (Outcome.mk [] none).andThen o = o := by
  cases o
  simp [Outcome.andThen]

theorem runInOrder_skip (more : List Outcome) :
    runInOrder (⟨[], none⟩ :: more) = runInOrder more := by
  simp [runInOrder, Outcome_nil_andThen]

theorem runInOrder_all_skip {α : Type} (l : List α) (f : α → Outcome)
    (hf : ∀ a ∈ l, f a = ⟨[], none⟩) : runInOrder (l.map f) = ⟨[], none⟩ := by
  induction l with
  | nil => rfl
  | cons a as ih =>
    have ha := hf a (by simp)
    have has : ∀ b ∈ as, f b = ⟨[], none⟩ := fun b hb => hf b (by simp [hb])
    rw [List.map_cons, ha, runInOrder_skip, ih has]

theorem filterMap_of_some {α β : Type} (l : List α) (f : α → Option β) (g : α → β)
    (hf : ∀ a, f a = some (g a)) : l.filterMap f = l.map g := by
  induction l with
  | nil => rfl
  | cons a as ih => simp [List.filterMap_cons, hf a, ih]

theorem filterMap_of_none {α β : Type} (l : List α) (f : α → Option β)
    (hf : ∀ a, f a = none) : l.filterMap f = [] := by
  induction l with
  | nil => rfl
  | cons a as ih => simp [List.filterMap_cons, hf a, ih]

theorem runInOrder_map_filter {α : Type} (l : List α) (p : α → Bool) (f g : α → Outcome)
    (hp : ∀ a, p a = true → f a = g a) (hn : ∀ a, p a = false → f a = ⟨[], none⟩) :
    runInOrder (l.map f) = runInOrder ((l.filter p).map g) := by
  induction l with
  | nil => rfl
  | cons a as ih =>
    cases hpa : p a with
    | true =>
      rw [List.map_cons, List.filter_cons_of_pos hpa, List.map_cons, runInOrder, runInOrder,
        ih, hp a hpa]
    | false =>
      rw [List.map_cons, List.filter_cons_of_neg (by simp [hpa]), hn a hpa,
        runInOrder_skip, ih]

theorem uninstall_not_add :
    ¬ (WCA_TODO_UNINSTALL = WCA_TODO_INSTALL ∨ WCA_TODO_UNINSTALL = WCA_TODO_REINSTALL) := by
  decide

/-- C13: ExecuteUser and ExecuteGroup, with the to-do read in front of the plan and
translated, run their Add operation on every decoded work item, in order, when the to-do
is Install or Reinstall, their Remove operation when it is Uninstall, and for any other
to-do value make no call at all (no operating-system call, no progress message, nothing
thrown).  ExecuteUrlReservation translates each item's own to-do: the items whose to-do
is none of the three cause no call and the loop goes on with the next item; the others
get AddUrlReservation (Install, Reinstall) or RemoveUrlReservation (Uninstall), in order.
As everywhere a sub-action that throws ends the loop. -/
theorem C13_executor_dispatch (os : OS) (c : Costs) (fIsRollback : Bool)
    (CustomActionData : CString) :
    (ExecuteUser fIsRollback CustomActionData =
      (if (ExecuteUserDecode fIsRollback CustomActionData).1 = WCA_TODO_INSTALL ∨
          (ExecuteUserDecode fIsRollback CustomActionData).1 = WCA_TODO_REINSTALL then
        (ExecuteUserDecode fIsRollback CustomActionData).2.map (fun w =>
          UserSubAction.AddUser w.strName w.strDomain w.iAttributes w.strPassword
            w.strMembership)
      else if (ExecuteUserDecode fIsRollback CustomActionData).1 = WCA_TODO_UNINSTALL then
        (ExecuteUserDecode fIsRollback CustomActionData).2.map (fun w =>
          UserSubAction.RemoveUser w.strName w.strDomain w.iAttributes w.strMembership)
      else []) ∧
    ExecuteUserRun os c fIsRollback CustomActionData =
      (if (ExecuteUserDecode fIsRollback CustomActionData).1 = WCA_TODO_INSTALL ∨
          (ExecuteUserDecode fIsRollback CustomActionData).1 = WCA_TODO_REINSTALL then
        runInOrder ((ExecuteUserDecode fIsRollback CustomActionData).2.map (fun w =>
          AddUser os c.COST_USER_ADD w.strName w.strDomain w.iAttributes w.strPassword
            w.strMembership))
      else if (ExecuteUserDecode fIsRollback CustomActionData).1 = WCA_TODO_UNINSTALL then
        runInOrder ((ExecuteUserDecode fIsRollback CustomActionData).2.map (fun w =>
          RemoveUser os c.COST_USER_DELETE w.strName w.strDomain w.iAttributes
            w.strMembership))
      else ⟨[], none⟩)) ∧
    (ExecuteGroup fIsRollback CustomActionData =
      (if (ExecuteGroupDecode fIsRollback CustomActionData).1 = WCA_TODO_INSTALL ∨
          (ExecuteGroupDecode fIsRollback CustomActionData).1 = WCA_TODO_REINSTALL then
        (ExecuteGroupDecode fIsRollback CustomActionData).2.map (fun w =>
          GroupSubAction.AddGroup w.strName w.strDomain w.iAttributes w.strDescription)
      else if (ExecuteGroupDecode fIsRollback CustomActionData).1 = WCA_TODO_UNINSTALL then
        (ExecuteGroupDecode fIsRollback CustomActionData).2.map (fun w =>
          GroupSubAction.RemoveGroup w.strName w.strDomain w.iAttributes)
      else []) ∧
    ExecuteGroupRun os c fIsRollback CustomActionData =
      (if (ExecuteGroupDecode fIsRollback CustomActionData).1 = WCA_TODO_INSTALL ∨
          (ExecuteGroupDecode fIsRollback CustomActionData).1 = WCA_TODO_REINSTALL then
        runInOrder ((ExecuteGroupDecode fIsRollback CustomActionData).2.map (fun w =>
          AddGroup os c.COST_GROUP_ADD w.strName w.strDomain w.iAttributes
            w.strDescription))
      else if (ExecuteGroupDecode fIsRollback CustomActionData).1 = WCA_TODO_UNINSTALL then
        runInOrder ((ExecuteGroupDecode fIsRollback CustomActionData).2.map (fun w =>
          RemoveGroup os c.COST_GROUP_DELETE w.strName w.strDomain w.iAttributes))
      else ⟨[], none⟩)) ∧
    (ExecuteUrlReservation fIsRollback CustomActionData =
      (ExecuteUrlReservationDecode CustomActionData).filterMap (fun w =>
        if GetTranslatedInstallMode fIsRollback w.todo = WCA_TODO_INSTALL ∨
            GetTranslatedInstallMode fIsRollback w.todo = WCA_TODO_REINSTALL then
          some (UrlReservationSubAction.AddUrlReservation w.strUrl w.iAttributes w.strAcl)
        else if GetTranslatedInstallMode fIsRollback w.todo = WCA_TODO_UNINSTALL then
          some (UrlReservationSubAction.RemoveUrlReservation w.strUrl)
        else none) ∧
    ExecuteUrlReservationRun os c fIsRollback CustomActionData =
      runInOrder (((ExecuteUrlReservationDecode CustomActionData).filter (fun w =>
          decide (GetTranslatedInstallMode fIsRollback w.todo = WCA_TODO_INSTALL ∨
            GetTranslatedInstallMode fIsRollback w.todo = WCA_TODO_REINSTALL ∨
            GetTranslatedInstallMode fIsRollback w.todo = WCA_TODO_UNINSTALL))).map
        (fun w =>
          if GetTranslatedInstallMode fIsRollback w.todo = WCA_TODO_INSTALL ∨
              GetTranslatedInstallMode fIsRollback w.todo = WCA_TODO_REINSTALL then
            AddUrlReservation os c.COST_URLRESERVATION_ADD w.strUrl w.iAttributes w.strAcl
          else
            RemoveUrlReservation os c.COST_URLRESERVATION_DELETE w.strUrl))) := by
  refine ⟨⟨?_, ?_⟩, ⟨?_, ?_⟩, ⟨?_, ?_⟩⟩
  · unfold ExecuteUser
    simp only []
    by_cases h1 : (ExecuteUserDecode fIsRollback CustomActionData).1 = WCA_TODO_INSTALL ∨
        (ExecuteUserDecode fIsRollback CustomActionData).1 = WCA_TODO_REINSTALL
    · rw [if_pos h1]
      exact filterMap_of_some _ _ _ (fun w => by simp [ExecuteUserSwitch, h1])
    · rw [if_neg h1]
      by_cases h2 : (ExecuteUserDecode fIsRollback CustomActionData).1 = WCA_TODO_UNINSTALL
      · rw [if_pos h2]
        exact filterMap_of_some _ _ _ (fun w => by simp [ExecuteUserSwitch, h2, uninstall_not_add])
      · rw [if_neg h2]
        exact filterMap_of_none _ _ (fun w => by simp [ExecuteUserSwitch, h1, h2])
  · unfold ExecuteUserRun
    simp only []
    by_cases h1 : (ExecuteUserDecode fIsRollback CustomActionData).1 = WCA_TODO_INSTALL ∨
        (ExecuteUserDecode fIsRollback CustomActionData).1 = WCA_TODO_REINSTALL
    · rw [if_pos h1]
      congr 1
      exact List.map_congr_left (fun w _ => by simp [ExecuteUserItem, ExecuteUserSwitch, h1])
    · rw [if_neg h1]
      by_cases h2 : (ExecuteUserDecode fIsRollback CustomActionData).1 = WCA_TODO_UNINSTALL
      · rw [if_pos h2]
        congr 1
        exact List.map_congr_left
          (fun w _ => by simp [ExecuteUserItem, ExecuteUserSwitch, h2, uninstall_not_add])
      · rw [if_neg h2]
        exact runInOrder_all_skip _ _
          (fun w _ => by simp [ExecuteUserItem, ExecuteUserSwitch, h1, h2])
  · unfold ExecuteGroup
    simp only []
    by_cases h1 : (ExecuteGroupDecode fIsRollback CustomActionData).1 = WCA_TODO_INSTALL ∨
        (ExecuteGroupDecode fIsRollback CustomActionData).1 = WCA_TODO_REINSTALL
    · rw [if_pos h1]
      exact filterMap_of_some _ _ _ (fun w => by simp [ExecuteGroupSwitch, h1])
    · rw [if_neg h1]
      by_cases h2 : (ExecuteGroupDecode fIsRollback CustomActionData).1 = WCA_TODO_UNINSTALL
      · rw [if_pos h2]
        exact filterMap_of_some _ _ _ (fun w => by simp [ExecuteGroupSwitch, h2, uninstall_not_add])
      · rw [if_neg h2]
        exact filterMap_of_none _ _ (fun w => by simp [ExecuteGroupSwitch, h1, h2])
  · unfold ExecuteGroupRun
    simp only []
    by_cases h1 : (ExecuteGroupDecode fIsRollback CustomActionData).1 = WCA_TODO_INSTALL ∨
        (ExecuteGroupDecode fIsRollback CustomActionData).1 = WCA_TODO_REINSTALL
    · rw [if_pos h1]
      congr 1
      exact List.map_congr_left
        (fun w _ => by simp [ExecuteGroupItem, ExecuteGroupSwitch, h1])
    · rw [if_neg h1]
      by_cases h2 : (ExecuteGroupDecode fIsRollback CustomActionData).1 = WCA_TODO_UNINSTALL
      · rw [if_pos h2]
        congr 1
        exact List.map_congr_left
          (fun w _ => by simp [ExecuteGroupItem, ExecuteGroupSwitch, h2, uninstall_not_add])
      · rw [if_neg h2]
        exact runInOrder_all_skip _ _
          (fun w _ => by simp [ExecuteGroupItem, ExecuteGroupSwitch, h1, h2])
  · rfl
  · unfold ExecuteUrlReservationRun
    apply runInOrder_map_filter
    · intro w hw
      simp only [decide_eq_true_eq] at hw
      by_cases h1 : GetTranslatedInstallMode fIsRollback w.todo = WCA_TODO_INSTALL ∨
          GetTranslatedInstallMode fIsRollback w.todo = WCA_TODO_REINSTALL
      · simp [ExecuteUrlReservationItem, ExecuteUrlReservationSwitch, h1]
      · have h2 : GetTranslatedInstallMode fIsRollback w.todo = WCA_TODO_UNINSTALL := by
          rcases hw with e | e | e
          · exact absurd (Or.inl e) h1
          · exact absurd (Or.inr e) h1
          · exact e
        simp [ExecuteUrlReservationItem, ExecuteUrlReservationSwitch, h2, uninstall_not_add]
    · intro w hw
      simp only [decide_eq_false_iff_not, not_or] at hw
      simp [ExecuteUrlReservationItem, ExecuteUrlReservationSwitch, hw.1, hw.2.1, hw.2.2]

/-- Witness for C13: a URL reservation plan of three items with to-do Install, 7 and
Uninstall runs AddUrlReservation for the first and RemoveUrlReservation for the third; a
group plan headed by to-do 7 causes no call; a user plan headed by Uninstall and run in
rollback mode runs AddUser. -/
theorem C13_executor_dispatch_witness :
    ExecuteUrlReservationRun successOS exampleCosts false
        "1\thttp://a/\t0\tjdoe||1\t7\thttp://b/\t0\tjdoe||1\t2\thttp://c/\t0\tjdoe||1".toList
      = runInOrder
          [AddUrlReservation successOS 1 "http://a/".toList 0 "jdoe||1".toList,
           RemoveUrlReservation successOS 1 "http://c/".toList] ∧
    ExecuteGroupRun successOS exampleCosts false "7\tAdmins\t\t0\tAdministrators".toList
      = ⟨[], none⟩ ∧
    ExecuteUserRun successOS exampleCosts true "2\tBob\t\t16\tpw\t".toList
      = runInOrder [AddUser successOS 1 "Bob".toList [] 16 "pw".toList []] :=
  ⟨(C13_executor_dispatch successOS exampleCosts false
      "1\thttp://a/\t0\tjdoe||1\t7\thttp://b/\t0\tjdoe||1\t2\thttp://c/\t0\tjdoe||1".toList
      ).2.2.2.trans (by decide),
   (C13_executor_dispatch successOS exampleCosts false
      "7\tAdmins\t\t0\tAdministrators".toList).2.1.2.trans (by decide),
   (C13_executor_dispatch successOS exampleCosts true
      "2\tBob\t\t16\tpw\t".toList).1.2.trans (by decide)⟩

/-! ### AddUser on a single-item plan -/

theorem Outcome_andThen_nil (o : Outcome) : o.andThen ⟨[], none⟩ = o := by
  obtain ⟨calls, thrown⟩ := o
  cases thrown <;> simp [Outcome.andThen]

theorem ExecuteUserLoop_nil (fuel : Nat) : ExecuteUserLoop fuel [] = [] := by
  cases fuel <;> simp [ExecuteUserLoop]

theorem ExecuteUserLoop_single (fuel : Nat)
    (strName strDomain strAttrib strPassword strMembership : CString)
    (hn : '\t' ∉ strName) (hd : '\t' ∉ strDomain) (ha : '\t' ∉ strAttrib)
    (hp : '\t' ∉ strPassword) (hm : '\t' ∉ strMembership) :
    ExecuteUserLoop (fuel + 1)
        (strName ++ '\t' :: (strDomain ++ '\t' :: (strAttrib ++ '\t' ::
          (strPassword ++ '\t' :: strMembership))))
      = [⟨strName, strDomain, _ttoi strAttrib, strPassword, strMembership⟩] := by
  have hne : (strName ++ '\t' :: (strDomain ++ '\t' :: (strAttrib ++ '\t' ::
      (strPassword ++ '\t' :: strMembership)))).isEmpty = false := by
    cases strName <;> rfl
  rw [ExecuteUserLoop, hne]
  simp only [Bool.false_eq_true, if_false, ExtractTab_append_cons _ _ hn,
    ExtractTab_append_cons _ _ hd, ExtractTab_append_cons _ _ ha,
    ExtractTab_append_cons _ _ hp, ExtractTab_of_not_mem _ hm, ExecuteUserLoop_nil]

theorem ExecuteUser_single (fIsRollback : Bool)
    (strTodo strName strDomain strAttrib strPassword strMembership : CString)
    (ht : '\t' ∉ strTodo)
    (hn : '\t' ∉ strName) (hd : '\t' ∉ strDomain) (ha : '\t' ∉ strAttrib)
    (hp : '\t' ∉ strPassword) (hm : '\t' ∉ strMembership)
    (htodo : GetTranslatedInstallMode fIsRollback (_ttoi strTodo) = WCA_TODO_INSTALL) :
    ExecuteUser fIsRollback
        (strTodo ++ '\t' :: (strName ++ '\t' :: (strDomain ++ '\t' :: (strAttrib ++ '\t' ::
          (strPassword ++ '\t' :: strMembership)))))
      = [.AddUser strName strDomain (_ttoi strAttrib) strPassword strMembership] := by
  unfold ExecuteUser ExecuteUserDecode
  simp only [ExtractTab_append_cons _ _ ht, htodo]
  have hlen : (strName ++ '\t' :: (strDomain ++ '\t' :: (strAttrib ++ '\t' ::
      (strPassword ++ '\t' :: strMembership)))).length
      = ((strName ++ '\t' :: (strDomain ++ '\t' :: (strAttrib ++ '\t' ::
      (strPassword ++ '\t' :: strMembership)))).length - 1) + 1 := by
    simp only [List.length_append, List.length_cons]
    omega
  rw [hlen, ExecuteUserLoop_single _ _ _ _ _ _ hn hd ha hp hm]
  simp [ExecuteUserSwitch]

theorem AddUserMembership_nil (os : OS) (strName strDomain : CString) (fuel : Nat) :
    AddUserMembership os strName strDomain fuel [] = ⟨[], none⟩ := by
  cases fuel <;> simp [AddUserMembership]

theorem AddUserMembership_step (os : OS) (strName strDomain : CString) (fuel : Nat)
    (strMembership : CString) (hne : strMembership ≠ []) :
    AddUserMembership os strName strDomain (fuel + 1) strMembership =
      if (ExtractNextBarDelimitedBlock strMembership).1.length > 0 then
        (AddUserToGroup os strName strDomain (ExtractNextBarDelimitedBlock strMembership).1
          (ExtractNextBarDelimitedBlock
            (ExtractNextBarDelimitedBlock strMembership).2).1).andThen
          (AddUserMembership os strName strDomain fuel
            (ExtractNextBarDelimitedBlock
              (ExtractNextBarDelimitedBlock strMembership).2).2)
      else
        AddUserMembership os strName strDomain fuel
          (ExtractNextBarDelimitedBlock
            (ExtractNextBarDelimitedBlock strMembership).2).2 := by
  have : strMembership.isEmpty = false := by
    cases strMembership with
    | nil => exact absurd rfl hne
    | cons _ _ => rfl
  rw [AddUserMembership, this]
  simp

theorem throwIfFailed_calls (calls : List OsCall) (er : Nat) :
    (throwIfFailed calls er).calls = calls := by
  unfold throwIfFailed
  split <;> rfl

theorem throwIfFailed_success (calls : List OsCall) :
    throwIfFailed calls NERR_Success = ⟨calls, none⟩ := by
  simp [throwIfFailed, NERR_Success, HRESULT_FROM_WIN32, toHRESULT, FAILED]

theorem Outcome_mk_none_andThen (calls : List OsCall) (o : Outcome) :
    (Outcome.mk calls none).andThen o = ⟨calls ++ o.calls, o.thrown⟩ := rfl

theorem Outcome_andThen_assoc (a b c : Outcome) :
    (a.andThen b).andThen c = a.andThen (b.andThen c) := by
  obtain ⟨ac, at_⟩ := a
  obtain ⟨bc, bt⟩ := b
  cases at_ <;> cases bt <;> simp [Outcome.andThen]

theorem mem_andThen_left (a b : Outcome) (c : OsCall) (hc : c ∈ a.calls) :
    c ∈ (a.andThen b).calls := by
  unfold Outcome.andThen
  split
  · exact hc
  · simp [hc]

theorem mem_andThen_right (a b : Outcome) (c : OsCall) (ha : a.thrown = none)
    (hc : c ∈ b.calls) : c ∈ (a.andThen b).calls := by
  unfold Outcome.andThen
  rw [ha]
  simp [hc]

theorem GetDomainOrControllerName_calls (os : OS) (pszDomain : CString) :
    (GetDomainOrControllerName os pszDomain).1 =
      if pszDomain.length > 0 then [.DsGetDcName pszDomain] else [] := by
  unfold GetDomainOrControllerName
  split_ifs <;> rfl

theorem mem_AddUserCreate_calls (os : OS) (strName pszDomain : CString) (iAttributes : Int)
    (strPassword : CString) (hcreate : testFlag iAttributes SCAU_DONT_CREATE_USER = false) :
    OsCall.NetUserAdd (GetDomainOrControllerName os pszDomain).2 strName strPassword
        (SetUserPasswordAndAttributes UF_SCRIPT iAttributes)
      ∈ (AddUserCreate os strName pszDomain iAttributes strPassword).calls := by
  unfold AddUserCreate
  simp only [hcreate, Bool.false_eq_true, if_false]
  split_ifs <;> simp [throwIfFailed_calls]

theorem AddUserMembership_admins (os : OS) (strName strDomain : CString) :
    AddUserMembership os strName strDomain "Admins|CORP".toList.length "Admins|CORP".toList
      = AddUserToGroup os strName strDomain "Admins".toList "CORP".toList := by
  have h1 : ExtractNextBarDelimitedBlock "Admins|CORP".toList
      = ("Admins".toList, "CORP".toList) := by decide
  have h2 : ExtractNextBarDelimitedBlock "CORP".toList = ("CORP".toList, []) := by decide
  have hlen : "Admins|CORP".toList.length = 10 + 1 := by decide
  have hpos : ("Admins".toList).length > 0 := by decide
  rw [hlen, AddUserMembership_step _ _ _ _ _ (by decide), h1]
  simp only [h2, hpos, if_true, AddUserMembership_nil, Outcome_andThen_nil]

/-- C11 fails on the code: ExecuteUser does make exactly one AddUser call with the five
values of a single-item plan whose translated to-do is Install, and for the plan
"1 Alice CORP 0 S3cr3t! Admins|CORP" (tab separated) the call is
AddUser (Alice, CORP, 0, S3cr3t!, Admins|CORP); but AddUser first constructs the SID of
the account, and for an account that cannot be resolved (a user that does not exist yet)
that constructor throws before the create call: the run is the one lookup and a
`CAtlException`, with no NetUserAdd and no group call.  Only for an account that resolves
already does AddUser reach NetUserAdd (flags UF_SCRIPT only) and, that call succeeding,
AddUserToGroup for group Admins of domain CORP and the progress message. -/
theorem C11_add_user_resolves_account_before_create :
    (∀ (fIsRollback : Bool)
        (strTodo strName strDomain strAttrib strPassword strMembership : CString),
      '\t' ∉ strTodo → '\t' ∉ strName → '\t' ∉ strDomain → '\t' ∉ strAttrib →
      '\t' ∉ strPassword → '\t' ∉ strMembership →
      GetTranslatedInstallMode fIsRollback (_ttoi strTodo) = WCA_TODO_INSTALL →
      ExecuteUser fIsRollback
          (strTodo ++ '\t' :: (strName ++ '\t' :: (strDomain ++ '\t' ::
            (strAttrib ++ '\t' :: (strPassword ++ '\t' :: strMembership)))))
        = [.AddUser strName strDomain (_ttoi strAttrib) strPassword strMembership]) ∧
    ExecuteUser false "1\tAlice\tCORP\t0\tS3cr3t!\tAdmins|CORP".toList
      = [.AddUser "Alice".toList "CORP".toList 0 "S3cr3t!".toList "Admins|CORP".toList] ∧
    (∀ (os : OS) (cost : Int),
      os.result (.LookupAccountName "CORP\\Alice".toList) ≠ 0 →
      AddUser os cost "Alice".toList "CORP".toList 0 "S3cr3t!".toList "Admins|CORP".toList
        = ⟨[.LookupAccountName "CORP\\Alice".toList],
            some (.CAtlException
              (HRESULT_FROM_WIN32 (os.result (.LookupAccountName "CORP\\Alice".toList))))⟩) ∧
    ExecuteUserRun absentOS exampleCosts false
        "1\tAlice\tCORP\t0\tS3cr3t!\tAdmins|CORP".toList
      = ⟨[.LookupAccountName "CORP\\Alice".toList],
          some (.CAtlException (HRESULT_FROM_WIN32 ERROR_NONE_MAPPED))⟩ ∧
    (∀ (os : OS) (cost : Int),
      os.result (.LookupAccountName "CORP\\Alice".toList) = 0 →
      OsCall.NetUserAdd (GetDomainOrControllerName os "CORP".toList).2 "Alice".toList
          "S3cr3t!".toList UF_SCRIPT
        ∈ (AddUser os cost "Alice".toList "CORP".toList 0 "S3cr3t!".toList
            "Admins|CORP".toList).calls ∧
      (os.result (.NetUserAdd (GetDomainOrControllerName os "CORP".toList).2
          "Alice".toList "S3cr3t!".toList UF_SCRIPT) = NERR_Success →
        AddUser os cost "Alice".toList "CORP".toList 0 "S3cr3t!".toList
            "Admins|CORP".toList
          = (Outcome.mk
              [.LookupAccountName "CORP\\Alice".toList, .DsGetDcName "CORP".toList,
               .NetUserAdd (GetDomainOrControllerName os "CORP".toList).2 "Alice".toList
                 "S3cr3t!".toList UF_SCRIPT] none).andThen
              ((AddUserToGroup os "Alice".toList "CORP".toList "Admins".toList
                  "CORP".toList).andThen ⟨[.ProgressMessage cost false], none⟩) ∧
        (AddUserToGroup os "Alice".toList "CORP".toList "Admins".toList
            "CORP".toList).calls.head?
          = some (.NetGroupAddUser (some "CORP".toList) "Admins".toList "Alice".toList))) := by
  refine ⟨?_, by decide, ?_, by decide, ?_⟩
  · intro b t n d a p m ht hn hd ha hp hm htodo
    exact ExecuteUser_single b t n d a p m ht hn hd ha hp hm htodo
  · intro os cost hsid
    have hfq : fqAccountName "CORP".toList "Alice".toList = "CORP\\Alice".toList := by decide
    unfold AddUser
    rw [hfq]
    simp only [ne_eq, hsid, not_false_eq_true, if_true]
  · intro os cost hsid
    have hfq : fqAccountName "CORP".toList "Alice".toList = "CORP\\Alice".toList := by decide
    have hflags : SetUserPasswordAndAttributes UF_SCRIPT 0 = UF_SCRIPT := by decide
    have hign : testFlag 0 SCAU_IGNORE_SERVICE_ACCOUNTS = false := by decide
    have hlogon : testFlag 0 SCAU_ALLOW_LOGON_AS_SERVICE = false := by decide
    have hcreate : testFlag 0 SCAU_DONT_CREATE_USER = false := by decide
    have hunfold : AddUser os cost "Alice".toList "CORP".toList 0 "S3cr3t!".toList
        "Admins|CORP".toList
        = (Outcome.mk [.LookupAccountName "CORP\\Alice".toList] none).andThen
          (((AddUserCreate os "Alice".toList "CORP".toList 0 "S3cr3t!".toList).andThen
            (AddUserToGroup os "Alice".toList "CORP".toList "Admins".toList
              "CORP".toList)).andThen ⟨[.ProgressMessage cost false], none⟩) := by
      unfold AddUser
      rw [hfq]
      simp only [hsid, ne_eq, not_true_eq_false, if_false, hign, hlogon, Bool.not_false,
        Bool.or_true, if_true, Bool.false_eq_true, Outcome_nil_andThen,
        AddUserMembership_admins]
    constructor
    · rw [hunfold]
      apply mem_andThen_right _ _ _ rfl
      apply mem_andThen_left
      apply mem_andThen_left
      have := mem_AddUserCreate_calls os "Alice".toList "CORP".toList 0 "S3cr3t!".toList
        hcreate
      rw [hflags] at this
      exact this
    · intro hadd
      have hdc : (GetDomainOrControllerName os "CORP".toList).1
          = [.DsGetDcName "CORP".toList] := by
        rw [GetDomainOrControllerName_calls]
        decide
      have hcreateEq : AddUserCreate os "Alice".toList "CORP".toList 0 "S3cr3t!".toList
          = ⟨[.DsGetDcName "CORP".toList,
              .NetUserAdd (GetDomainOrControllerName os "CORP".toList).2 "Alice".toList
                "S3cr3t!".toList UF_SCRIPT], none⟩ := by
        unfold AddUserCreate
        simp only [hcreate, Bool.false_eq_true, if_false, hflags, hadd, hdc]
        have h1 : ¬ (NERR_UserExists = NERR_Success) := by decide
        have h2 : ¬ (NERR_PasswordTooShort = NERR_Success ∨
            NERR_PasswordTooLong = NERR_Success) := by decide
        simp only [h1, h2, if_false, throwIfFailed_success]
        rfl
      constructor
      · rw [hunfold, hcreateEq, Outcome_andThen_assoc]
        simp only [Outcome_mk_none_andThen, List.singleton_append, List.cons_append,
          List.nil_append]
      · unfold AddUserToGroup
        have hlen : ("CORP".toList).length > 0 := by decide
        simp only [hlen, if_true]
        split_ifs <;> rfl

/-- Witness for C11: on an operating system where the account does not resolve, the
AddUser call for Alice is one failed lookup and a thrown `CAtlException`. -/
theorem C11_add_user_resolves_account_before_create_witness :
    AddUser absentOS 1 "Alice".toList "CORP".toList 0 "S3cr3t!".toList "Admins|CORP".toList
      = ⟨[.LookupAccountName "CORP\\Alice".toList],
          some (.CAtlException
            (HRESULT_FROM_WIN32
              (absentOS.result (.LookupAccountName "CORP\\Alice".toList))))⟩ ∧
    ExecuteUser true
        ("2".toList ++ '\t' :: ("Bob".toList ++ '\t' :: ([] ++ '\t' ::
          ("16".toList ++ '\t' :: ("pw".toList ++ '\t' :: [])))))
      = [.AddUser "Bob".toList [] (_ttoi "16".toList) "pw".toList []] :=
  ⟨C11_add_user_resolves_account_before_create.2.2.1 absentOS 1 (by decide),
   C11_add_user_resolves_account_before_create.1 true "2".toList "Bob".toList []
      "16".toList "pw".toList [] (by decide) (by decide) (by decide) (by decide)
      (by decide) (by decide) (by decide)⟩

/-! ### Create calls that report an existing principal -/

theorem AddUser_eq_of_lookup (os : OS) (cost : Int) (pszName pszDomain : CString)
    (iAttributes : Int) (pszPassword pszMembership : CString)
    (hsid : os.result (.LookupAccountName (fqAccountName pszDomain pszName)) = 0)
    (hgate : (!os.isWellKnownServiceSid (fqAccountName pszDomain pszName)
      || !testFlag iAttributes SCAU_IGNORE_SERVICE_ACCOUNTS) = true) :
    AddUser os cost pszName pszDomain iAttributes pszPassword pszMembership
      = (Outcome.mk [.LookupAccountName (fqAccountName pszDomain pszName)] none).andThen
          (((AddUserCreate os pszName pszDomain iAttributes pszPassword).andThen
            ((if testFlag iAttributes SCAU_ALLOW_LOGON_AS_SERVICE then
                ModifyUserLocalServiceRight os pszDomain pszName true
              else ⟨[], none⟩).andThen
              (AddUserMembership os pszName pszDomain pszMembership.length
                pszMembership))).andThen
            ⟨[.ProgressMessage cost false], none⟩) := by
  unfold AddUser
  simp only [hsid, ne_eq, not_true_eq_false, if_false, hgate, if_true]

theorem andThen_thrown_of_thrown (a b : Outcome) (e : Thrown) (ha : a.thrown = some e) :
    a.andThen b = a := by
  unfold Outcome.andThen
  rw [ha]

/-- C18: when the create call reports that the principal exists already, AddUser and
AddGroup read the principal and, the read succeeding, update it in place if the
update-if-exists bit is set (the outcome then being that of the update call; a failed
read is raised); otherwise they go on without a further call on the principal if the
fail-if-exists bit is clear, and raise an error built from the create call's code if it
is set. -/
theorem C18_create_reports_existing (os : OS) :
    (∀ (strName pszDomain strPassword : CString) (iAttributes : Int),
      testFlag iAttributes SCAU_DONT_CREATE_USER = false →
      os.result (.NetUserAdd (GetDomainOrControllerName os pszDomain).2 strName strPassword
        (SetUserPasswordAndAttributes UF_SCRIPT iAttributes)) = NERR_UserExists →
      (testFlag iAttributes SCAU_UPDATE_IF_EXISTS = true →
        (os.result (.NetUserGetInfo (GetDomainOrControllerName os pszDomain).2 strName)
            = NERR_Success →
          AddUserCreate os strName pszDomain iAttributes strPassword =
            throwIfFailed
              ((GetDomainOrControllerName os pszDomain).1 ++
                [.NetUserAdd (GetDomainOrControllerName os pszDomain).2 strName strPassword
                    (SetUserPasswordAndAttributes UF_SCRIPT iAttributes),
                 .NetUserGetInfo (GetDomainOrControllerName os pszDomain).2 strName,
                 .NetUserSetInfo (GetDomainOrControllerName os pszDomain).2 strName
                    strPassword
                    (SetUserPasswordAndAttributes
                      (os.usri1_flags (GetDomainOrControllerName os pszDomain).2 strName)
                      iAttributes)])
              (os.result (.NetUserSetInfo (GetDomainOrControllerName os pszDomain).2
                strName strPassword
                (SetUserPasswordAndAttributes
                  (os.usri1_flags (GetDomainOrControllerName os pszDomain).2 strName)
                  iAttributes)))) ∧
        (os.result (.NetUserGetInfo (GetDomainOrControllerName os pszDomain).2 strName)
            ≠ NERR_Success →
          AddUserCreate os strName pszDomain iAttributes strPassword =
            throwIfFailed
              ((GetDomainOrControllerName os pszDomain).1 ++
                [.NetUserAdd (GetDomainOrControllerName os pszDomain).2 strName strPassword
                    (SetUserPasswordAndAttributes UF_SCRIPT iAttributes),
                 .NetUserGetInfo (GetDomainOrControllerName os pszDomain).2 strName])
              (os.result
                (.NetUserGetInfo (GetDomainOrControllerName os pszDomain).2 strName)))) ∧
      (testFlag iAttributes SCAU_UPDATE_IF_EXISTS = false →
        testFlag iAttributes SCAU_FAIL_IF_EXISTS = false →
        AddUserCreate os strName pszDomain iAttributes strPassword =
          ⟨(GetDomainOrControllerName os pszDomain).1 ++
            [.NetUserAdd (GetDomainOrControllerName os pszDomain).2 strName strPassword
              (SetUserPasswordAndAttributes UF_SCRIPT iAttributes)], none⟩) ∧
      (testFlag iAttributes SCAU_UPDATE_IF_EXISTS = false →
        testFlag iAttributes SCAU_FAIL_IF_EXISTS = true →
        AddUserCreate os strName pszDomain iAttributes strPassword =
          ⟨(GetDomainOrControllerName os pszDomain).1 ++
            [.NetUserAdd (GetDomainOrControllerName os pszDomain).2 strName strPassword
              (SetUserPasswordAndAttributes UF_SCRIPT iAttributes)],
           some (.com_error (HRESULT_FROM_WIN32 NERR_UserExists))⟩ ∧
        ∀ (cost : Int) (pszMembership : CString),
          os.result (.LookupAccountName (fqAccountName pszDomain strName)) = 0 →
          (!os.isWellKnownServiceSid (fqAccountName pszDomain strName)
            || !testFlag iAttributes SCAU_IGNORE_SERVICE_ACCOUNTS) = true →
          (AddUser os cost strName pszDomain iAttributes strPassword pszMembership).thrown
            = some (.com_error (HRESULT_FROM_WIN32 NERR_UserExists)))) ∧
    (∀ (cost : Int) (pszName pszDomain pszDescription : CString) (iAttributes : Int),
      testFlag iAttributes SCAG_DONT_CREATE_GROUP = false →
      (os.result (.NetLocalGroupAdd (GetDomainOrControllerName os pszDomain).2 pszName
          pszDescription) = NERR_GroupExists ∨
        os.result (.NetLocalGroupAdd (GetDomainOrControllerName os pszDomain).2 pszName
          pszDescription) = ERROR_ALIAS_EXISTS) →
      (testFlag iAttributes SCAG_UPDATE_IF_EXISTS = true →
        (os.result (.NetLocalGroupGetInfo (GetDomainOrControllerName os pszDomain).2 pszName)
            = NERR_Success →
          AddGroup os cost pszName pszDomain iAttributes pszDescription =
            (throwIfFailed
              ((GetDomainOrControllerName os pszDomain).1 ++
                [.NetLocalGroupAdd (GetDomainOrControllerName os pszDomain).2 pszName
                    pszDescription,
                 .NetLocalGroupGetInfo (GetDomainOrControllerName os pszDomain).2 pszName,
                 .NetLocalGroupSetInfo (GetDomainOrControllerName os pszDomain).2 pszName
                    pszDescription])
              (os.result (.NetLocalGroupSetInfo (GetDomainOrControllerName os pszDomain).2
                pszName pszDescription))).andThen
              ⟨[.ProgressMessage cost false], none⟩) ∧
        (os.result (.NetLocalGroupGetInfo (GetDomainOrControllerName os pszDomain).2 pszName)
            ≠ NERR_Success →
          AddGroup os cost pszName pszDomain iAttributes pszDescription =
            (throwIfFailed
              ((GetDomainOrControllerName os pszDomain).1 ++
                [.NetLocalGroupAdd (GetDomainOrControllerName os pszDomain).2 pszName
                    pszDescription,
                 .NetLocalGroupGetInfo (GetDomainOrControllerName os pszDomain).2 pszName])
              (os.result (.NetLocalGroupGetInfo (GetDomainOrControllerName os pszDomain).2
                pszName))).andThen
              ⟨[.ProgressMessage cost false], none⟩)) ∧
      (testFlag iAttributes SCAG_UPDATE_IF_EXISTS = false →
        testFlag iAttributes SCAG_FAIL_IF_EXISTS = false →
        AddGroup os cost pszName pszDomain iAttributes pszDescription =
          ⟨(GetDomainOrControllerName os pszDomain).1 ++
            [.NetLocalGroupAdd (GetDomainOrControllerName os pszDomain).2 pszName
              pszDescription, .ProgressMessage cost false], none⟩) ∧
      (testFlag iAttributes SCAG_UPDATE_IF_EXISTS = false →
        testFlag iAttributes SCAG_FAIL_IF_EXISTS = true →
        AddGroup os cost pszName pszDomain iAttributes pszDescription =
          ⟨(GetDomainOrControllerName os pszDomain).1 ++
            [.NetLocalGroupAdd (GetDomainOrControllerName os pszDomain).2 pszName
              pszDescription],
           some (.com_error (HRESULT_FROM_WIN32
             (os.result (.NetLocalGroupAdd (GetDomainOrControllerName os pszDomain).2
               pszName pszDescription))))⟩)) := by
  constructor
  · intro n d p a hcreate hexists
    have hfail : FAILED (HRESULT_FROM_WIN32 NERR_UserExists) = true := by decide
    refine ⟨?_, ?_, ?_⟩
    · intro hu
      constructor
      · intro hget
        unfold AddUserCreate
        simp only [hcreate, hexists, hu, hget, Bool.false_eq_true, if_false, if_true]
      · intro hget
        have hget2 : ¬ (NERR_Success = os.result
            (.NetUserGetInfo (GetDomainOrControllerName os d).2 n)) := fun e => hget e.symm
        unfold AddUserCreate
        simp only [hcreate, hexists, hu, hget2, Bool.false_eq_true, if_false, if_true]
    · intro hu hf
      unfold AddUserCreate
      simp only [hcreate, hexists, hu, hf, Bool.false_eq_true, if_false, if_true,
        Bool.not_false, throwIfFailed_success]
    · intro hu hf
      have hcreateEq : AddUserCreate os n d a p =
          ⟨(GetDomainOrControllerName os d).1 ++
            [.NetUserAdd (GetDomainOrControllerName os d).2 n p
              (SetUserPasswordAndAttributes UF_SCRIPT a)],
           some (.com_error (HRESULT_FROM_WIN32 NERR_UserExists))⟩ := by
        unfold AddUserCreate
        simp only [hcreate, hexists, hu, hf, Bool.false_eq_true, if_false, if_true,
          Bool.not_true, throwIfFailed, hfail]
      refine ⟨hcreateEq, ?_⟩
      intro cost m hsid hgate
      rw [AddUser_eq_of_lookup os cost n d a p m hsid hgate, hcreateEq]
      rfl
  · intro cost n d desc a hcreate hexists
    have hfail : FAILED (HRESULT_FROM_WIN32
        (os.result (.NetLocalGroupAdd (GetDomainOrControllerName os d).2 n desc))) = true := by
      rcases hexists with e | e <;> rw [e] <;> decide
    refine ⟨?_, ?_, ?_⟩
    · intro hu
      constructor
      · intro hget
        unfold AddGroup
        simp only [hcreate, hexists, hu, hget, Bool.false_eq_true, if_false, if_true]
      · intro hget
        have hget2 : ¬ (NERR_Success = os.result
            (.NetLocalGroupGetInfo (GetDomainOrControllerName os d).2 n)) :=
          fun e => hget e.symm
        unfold AddGroup
        simp only [hcreate, hexists, hu, hget2, Bool.false_eq_true, if_false, if_true]
    · intro hu hf
      unfold AddGroup
      simp only [hcreate, hexists, hu, hf, Bool.false_eq_true, if_false, if_true,
        Bool.not_false, throwIfFailed_success, Outcome_mk_none_andThen, List.append_assoc,
        List.singleton_append, List.cons_append, List.nil_append]
    · intro hu hf
      unfold AddGroup
      simp only [hcreate, hexists, hu, hf, Bool.false_eq_true, if_false, if_true,
        Bool.not_true, throwIfFailed, hfail]
      rfl

/-- Witness for C18: against an operating system in which the principals exist, AddUser
with only the fail-if-exists bit raises the error of the create call, and AddGroup with
neither bit goes on to its progress message. -/
theorem C18_create_reports_existing_witness :
    AddUserCreate existingOS "Alice".toList "CORP".toList 16 "S3cr3t!".toList =
      ⟨(GetDomainOrControllerName existingOS "CORP".toList).1 ++
        [.NetUserAdd (GetDomainOrControllerName existingOS "CORP".toList).2 "Alice".toList
          "S3cr3t!".toList (SetUserPasswordAndAttributes UF_SCRIPT 16)],
       some (.com_error (HRESULT_FROM_WIN32 NERR_UserExists))⟩ ∧
    AddGroup existingOS 1 "Admins".toList [] 0 "Administrators".toList =
      ⟨(GetDomainOrControllerName existingOS []).1 ++
        [.NetLocalGroupAdd (GetDomainOrControllerName existingOS []).2 "Admins".toList
          "Administrators".toList, .ProgressMessage 1 false], none⟩ :=
  ⟨(((C18_create_reports_existing existingOS).1 "Alice".toList "CORP".toList
      "S3cr3t!".toList 16 (by decide) (by decide)).2.2 (by decide) (by decide)).1,
   ((C18_create_reports_existing existingOS).2 1 "Admins".toList []
      "Administrators".toList 0 (by decide) (Or.inl (by decide))).2.1
      (by decide) (by decide)⟩

/-! ### AddUrlReservation: query, delete, create -/

theorem queryUrlReservation_calls (os : OS) (strUrl : CString) (c : OsCall)
    (hc : c ∈ (queryUrlReservation os strUrl).1) :
    ∃ b, c = .HttpQueryServiceConfiguration strUrl b := by
  unfold queryUrlReservation at hc
  by_cases hb : os.result (.HttpQueryServiceConfiguration strUrl false)
      = ERROR_INSUFFICIENT_BUFFER
  · simp only [hb, if_true, List.mem_cons, List.mem_singleton, List.not_mem_nil,
      or_false] at hc
    rcases hc with e | e
    · exact ⟨false, e⟩
    · exact ⟨true, e⟩
  · simp only [hb, if_false, List.mem_singleton] at hc
    exact ⟨false, hc⟩

theorem set_not_mem_query (os : OS) (strUrl : CString) (dacl : List (CString × Nat)) :
    OsCall.HttpSetServiceConfiguration strUrl dacl ∉ (queryUrlReservation os strUrl).1 := by
  intro h
  obtain ⟨b, hb⟩ := queryUrlReservation_calls os strUrl _ h
  exact absurd hb (by simp)

/-- C19, as stated, fails: with the reservation present and both the FailIfExists and the
UpdateIfExists bit set (attributes 3), AddUrlReservation deletes the reservation,
creates it again and raises no error. -/
theorem C19_counterexample :
    testFlag 3 SCAUR_FAIL_IF_EXISTS = true ∧
    (queryUrlReservation existingOS "http://+:80/app/".toList).2 = NO_ERROR ∧
    AddUrlReservation existingOS 1 "http://+:80/app/".toList 3 "jdoe|CORP|1".toList =
      ⟨[.LookupAccountName "CORP\\jdoe".toList, .HttpInitialize,
        .HttpQueryServiceConfiguration "http://+:80/app/".toList false,
        .HttpQueryServiceConfiguration "http://+:80/app/".toList true,
        .HttpDeleteServiceConfiguration "http://+:80/app/".toList,
        .HttpSetServiceConfiguration "http://+:80/app/".toList
          [("CORP\\jdoe".toList, GENERIC_EXECUTE ||| GENERIC_WRITE)],
        .HttpTerminate, .ProgressMessage 1 false], none⟩ := by
  decide

/-- C19 (amended): once the access control list is built and HttpInitialize has
succeeded, AddUrlReservation issues the create call exactly when the exact-match query
finds no reservation, or the UpdateIfExists bit is set and the delete call for the
existing reservation succeeds (the create call then directly follows the delete call);
it raises E_FAIL, after HttpTerminate, whenever a reservation is present, the FailIfExists
bit is set and the UpdateIfExists bit is clear.  A failed delete or create call is
followed by a LogError call whose `%s` is given the integer result code: the run ends
there as undefined and HttpTerminate is not reached. -/
theorem C19_add_url_reservation_amended (os : OS) (strUrl : CString) (iAttributes : Int)
    (dacl : List (CString × Nat)) :
    (OsCall.HttpSetServiceConfiguration strUrl dacl
        ∈ (AddUrlReservationConfigure os strUrl iAttributes dacl).calls ↔
      ((queryUrlReservation os strUrl).2 ≠ NO_ERROR ∨
        (testFlag iAttributes SCAUR_UPDATE_IF_EXISTS = true ∧
          os.result (.HttpDeleteServiceConfiguration strUrl) = NO_ERROR))) ∧
    ((queryUrlReservation os strUrl).2 = NO_ERROR →
      OsCall.HttpSetServiceConfiguration strUrl dacl
        ∈ (AddUrlReservationConfigure os strUrl iAttributes dacl).calls →
      (AddUrlReservationConfigure os strUrl iAttributes dacl).calls =
        (queryUrlReservation os strUrl).1 ++
          [.HttpDeleteServiceConfiguration strUrl,
           .HttpSetServiceConfiguration strUrl dacl]) ∧
    ((queryUrlReservation os strUrl).2 = NO_ERROR →
      testFlag iAttributes SCAUR_FAIL_IF_EXISTS = true →
      testFlag iAttributes SCAUR_UPDATE_IF_EXISTS = false →
      AddUrlReservationConfigure os strUrl iAttributes dacl =
        ⟨(queryUrlReservation os strUrl).1, some (.com_error E_FAIL)⟩) ∧
    (∀ (cost : Int) (pszAcl : CString),
      (AddUrlReservationAcl os pszAcl.length pszAcl []).2 = .ok dacl →
      os.result .HttpInitialize = NO_ERROR →
      (AddUrlReservation os cost strUrl iAttributes pszAcl).thrown
          = (AddUrlReservationConfigure os strUrl iAttributes dacl).thrown ∧
      (AddUrlReservation os cost strUrl iAttributes pszAcl).calls
          = (AddUrlReservationAcl os pszAcl.length pszAcl []).1 ++ [.HttpInitialize] ++
            (AddUrlReservationConfigure os strUrl iAttributes dacl).calls ++
            (match (AddUrlReservationConfigure os strUrl iAttributes dacl).thrown with
              | none => [.HttpTerminate, .ProgressMessage cost false]
              | some (.com_error _) => [.HttpTerminate]
              | some _ => [])) ∧
    ((queryUrlReservation os strUrl).2 = NO_ERROR →
      testFlag iAttributes SCAUR_UPDATE_IF_EXISTS = true →
      os.result (.HttpDeleteServiceConfiguration strUrl) ≠ NO_ERROR →
      AddUrlReservationConfigure os strUrl iAttributes dacl =
        ⟨(queryUrlReservation os strUrl).1 ++ [.HttpDeleteServiceConfiguration strUrl],
          some .undefined⟩) ∧
    (OsCall.HttpSetServiceConfiguration strUrl dacl
        ∈ (AddUrlReservationConfigure os strUrl iAttributes dacl).calls →
      os.result (.HttpSetServiceConfiguration strUrl dacl) ≠ NO_ERROR →
      (AddUrlReservationConfigure os strUrl iAttributes dacl).thrown = some .undefined) := by
  have hq := set_not_mem_query os strUrl dacl
  refine ⟨?_, ?_, ?_, ?_, ?_, ?_⟩
  · unfold AddUrlReservationConfigure
    by_cases hex : (queryUrlReservation os strUrl).2 = NO_ERROR
    · by_cases hu : testFlag iAttributes SCAUR_UPDATE_IF_EXISTS = true
      · by_cases hd : os.result (.HttpDeleteServiceConfiguration strUrl) = NO_ERROR
        · simp only [hex, hu, hd, if_true, ne_eq, not_true_eq_false, if_false]
          split_ifs <;> simp
        · simp [hex, hu, hd, hq]
      · by_cases hf : testFlag iAttributes SCAUR_FAIL_IF_EXISTS = true
        · simp [hex, hu, hf, hq]
        · simp [hex, hu, hf, hq]
    · simp only [hex, if_false, ne_eq, not_false_eq_true, true_or, iff_true]
      split_ifs <;> simp
  · intro hex hmem
    unfold AddUrlReservationConfigure at hmem ⊢
    by_cases hu : testFlag iAttributes SCAUR_UPDATE_IF_EXISTS = true
    · by_cases hd : os.result (.HttpDeleteServiceConfiguration strUrl) = NO_ERROR
      · simp only [hex, hu, hd, if_true, ne_eq, not_true_eq_false, if_false]
        split_ifs <;> simp
      · simp [hex, hu, hd, hq] at hmem
    · by_cases hf : testFlag iAttributes SCAUR_FAIL_IF_EXISTS = true
      · simp [hex, hu, hf, hq] at hmem
      · simp [hex, hu, hf, hq] at hmem
  · intro hex hf hu
    unfold AddUrlReservationConfigure
    simp [hex, hf, hu]
  · intro cost pszAcl hacl hinit
    unfold AddUrlReservation
    simp only [hacl, hinit, ne_eq, not_true_eq_false, if_false]
    cases hthrown : (AddUrlReservationConfigure os strUrl iAttributes dacl).thrown with
    | none => simp
    | some e => cases e <;> simp
  · intro hex hu hd
    unfold AddUrlReservationConfigure
    simp [hex, hu, hd]
  · intro hmem hset
    unfold AddUrlReservationConfigure at hmem ⊢
    by_cases hex : (queryUrlReservation os strUrl).2 = NO_ERROR
    · by_cases hu : testFlag iAttributes SCAUR_UPDATE_IF_EXISTS = true
      · by_cases hd : os.result (.HttpDeleteServiceConfiguration strUrl) = NO_ERROR
        · simp [hex, hu, hd, hset]
        · simp [hex, hu, hd, hq] at hmem
      · by_cases hf : testFlag iAttributes SCAUR_FAIL_IF_EXISTS = true
        · simp [hex, hu, hf, hq] at hmem
        · simp [hex, hu, hf, hq] at hmem
    · simp [hex, hset]

/-- Witness for C19 (amended): with the reservation present and only the FailIfExists bit
set, the configuration step raises E_FAIL after the query; with the UpdateIfExists bit
set and a delete call that fails, the run ends as undefined after the delete call, and
AddUrlReservation does not reach HttpTerminate. -/
theorem C19_add_url_reservation_amended_witness :
    AddUrlReservationConfigure existingOS "http://+:80/app/".toList 1
        [("CORP\\jdoe".toList, GENERIC_EXECUTE ||| GENERIC_WRITE)] =
      ⟨(queryUrlReservation existingOS "http://+:80/app/".toList).1,
        some (.com_error E_FAIL)⟩ ∧
    AddUrlReservationConfigure deleteFailsOS "http://+:80/app/".toList 2
        [("CORP\\jdoe".toList, GENERIC_EXECUTE ||| GENERIC_WRITE)] =
      ⟨(queryUrlReservation deleteFailsOS "http://+:80/app/".toList).1 ++
          [.HttpDeleteServiceConfiguration "http://+:80/app/".toList],
        some .undefined⟩ ∧
    AddUrlReservation deleteFailsOS 1 "http://+:80/app/".toList 2 "jdoe|CORP|1".toList =
      ⟨[.LookupAccountName "CORP\\jdoe".toList, .HttpInitialize,
        .HttpQueryServiceConfiguration "http://+:80/app/".toList false,
        .HttpQueryServiceConfiguration "http://+:80/app/".toList true,
        .HttpDeleteServiceConfiguration "http://+:80/app/".toList], some .undefined⟩ :=
  ⟨(C19_add_url_reservation_amended existingOS "http://+:80/app/".toList 1
      [("CORP\\jdoe".toList, GENERIC_EXECUTE ||| GENERIC_WRITE)]).2.2.1
      (by decide) (by decide) (by decide),
   (C19_add_url_reservation_amended deleteFailsOS "http://+:80/app/".toList 2
      [("CORP\\jdoe".toList, GENERIC_EXECUTE ||| GENERIC_WRITE)]).2.2.2.2.1
      (by decide) (by decide) (by decide),
   by decide⟩

/-! ### Remove operations against an absent principal -/

theorem andThen_thrown_none (a b : Outcome) (ha : a.thrown = none) (hb : b.thrown = none) :
    (a.andThen b).thrown = none := by
  unfold Outcome.andThen
  rw [ha]
  exact hb

theorem RemoveGroup_not_found (os : OS) (cost : Int) (pszName pszDomain : CString)
    (iAttributes : Int)
    (hdel : os.result (.NetLocalGroupDel (GetDomainOrControllerName os pszDomain).2 pszName)
      = NERR_GroupNotFound) :
    (RemoveGroup os cost pszName pszDomain iAttributes).thrown = none := by
  unfold RemoveGroup
  apply andThen_thrown_none _ _ _ rfl
  by_cases hf : testFlag iAttributes SCAG_DONT_CREATE_GROUP = true
  · simp [hf]
  · simp [hf, hdel, throwIfFailed_success]

theorem RemoveUrlReservation_not_found (os : OS) (cost : Int) (pszUrl : CString)
    (hinit : os.result .HttpInitialize = NO_ERROR)
    (hq : (queryUrlReservation os pszUrl).2 ≠ NO_ERROR) :
    (RemoveUrlReservation os cost pszUrl).thrown = none := by
  unfold RemoveUrlReservation
  simp [hinit, hq]

theorem RemoveUserFromGroup_thrown (os : OS)
    (strUser strUserDomain strGroup strGroupDomain : CString) :
    (RemoveUserFromGroup os strUser strUserDomain strGroup strGroupDomain).thrown = none := by
  unfold RemoveUserFromGroup
  simp only
  split_ifs <;> rfl

theorem RemoveUserMembership_thrown (os : OS) (strName strDomain : CString) (fuel : Nat)
    (strMembership : CString) :
    (RemoveUserMembership os strName strDomain fuel strMembership).thrown = none := by
  induction fuel generalizing strMembership with
  | zero => rfl
  | succ fuel ih =>
    unfold RemoveUserMembership
    by_cases he : strMembership.isEmpty = true
    · simp [he]
    · by_cases hg : (ExtractNextBarDelimitedBlock strMembership).1.length > 0
      · simp only [he, Bool.false_eq_true, if_false, hg, if_true]
        exact andThen_thrown_none _ _ (RemoveUserFromGroup_thrown _ _ _ _ _) (ih _)
      · simp only [he, Bool.false_eq_true, if_false, hg]
        exact ih _

theorem ModifyUserLocalServiceRight_remove_thrown (os : OS) (strDomain strName : CString) :
    (ModifyUserLocalServiceRight os strDomain strName false).thrown = none := by
  unfold ModifyUserLocalServiceRight
  simp

theorem RemoveUser_not_found_of_lookup (os : OS) (cost : Int) (pszName pszDomain : CString)
    (iAttributes : Int) (pszMembership : CString)
    (hsid : os.result (.LookupAccountName (fqAccountName pszDomain pszName)) = 0)
    (hdel : os.result (.NetUserDel (GetDomainOrControllerName os pszDomain).2 pszName)
      = NERR_UserNotFound) :
    (RemoveUser os cost pszName pszDomain iAttributes pszMembership).thrown = none := by
  unfold RemoveUser
  simp only [hsid, ne_eq, not_true_eq_false, if_false]
  apply andThen_thrown_none _ _ rfl
  apply andThen_thrown_none _ _ _ rfl
  by_cases hgate : (!os.isWellKnownServiceSid (fqAccountName pszDomain pszName)
      || !testFlag iAttributes SCAU_IGNORE_SERVICE_ACCOUNTS) = true
  · simp only [hgate, if_true]
    apply andThen_thrown_none
    · by_cases hl : testFlag iAttributes SCAU_ALLOW_LOGON_AS_SERVICE = true
      · simp only [hl, if_true]
        exact ModifyUserLocalServiceRight_remove_thrown _ _ _
      · simp [hl]
    · by_cases hc : testFlag iAttributes SCAU_DONT_CREATE_USER = true
      · simp only [hc, Bool.not_true, Bool.false_eq_true, if_false]
        exact RemoveUserMembership_thrown _ _ _ _ _
      · simp [hc, hdel, throwIfFailed_success]
  · simp [hgate]

theorem RemoveUser_throws_of_lookup_failure (os : OS) (cost : Int)
    (pszName pszDomain : CString) (iAttributes : Int) (pszMembership : CString)
    (hsid : os.result (.LookupAccountName (fqAccountName pszDomain pszName)) ≠ 0) :
    RemoveUser os cost pszName pszDomain iAttributes pszMembership =
      ⟨[.LookupAccountName (fqAccountName pszDomain pszName)],
        some (.CAtlException (HRESULT_FROM_WIN32
          (os.result (.LookupAccountName (fqAccountName pszDomain pszName)))))⟩ := by
  unfold RemoveUser
  simp [hsid]

/-- C20 fails on the code for users: against an operating system in which the principals
are absent (account lookups fail, deleting reports not found), RemoveUser throws from the
account lookup of its `CSid` constructor before it reaches NetUserDel, while RemoveGroup
and RemoveUrlReservation complete and report progress. -/
theorem C20_remove_absent_user_throws :
    absentOS.result (.NetUserDel [] "Alice".toList) = NERR_UserNotFound ∧
    RemoveUser absentOS 1 "Alice".toList [] 0 [] =
      ⟨[.LookupAccountName "Alice".toList],
        some (.CAtlException (HRESULT_FROM_WIN32 ERROR_NONE_MAPPED))⟩ ∧
    RemoveGroup absentOS 1 "Admins".toList [] 0 =
      ⟨[.NetLocalGroupDel [] "Admins".toList, .ProgressMessage 1 false], none⟩ ∧
    RemoveUrlReservation absentOS 1 "http://+:80/app/".toList =
      ⟨[.HttpInitialize, .HttpQueryServiceConfiguration "http://+:80/app/".toList false,
        .HttpTerminate, .ProgressMessage 1 false], none⟩ := by
  decide

/-! ### Removal from groups, membership strings and attribute bits -/

theorem RemoveUserFromGroup_eq_catch (os : OS)
    (strUser strUserDomain strGroup strGroupDomain : CString) :
    RemoveUserFromGroup os strUser strUserDomain strGroup strGroupDomain =
      ⟨(RemoveUserFromGroupTry os strUser strUserDomain strGroup strGroupDomain).calls,
        none⟩ := by
  unfold RemoveUserFromGroup RemoveUserFromGroupTry
  simp only []
  split_ifs <;> rfl

/-- C25: RemoveUserFromGroup never raises an error to its caller, whatever results the
global-group, local-group and directory-service calls return: its outcome is the calls
of its try block with nothing thrown, also when the try block itself throws. -/
theorem C25_remove_user_from_group_never_throws (os : OS)
    (strUser strUserDomain strGroup strGroupDomain : CString) :
    (RemoveUserFromGroup os strUser strUserDomain strGroup strGroupDomain).thrown = none ∧
    RemoveUserFromGroup os strUser strUserDomain strGroup strGroupDomain =
      ⟨(RemoveUserFromGroupTry os strUser strUserDomain strGroup strGroupDomain).calls,
        none⟩ :=
  ⟨RemoveUserFromGroup_thrown os strUser strUserDomain strGroup strGroupDomain,
   RemoveUserFromGroup_eq_catch os strUser strUserDomain strGroup strGroupDomain⟩

theorem testFlag_of_sameOutsideMask (a b : Int) (mask m : Nat)
    (hm : (4294967295 - mask) &&& m = m) (h : sameOutsideMask a b mask) :
    testFlag a m = testFlag b m := by
  have key : (a % 4294967296).toNat &&& m = (b % 4294967296).toNat &&& m := by
    calc (a % 4294967296).toNat &&& m
        = (a % 4294967296).toNat &&& ((4294967295 - mask) &&& m) := by rw [hm]
      _ = ((a % 4294967296).toNat &&& (4294967295 - mask)) &&& m := by
          rw [Nat.and_assoc]
      _ = ((b % 4294967296).toNat &&& (4294967295 - mask)) &&& m := by
          rw [show (a % 4294967296).toNat &&& (4294967295 - mask) =
            (b % 4294967296).toNat &&& (4294967295 - mask) from h]
      _ = (b % 4294967296).toNat &&& ((4294967295 - mask) &&& m) := by
          rw [Nat.and_assoc]
      _ = (b % 4294967296).toNat &&& m := by rw [hm]
  unfold testFlag
  rw [key]

/-- C28: for every two attribute values that differ only in the don't-remove-on-uninstall
bit (0x100), RemoveUser and RemoveGroup issue the same sequence of OS calls and return the
same outcome, whatever the operating system answers. -/
theorem C28_dont_remove_bit_has_no_influence (os : OS) (cost : Int)
    (pszName pszDomain pszMembership : CString) (a b : Int)
    (hu : sameOutsideMask a b SCAU_DONT_REMOVE_ON_UNINSTALL)
    (hg : sameOutsideMask a b SCAG_DONT_REMOVE_ON_UNINSTALL) :
    RemoveUser os cost pszName pszDomain a pszMembership =
      RemoveUser os cost pszName pszDomain b pszMembership ∧
    RemoveGroup os cost pszName pszDomain a = RemoveGroup os cost pszName pszDomain b := by
  have h1 : testFlag a SCAU_IGNORE_SERVICE_ACCOUNTS = testFlag b SCAU_IGNORE_SERVICE_ACCOUNTS :=
    testFlag_of_sameOutsideMask a b _ _ (by decide) hu
  have h2 : testFlag a SCAU_ALLOW_LOGON_AS_SERVICE = testFlag b SCAU_ALLOW_LOGON_AS_SERVICE :=
    testFlag_of_sameOutsideMask a b _ _ (by decide) hu
  have h3 : testFlag a SCAU_DONT_CREATE_USER = testFlag b SCAU_DONT_CREATE_USER :=
    testFlag_of_sameOutsideMask a b _ _ (by decide) hu
  have h4 : testFlag a SCAG_DONT_CREATE_GROUP = testFlag b SCAG_DONT_CREATE_GROUP :=
    testFlag_of_sameOutsideMask a b _ _ (by decide) hg
  constructor
  · unfold RemoveUser
    rw [h1, h2, h3]
  · unfold RemoveGroup
    rw [h4]

/-- Witness for C28: attribute values 0x40 and 0x140 (logon-as-service, without and with
the don't-remove bit) on an operating system where every call succeeds. -/
theorem C28_dont_remove_bit_has_no_influence_witness :
    RemoveUser successOS 1 "svc".toList "CORP".toList 64 [] =
      RemoveUser successOS 1 "svc".toList "CORP".toList 320 [] ∧
    RemoveGroup successOS 1 "svc".toList "CORP".toList 64 =
      RemoveGroup successOS 1 "svc".toList "CORP".toList 320 :=
  C28_dont_remove_bit_has_no_influence successOS 1 "svc".toList "CORP".toList [] 64 320
    (by decide) (by decide)

/-- C29: the access mask AddUrlReservation computes for an ACL entry is
GENERIC_EXECUTE | GENERIC_WRITE when the entry's can-register bit (0x1) is set and 0
otherwise, and two attribute values that differ only in the can-delegate bit (0x2) get
the same mask. -/
theorem C29_acl_access_mask (a b : Int) (h : sameOutsideMask a b SCAURA_CAN_DELEGATE) :
    aclAccessMask a =
      (if testFlag a SCAURA_CAN_REGISTER then GENERIC_EXECUTE ||| GENERIC_WRITE else 0) ∧
    aclAccessMask b = aclAccessMask a := by
  have h1 : testFlag a SCAURA_CAN_REGISTER = testFlag b SCAURA_CAN_REGISTER :=
    testFlag_of_sameOutsideMask a b _ _ (by decide) h
  constructor
  · unfold aclAccessMask
    by_cases hr : testFlag a SCAURA_CAN_REGISTER = true
    · simp [hr]
    · simp [hr]
  · unfold aclAccessMask
    rw [h1]

/-- Witness for C29: attributes 1 (can-register) and 3 (can-register and can-delegate) get
the same mask 0x60000000, and in the ACL loop an entry with attributes 2 (can-delegate
alone) gets the mask 0. -/
theorem C29_acl_access_mask_witness :
    (aclAccessMask 1 = 1610612736 ∧ aclAccessMask 3 = aclAccessMask 1) ∧
    AddUrlReservationAcl successOS 21 "jdoe|CORP|1|svc||3|x||2".toList [] =
      ([.LookupAccountName "CORP\\jdoe".toList, .LookupAccountName "svc".toList,
        .LookupAccountName "x".toList],
       .ok [("CORP\\jdoe".toList, 1610612736), ("svc".toList, 1610612736),
         ("x".toList, 0)]) :=
  ⟨C29_acl_access_mask 1 3 (by decide), rfl⟩

/-! ### Every pass of a decode loop shortens the data -/

theorem extractWith_snd_length_le (ch : Char) (s : CString) :
    (extractWith ch s).2.length ≤ s.length := by
  rw [extractWith_eq]
  by_cases h : ch ∈ s
  · rw [if_pos h]
    have hs := congrArg List.length (split_at_first ch s h)
    simp only [List.length_append, List.length_cons] at hs
    show ((s.dropWhile (fun c => c != ch)).drop 1).length ≤ s.length
    omega
  · rw [if_neg h]
    simp

theorem extractWith_snd_length_lt (ch : Char) (s : CString) (hne : s ≠ []) :
    (extractWith ch s).2.length < s.length := by
  rw [extractWith_eq]
  by_cases h : ch ∈ s
  · rw [if_pos h]
    have hs := congrArg List.length (split_at_first ch s h)
    simp only [List.length_append, List.length_cons] at hs
    show ((s.dropWhile (fun c => c != ch)).drop 1).length < s.length
    omega
  · rw [if_neg h]
    exact List.length_pos.mpr hne

theorem extractBlocks_snd_length_le (ch : Char) (k : Nat) (s : CString) :
    (extractBlocks (extractWith ch) k s).2.length ≤ s.length := by
  induction k generalizing s with
  | zero => exact le_refl _
  | succ k ih =>
    rw [extractBlocks_succ]
    exact le_trans (ih _) (extractWith_snd_length_le ch s)

theorem extractBlocks_snd_length_lt (ch : Char) (k : Nat) (s : CString) (hne : s ≠ []) :
    (extractBlocks (extractWith ch) (k + 1) s).2.length < s.length := by
  rw [extractBlocks_succ]
  exact lt_of_le_of_lt (extractBlocks_snd_length_le ch k _)
    (extractWith_snd_length_lt ch s hne)

theorem ExecuteUserLoop_succ (fuel : Nat) (strData : CString) :
    ExecuteUserLoop (fuel + 1) strData =
      ExecuteUserLoop 1 strData ++
        ExecuteUserLoop fuel (extractBlocks (extractWith '\t') 5 strData).2 := by
  cases strData with
  | nil => cases fuel <;> rfl
  | cons c cs => rfl

theorem ExecuteGroupLoop_succ (fuel : Nat) (strData : CString) :
    ExecuteGroupLoop (fuel + 1) strData =
      ExecuteGroupLoop 1 strData ++
        ExecuteGroupLoop fuel (extractBlocks (extractWith '\t') 4 strData).2 := by
  cases strData with
  | nil => cases fuel <;> rfl
  | cons c cs => rfl

theorem ExecuteUrlReservationLoop_succ (fuel : Nat) (strData : CString) :
    ExecuteUrlReservationLoop (fuel + 1) strData =
      ExecuteUrlReservationLoop 1 strData ++
        ExecuteUrlReservationLoop fuel (extractBlocks (extractWith '\t') 4 strData).2 := by
  cases strData with
  | nil => cases fuel <;> rfl
  | cons c cs => rfl

theorem ExecuteUserLoop_fuel_succ (fuel : Nat) (strData : CString)
    (h : strData.length ≤ fuel) :
    ExecuteUserLoop (fuel + 1) strData = ExecuteUserLoop fuel strData := by
  induction fuel generalizing strData with
  | zero =>
    obtain rfl : strData = [] := List.length_eq_zero.mp (by omega)
    rfl
  | succ k ih =>
    by_cases hs : strData = []
    · subst hs; rfl
    · have hlt : (extractBlocks (extractWith '\t') 5 strData).2.length < strData.length :=
        extractBlocks_snd_length_lt '\t' 4 strData hs
      rw [ExecuteUserLoop_succ (k + 1) strData, ExecuteUserLoop_succ k strData, ih _ (by omega)]

theorem ExecuteGroupLoop_fuel_succ (fuel : Nat) (strData : CString)
    (h : strData.length ≤ fuel) :
    ExecuteGroupLoop (fuel + 1) strData = ExecuteGroupLoop fuel strData := by
  induction fuel generalizing strData with
  | zero =>
    obtain rfl : strData = [] := List.length_eq_zero.mp (by omega)
    rfl
  | succ k ih =>
    by_cases hs : strData = []
    · subst hs; rfl
    · have hlt : (extractBlocks (extractWith '\t') 4 strData).2.length < strData.length :=
        extractBlocks_snd_length_lt '\t' 3 strData hs
      rw [ExecuteGroupLoop_succ (k + 1) strData, ExecuteGroupLoop_succ k strData, ih _ (by omega)]

theorem ExecuteUrlReservationLoop_fuel_succ (fuel : Nat) (strData : CString)
    (h : strData.length ≤ fuel) :
    ExecuteUrlReservationLoop (fuel + 1) strData =
      ExecuteUrlReservationLoop fuel strData := by
  induction fuel generalizing strData with
  | zero =>
    obtain rfl : strData = [] := List.length_eq_zero.mp (by omega)
    rfl
  | succ k ih =>
    by_cases hs : strData = []
    · subst hs; rfl
    · have hlt : (extractBlocks (extractWith '\t') 4 strData).2.length < strData.length :=
        extractBlocks_snd_length_lt '\t' 3 strData hs
      rw [ExecuteUrlReservationLoop_succ (k + 1) strData,
        ExecuteUrlReservationLoop_succ k strData, ih _ (by omega)]

theorem fuel_stable {α : Type} (loop : Nat → CString → α)
    (hstep : ∀ fuel s, s.length ≤ fuel → loop (fuel + 1) s = loop fuel s)
    (fuel : Nat) (s : CString) (h : s.length ≤ fuel) :
    loop fuel s = loop s.length s := by
  obtain ⟨k, rfl⟩ := Nat.exists_eq_add_of_le h
  induction k with
  | zero => rfl
  | succ k ih =>
    rw [← Nat.add_assoc, hstep _ _ (by omega)]
    exact ih (by omega)
theorem RemoveUserMembership_nil (os : OS) (strName strDomain : CString) (fuel : Nat) :
    RemoveUserMembership os strName strDomain fuel [] = ⟨[], none⟩ := by
  cases fuel <;> simp [RemoveUserMembership]

theorem RemoveUserMembership_step (os : OS) (strName strDomain : CString) (fuel : Nat)
    (strMembership : CString) (hne : strMembership ≠ []) :
    RemoveUserMembership os strName strDomain (fuel + 1) strMembership =
      if (ExtractNextBarDelimitedBlock strMembership).1.length > 0 then
        (RemoveUserFromGroup os strName strDomain
          (ExtractNextBarDelimitedBlock strMembership).1
          (ExtractNextBarDelimitedBlock
            (ExtractNextBarDelimitedBlock strMembership).2).1).andThen
          (RemoveUserMembership os strName strDomain fuel
            (ExtractNextBarDelimitedBlock
              (ExtractNextBarDelimitedBlock strMembership).2).2)
      else
        RemoveUserMembership os strName strDomain fuel
          (ExtractNextBarDelimitedBlock
            (ExtractNextBarDelimitedBlock strMembership).2).2 := by
  have : strMembership.isEmpty = false := by
    cases strMembership with
    | nil => exact absurd rfl hne
    | cons _ _ => rfl
  rw [RemoveUserMembership, this]
  simp

theorem membershipPairs_nil (fuel : Nat) : membershipPairs fuel [] = [] := by
  cases fuel <;> rfl

theorem membershipPairs_step (fuel : Nat) (strMembership : CString)
    (hne : strMembership ≠ []) :
    membershipPairs (fuel + 1) strMembership =
      ((ExtractNextBarDelimitedBlock strMembership).1,
        (ExtractNextBarDelimitedBlock (ExtractNextBarDelimitedBlock strMembership).2).1) ::
        membershipPairs fuel
          (ExtractNextBarDelimitedBlock
            (ExtractNextBarDelimitedBlock strMembership).2).2 := by
  cases strMembership with
  | nil => exact absurd rfl hne
  | cons _ _ => rfl

theorem bar_pair_rest_length_lt (s : CString) (hne : s ≠ []) :
    (ExtractNextBarDelimitedBlock (ExtractNextBarDelimitedBlock s).2).2.length
      < s.length :=
  extractBlocks_snd_length_lt '|' 1 s hne

theorem bar_triple_rest_length_lt (s : CString) (hne : s ≠ []) :
    (ExtractNextBarDelimitedBlock (ExtractNextBarDelimitedBlock
      (ExtractNextBarDelimitedBlock s).2).2).2.length < s.length :=
  extractBlocks_snd_length_lt '|' 2 s hne

theorem AddUserMembership_fuel_succ (os : OS) (strName strDomain : CString) (fuel : Nat)
    (s : CString) (h : s.length ≤ fuel) :
    AddUserMembership os strName strDomain (fuel + 1) s =
      AddUserMembership os strName strDomain fuel s := by
  induction fuel generalizing s with
  | zero =>
    obtain rfl : s = [] := List.length_eq_zero.mp (by omega)
    rfl
  | succ k ih =>
    by_cases hs : s = []
    · subst hs; rfl
    · have hlt := bar_pair_rest_length_lt s hs
      rw [AddUserMembership_step os strName strDomain (k + 1) s hs,
        AddUserMembership_step os strName strDomain k s hs, ih _ (by omega)]

theorem RemoveUserMembership_fuel_succ (os : OS) (strName strDomain : CString) (fuel : Nat)
    (s : CString) (h : s.length ≤ fuel) :
    RemoveUserMembership os strName strDomain (fuel + 1) s =
      RemoveUserMembership os strName strDomain fuel s := by
  induction fuel generalizing s with
  | zero =>
    obtain rfl : s = [] := List.length_eq_zero.mp (by omega)
    rfl
  | succ k ih =>
    by_cases hs : s = []
    · subst hs; rfl
    · have hlt := bar_pair_rest_length_lt s hs
      rw [RemoveUserMembership_step os strName strDomain (k + 1) s hs,
        RemoveUserMembership_step os strName strDomain k s hs, ih _ (by omega)]

theorem membershipPairs_fuel_succ (fuel : Nat) (s : CString) (h : s.length ≤ fuel) :
    membershipPairs (fuel + 1) s = membershipPairs fuel s := by
  induction fuel generalizing s with
  | zero =>
    obtain rfl : s = [] := List.length_eq_zero.mp (by omega)
    rfl
  | succ k ih =>
    by_cases hs : s = []
    · subst hs; rfl
    · have hlt := bar_pair_rest_length_lt s hs
      rw [membershipPairs_step (k + 1) s hs, membershipPairs_step k s hs, ih _ (by omega)]

theorem AddUrlReservationAcl_step (os : OS) (fuel : Nat) (strAcl : CString)
    (dacl : List (CString × Nat)) (hne : strAcl ≠ []) :
    AddUrlReservationAcl os (fuel + 1) strAcl dacl =
      if os.result (.LookupAccountName (fqAccountName
          (ExtractNextBarDelimitedBlock (ExtractNextBarDelimitedBlock strAcl).2).1
          (ExtractNextBarDelimitedBlock strAcl).1)) ≠ 0 then
        ([.LookupAccountName (fqAccountName
            (ExtractNextBarDelimitedBlock (ExtractNextBarDelimitedBlock strAcl).2).1
            (ExtractNextBarDelimitedBlock strAcl).1)],
          .error (.CAtlException (HRESULT_FROM_WIN32 (os.result (.LookupAccountName
            (fqAccountName
              (ExtractNextBarDelimitedBlock (ExtractNextBarDelimitedBlock strAcl).2).1
              (ExtractNextBarDelimitedBlock strAcl).1))))))
      else
        (.LookupAccountName (fqAccountName
            (ExtractNextBarDelimitedBlock (ExtractNextBarDelimitedBlock strAcl).2).1
            (ExtractNextBarDelimitedBlock strAcl).1) ::
          (AddUrlReservationAcl os fuel
            (ExtractNextBarDelimitedBlock (ExtractNextBarDelimitedBlock
              (ExtractNextBarDelimitedBlock strAcl).2).2).2
            (dacl ++ [(fqAccountName
              (ExtractNextBarDelimitedBlock (ExtractNextBarDelimitedBlock strAcl).2).1
              (ExtractNextBarDelimitedBlock strAcl).1,
              aclAccessMask (_ttoi (ExtractNextBarDelimitedBlock
                (ExtractNextBarDelimitedBlock
                  (ExtractNextBarDelimitedBlock strAcl).2).2).1))])).1,
         (AddUrlReservationAcl os fuel
            (ExtractNextBarDelimitedBlock (ExtractNextBarDelimitedBlock
              (ExtractNextBarDelimitedBlock strAcl).2).2).2
            (dacl ++ [(fqAccountName
              (ExtractNextBarDelimitedBlock (ExtractNextBarDelimitedBlock strAcl).2).1
              (ExtractNextBarDelimitedBlock strAcl).1,
              aclAccessMask (_ttoi (ExtractNextBarDelimitedBlock
                (ExtractNextBarDelimitedBlock
                  (ExtractNextBarDelimitedBlock strAcl).2).2).1))])).2) := by
  cases strAcl with
  | nil => exact absurd rfl hne
  | cons _ _ => rfl

theorem AddUrlReservationAcl_fuel_succ (os : OS) (fuel : Nat) (s : CString)
    (dacl : List (CString × Nat)) (h : s.length ≤ fuel) :
    AddUrlReservationAcl os (fuel + 1) s dacl = AddUrlReservationAcl os fuel s dacl := by
  induction fuel generalizing s dacl with
  | zero =>
    obtain rfl : s = [] := List.length_eq_zero.mp (by omega)
    rfl
  | succ k ih =>
    by_cases hs : s = []
    · subst hs; rfl
    · have hlt := bar_triple_rest_length_lt s hs
      rw [AddUrlReservationAcl_step os (k + 1) s dacl hs,
        AddUrlReservationAcl_step os k s dacl hs, ih _ _ (by omega)]

/-- C30: for every non-empty string, ExtractNextTabDelimitedBlock and
ExtractNextBarDelimitedBlock leave a strictly shorter remaining string; so every decode
loop (ExecuteUser, ExecuteGroup, ExecuteUrlReservation, the membership loops of AddUser
and RemoveUser and the ACL loop of AddUrlReservation) ends within as many passes as its
string has characters: with any bound on the passes that is at least the length of the
string, it gives the result it gives with the length as bound. -/
theorem C30_decode_loops_terminate (strData : CString) (fuel : Nat)
    (hfuel : strData.length ≤ fuel) :
    (strData ≠ [] →
      (ExtractNextTabDelimitedBlock strData).2.length < strData.length ∧
      (ExtractNextBarDelimitedBlock strData).2.length < strData.length) ∧
    ExecuteUserLoop fuel strData = ExecuteUserLoop strData.length strData ∧
    ExecuteGroupLoop fuel strData = ExecuteGroupLoop strData.length strData ∧
    ExecuteUrlReservationLoop fuel strData =
      ExecuteUrlReservationLoop strData.length strData ∧
    (∀ (os : OS) (strName strDomain : CString),
      AddUserMembership os strName strDomain fuel strData =
        AddUserMembership os strName strDomain strData.length strData ∧
      RemoveUserMembership os strName strDomain fuel strData =
        RemoveUserMembership os strName strDomain strData.length strData) ∧
    (∀ (os : OS) (dacl : List (CString × Nat)),
      AddUrlReservationAcl os fuel strData dacl =
        AddUrlReservationAcl os strData.length strData dacl) := by
  refine ⟨fun hne => ⟨extractWith_snd_length_lt '\t' strData hne,
      extractWith_snd_length_lt '|' strData hne⟩, ?_, ?_, ?_, ?_, ?_⟩
  · exact fuel_stable ExecuteUserLoop ExecuteUserLoop_fuel_succ fuel strData hfuel
  · exact fuel_stable ExecuteGroupLoop ExecuteGroupLoop_fuel_succ fuel strData hfuel
  · exact fuel_stable ExecuteUrlReservationLoop ExecuteUrlReservationLoop_fuel_succ
      fuel strData hfuel
  · intro os strName strDomain
    exact ⟨fuel_stable (AddUserMembership os strName strDomain)
        (AddUserMembership_fuel_succ os strName strDomain) fuel strData hfuel,
      fuel_stable (RemoveUserMembership os strName strDomain)
        (RemoveUserMembership_fuel_succ os strName strDomain) fuel strData hfuel⟩
  · intro os dacl
    exact fuel_stable (fun f s => AddUrlReservationAcl os f s dacl)
      (fun f s hs => AddUrlReservationAcl_fuel_succ os f s dacl hs) fuel strData hfuel

/-- Witness for C30: a two-block string with a bound of nine passes. -/
theorem C30_decode_loops_terminate_witness :
    (ExtractNextTabDelimitedBlock "a\tb|c".toList).2.length < "a\tb|c".toList.length ∧
    (ExtractNextBarDelimitedBlock "a\tb|c".toList).2.length < "a\tb|c".toList.length ∧
    ExecuteUserLoop 9 "a\tb|c".toList = ExecuteUserLoop 5 "a\tb|c".toList :=
  ⟨((C30_decode_loops_terminate "a\tb|c".toList 9 (by decide)).1 (by decide)).1,
   ((C30_decode_loops_terminate "a\tb|c".toList 9 (by decide)).1 (by decide)).2,
   (C30_decode_loops_terminate "a\tb|c".toList 9 (by decide)).2.1⟩

/-! ### Membership strings: what the planner joins, the loops read back -/

theorem ExtractBar_append_cons (p t : CString) (h : '|' ∉ p) :
    ExtractNextBarDelimitedBlock (p ++ '|' :: t) = (p, t) :=
  extractWith_append_cons '|' p t h

theorem ExtractBar_of_not_mem (s : CString) (h : '|' ∉ s) :
    ExtractNextBarDelimitedBlock s = (s, []) :=
  extractWith_of_not_mem '|' s h

theorem membershipString_eq (pairs : List (CString × CString)) :
    membershipString pairs [] =
      joinFields '|' (pairs.map (fun p => p.1 ++ '|' :: p.2)) := by
  have h := foldl_appendBlock '|' (pairs.map (fun p => p.1 ++ '|' :: p.2))
    (by
      intro b hb
      obtain ⟨p, _, rfl⟩ := List.mem_map.mp hb
      simp) []
  rw [List.foldl_map] at h
  simpa [membershipString] using h

theorem ScheduleUsersMembership_eq (h : MsiSession) (keys : List CString)
    (strMembership : CString) :
    ScheduleUsersMembership h keys strMembership =
      membershipString (keys.map (fun k =>
        (GetRecordFormattedString h (h.Group k).Name,
         GetRecordFormattedString h (h.Group k).Domain))) strMembership := by
  induction keys generalizing strMembership with
  | nil => rfl
  | cons k ks ih =>
    simp only [ScheduleUsersMembership, ih]
    rfl

theorem membershipPairs_joinFields (pairs : List (CString × CString))
    (hbar : ∀ p ∈ pairs, '|' ∉ p.1 ∧ '|' ∉ p.2) (fuel : Nat)
    (hfuel : (joinFields '|' (pairs.map (fun p => p.1 ++ '|' :: p.2))).length ≤ fuel) :
    membershipPairs fuel (joinFields '|' (pairs.map (fun p => p.1 ++ '|' :: p.2))) =
      pairs := by
  induction pairs generalizing fuel with
  | nil => exact membershipPairs_nil fuel
  | cons p ps ih =>
    have hp := hbar p (by simp)
    have hps : ∀ q ∈ ps, '|' ∉ q.1 ∧ '|' ∉ q.2 := fun q hq => hbar q (by simp [hq])
    cases ps with
    | nil =>
      simp only [List.map_cons, List.map_nil, joinFields] at hfuel ⊢
      obtain ⟨f, rfl⟩ : ∃ f, fuel = f + 1 := by
        cases fuel with
        | zero => simp at hfuel
        | succ f => exact ⟨f, rfl⟩
      rw [membershipPairs_step f _ (by simp), ExtractBar_append_cons p.1 p.2 hp.1]
      simp only []
      rw [ExtractBar_of_not_mem p.2 hp.2]
      simp [membershipPairs_nil]
    | cons q qs =>
      simp only [List.map_cons, joinFields_cons_cons] at hfuel ⊢
      have hnorm : (p.1 ++ '|' :: p.2) ++ '|' ::
            joinFields '|' ((q.1 ++ '|' :: q.2) :: qs.map (fun p => p.1 ++ '|' :: p.2)) =
          p.1 ++ '|' :: (p.2 ++ '|' ::
            joinFields '|' ((q.1 ++ '|' :: q.2) ::
              qs.map (fun p => p.1 ++ '|' :: p.2))) := by
        simp [List.append_assoc]
      rw [hnorm] at hfuel ⊢
      obtain ⟨f, rfl⟩ : ∃ f, fuel = f + 1 := by
        cases fuel with
        | zero => simp at hfuel
        | succ f => exact ⟨f, rfl⟩
      rw [membershipPairs_step f _ (by simp), ExtractBar_append_cons p.1 _ hp.1]
      simp only []
      rw [ExtractBar_append_cons p.2 _ hp.2]
      simp only []
      have hlen : (joinFields '|' ((q :: qs).map (fun p => p.1 ++ '|' :: p.2))).length
          ≤ f := by
        simp only [List.map_cons]
        simp only [List.length_append, List.length_cons] at hfuel
        omega
      have := ih hps f hlen
      simp only [List.map_cons] at this
      rw [this]

theorem AddUserMembership_eq_runInOrder (os : OS) (strName strDomain : CString)
    (fuel : Nat) (s : CString) :
    AddUserMembership os strName strDomain fuel s =
      runInOrder (((membershipPairs fuel s).filter (fun p => decide (p.1.length > 0))).map
        (fun p => AddUserToGroup os strName strDomain p.1 p.2)) := by
  induction fuel generalizing s with
  | zero => rfl
  | succ k ih =>
    by_cases hs : s = []
    · subst hs; rfl
    · rw [AddUserMembership_step os strName strDomain k s hs, membershipPairs_step k s hs]
      by_cases hg : (ExtractNextBarDelimitedBlock s).1.length > 0
      · rw [if_pos hg, List.filter_cons_of_pos (by simpa using hg), List.map_cons, runInOrder,
          ih]
      · rw [if_neg hg, List.filter_cons_of_neg (by simpa using hg), ih]

theorem RemoveUserMembership_eq_runInOrder (os : OS) (strName strDomain : CString)
    (fuel : Nat) (s : CString) :
    RemoveUserMembership os strName strDomain fuel s =
      runInOrder (((membershipPairs fuel s).filter (fun p => decide (p.1.length > 0))).map
        (fun p => RemoveUserFromGroup os strName strDomain p.1 p.2)) := by
  induction fuel generalizing s with
  | zero => rfl
  | succ k ih =>
    by_cases hs : s = []
    · subst hs; rfl
    · rw [RemoveUserMembership_step os strName strDomain k s hs, membershipPairs_step k s hs]
      by_cases hg : (ExtractNextBarDelimitedBlock s).1.length > 0
      · rw [if_pos hg, List.filter_cons_of_pos (by simpa using hg), List.map_cons, runInOrder,
          ih]
      · rw [if_neg hg, List.filter_cons_of_neg (by simpa using hg), ih]

/-- C27: for every list of (group, domain) pairs whose strings contain no bar character,
the membership loop of AddUser, run on the bar-joined membership string that the
membership loop of ScheduleUsers builds from the pairs, reads back exactly the pairs and
runs AddUserToGroup for the pairs with a non-empty group name, in list order and with
each pair's own domain (a throwing call ends the loop, as everywhere in AddUser); the
string ScheduleUsers builds for a user's group keys is the one of the formatted
(name, domain) pairs of the keys. -/
theorem C27_membership_roundtrip (os : OS) (strName strDomain : CString)
    (pairs : List (CString × CString))
    (hbar : ∀ p ∈ pairs, '|' ∉ p.1 ∧ '|' ∉ p.2) :
    membershipPairs (membershipString pairs []).length (membershipString pairs []) = pairs ∧
    AddUserMembership os strName strDomain (membershipString pairs []).length
        (membershipString pairs []) =
      runInOrder ((pairs.filter (fun p => decide (p.1.length > 0))).map
        (fun p => AddUserToGroup os strName strDomain p.1 p.2)) ∧
    ∀ (h : MsiSession) (keys : List CString),
      ScheduleUsersMembership h keys [] =
        membershipString (keys.map (fun k =>
          (GetRecordFormattedString h (h.Group k).Name,
           GetRecordFormattedString h (h.Group k).Domain))) [] := by
  have hpairs : membershipPairs (membershipString pairs []).length
      (membershipString pairs []) = pairs := by
    rw [membershipString_eq]
    exact membershipPairs_joinFields pairs hbar _ (le_refl _)
  refine ⟨hpairs, ?_, fun h keys => ScheduleUsersMembership_eq h keys []⟩
  rw [AddUserMembership_eq_runInOrder, hpairs]

/-- Witness for C27: three pairs, one with an empty group name and one with an empty
domain, on an operating system where every call succeeds. -/
theorem C27_membership_roundtrip_witness :
    membershipString
        [("Admins".toList, "CORP".toList), ([], "X".toList), ("Users".toList, [])] [] =
      "Admins|CORP||X|Users|".toList ∧
    (AddUserMembership successOS "Alice".toList "CORP".toList 21
        "Admins|CORP||X|Users|".toList).calls =
      [.NetGroupAddUser (some "CORP".toList) "Admins".toList "Alice".toList,
       .NetGroupAddUser none "Users".toList "Alice".toList] :=
  ⟨by decide,
   congrArg Outcome.calls
     (C27_membership_roundtrip successOS "Alice".toList "CORP".toList
       [("Admins".toList, "CORP".toList), ([], "X".toList), ("Users".toList, [])]
       (by decide)).2.1⟩

/-! ### RemoveUser: the account delete call or the membership removals -/

theorem forall_calls_andThen (P : OsCall → Prop) (a b : Outcome)
    (ha : ∀ c ∈ a.calls, P c) (hb : ∀ c ∈ b.calls, P c) :
    ∀ c ∈ (a.andThen b).calls, P c := by
  intro c hc
  unfold Outcome.andThen at hc
  split at hc
  · exact ha c hc
  · rcases List.mem_append.mp hc with h | h
    · exact ha c h
    · exact hb c h

theorem forall_calls_runInOrder (P : OsCall → Prop) (l : List Outcome)
    (hl : ∀ o ∈ l, ∀ c ∈ o.calls, P c) : ∀ c ∈ (runInOrder l).calls, P c := by
  induction l with
  | nil => intro c hc; simp [runInOrder] at hc
  | cons o more ih =>
    rw [runInOrder]
    exact forall_calls_andThen P o _ (hl o (by simp))
      (ih (fun o2 ho2 => hl o2 (by simp [ho2])))

theorem RemoveUserFromGroup_calls (os : OS)
    (strUser strUserDomain strGroup strGroupDomain : CString) :
    ∀ c ∈ (RemoveUserFromGroup os strUser strUserDomain strGroup strGroupDomain).calls,
      c.isGroupRemoval = true ∧ c.isNetUserDel = false := by
  intro c hc
  unfold RemoveUserFromGroup at hc
  simp only [] at hc
  split_ifs at hc <;> simp at hc <;> rcases hc with rfl | rfl | rfl | rfl <;>
    exact ⟨rfl, rfl⟩

theorem ModifyUserLocalServiceRight_remove_calls (os : OS) (strDomain strName : CString) :
    ∀ c ∈ (ModifyUserLocalServiceRight os strDomain strName false).calls,
      c.isGroupRemoval = false ∧ c.isNetUserDel = false := by
  intro c hc
  unfold ModifyUserLocalServiceRight at hc
  simp only [Bool.false_eq_true, if_false] at hc
  split_ifs at hc <;> simp [throwIfFailed_calls] at hc <;>
    rcases hc with rfl | rfl | rfl | rfl <;> exact ⟨rfl, rfl⟩

theorem GetDomainOrControllerName_calls_other (os : OS) (pszDomain : CString) :
    ∀ c ∈ (GetDomainOrControllerName os pszDomain).1,
      c.isGroupRemoval = false ∧ c.isNetUserDel = false := by
  intro c hc
  rw [GetDomainOrControllerName_calls] at hc
  split_ifs at hc <;> simp at hc
  subst hc
  exact ⟨rfl, rfl⟩

theorem RemoveUserAccountOrMembership_delete (os : OS) (pszName pszDomain : CString)
    (iAttributes : Int) (pszMembership : CString)
    (hbit : testFlag iAttributes SCAU_DONT_CREATE_USER = false) :
    (RemoveUserAccountOrMembership os pszName pszDomain iAttributes pszMembership).calls =
      (GetDomainOrControllerName os pszDomain).1 ++
        [.NetUserDel (GetDomainOrControllerName os pszDomain).2 pszName] := by
  unfold RemoveUserAccountOrMembership
  simp [hbit, throwIfFailed_calls]

theorem RemoveUserAccountOrMembership_membership (os : OS) (pszName pszDomain : CString)
    (iAttributes : Int) (pszMembership : CString)
    (hbit : testFlag iAttributes SCAU_DONT_CREATE_USER = true) :
    RemoveUserAccountOrMembership os pszName pszDomain iAttributes pszMembership =
      runInOrder (((membershipPairs pszMembership.length pszMembership).filter
          (fun p => decide (p.1.length > 0))).map
        (fun p => RemoveUserFromGroup os pszName pszDomain p.1 p.2)) := by
  unfold RemoveUserAccountOrMembership
  simp only [hbit, Bool.not_true, Bool.false_eq_true, if_false]
  exact RemoveUserMembership_eq_runInOrder os pszName pszDomain _ _

theorem RemoveUser_eq_of_gate (os : OS) (cost : Int) (pszName pszDomain : CString)
    (iAttributes : Int) (pszMembership : CString)
    (hsid : os.result (.LookupAccountName (fqAccountName pszDomain pszName)) = 0)
    (hgate : (!os.isWellKnownServiceSid (fqAccountName pszDomain pszName) ||
      !testFlag iAttributes SCAU_IGNORE_SERVICE_ACCOUNTS) = true) :
    RemoveUser os cost pszName pszDomain iAttributes pszMembership =
      (Outcome.mk [.LookupAccountName (fqAccountName pszDomain pszName)] none).andThen
        (((if testFlag iAttributes SCAU_ALLOW_LOGON_AS_SERVICE then
            ModifyUserLocalServiceRight os pszDomain pszName false
          else ⟨[], none⟩).andThen
          (RemoveUserAccountOrMembership os pszName pszDomain iAttributes
            pszMembership)).andThen
          ⟨[.ProgressMessage cost false], none⟩) := by
  unfold RemoveUser RemoveUserAccountOrMembership
  simp only [hsid, ne_eq, not_true_eq_false, if_false, hgate, if_true]
/-- C23, as stated, fails: for an account that resolves to a well-known service SID and
attributes holding the ignore-service-accounts bit (0x80), RemoveUser makes neither the
account delete call with the don't-create bit clear nor any RemoveUserFromGroup call with
the bit set (0x280) and a membership list naming a group; it only looks the account up
and reports progress. -/
theorem C23_counterexample :
    testFlag 128 SCAU_DONT_CREATE_USER = false ∧
    RemoveUser serviceAccountOS 1 "NetworkService".toList "NT AUTHORITY".toList 128
        "Admins|CORP".toList =
      ⟨[.LookupAccountName "NT AUTHORITY\\NetworkService".toList,
        .ProgressMessage 1 false], none⟩ ∧
    testFlag 640 SCAU_DONT_CREATE_USER = true ∧
    RemoveUser serviceAccountOS 1 "NetworkService".toList "NT AUTHORITY".toList 640
        "Admins|CORP".toList =
      ⟨[.LookupAccountName "NT AUTHORITY\\NetworkService".toList,
        .ProgressMessage 1 false], none⟩ := by
  decide

/-- C23 (amended): when the account resolves, and it is not a well-known service account
or the ignore-service-accounts bit is clear, RemoveUser with the don't-create bit clear
issues the account delete call and none of the calls of RemoveUserFromGroup; with the bit
set it issues no account delete call and runs RemoveUserFromGroup once for each
(group, domain) pair its loop reads from the membership string whose group name is not
empty, in the order of the string. -/
theorem C23_remove_user_amended (os : OS) (cost : Int)
    (pszName pszDomain : CString) (iAttributes : Int) (pszMembership : CString)
    (hsid : os.result (.LookupAccountName (fqAccountName pszDomain pszName)) = 0)
    (hgate : (!os.isWellKnownServiceSid (fqAccountName pszDomain pszName) ||
      !testFlag iAttributes SCAU_IGNORE_SERVICE_ACCOUNTS) = true) :
    (testFlag iAttributes SCAU_DONT_CREATE_USER = false →
      OsCall.NetUserDel (GetDomainOrControllerName os pszDomain).2 pszName ∈
        (RemoveUser os cost pszName pszDomain iAttributes pszMembership).calls ∧
      ∀ c ∈ (RemoveUser os cost pszName pszDomain iAttributes pszMembership).calls,
        c.isGroupRemoval = false) ∧
    (testFlag iAttributes SCAU_DONT_CREATE_USER = true →
      (∀ c ∈ (RemoveUser os cost pszName pszDomain iAttributes pszMembership).calls,
        c.isNetUserDel = false) ∧
      RemoveUser os cost pszName pszDomain iAttributes pszMembership =
        (Outcome.mk [.LookupAccountName (fqAccountName pszDomain pszName)] none).andThen
          (((if testFlag iAttributes SCAU_ALLOW_LOGON_AS_SERVICE then
              ModifyUserLocalServiceRight os pszDomain pszName false
            else ⟨[], none⟩).andThen
            (runInOrder (((membershipPairs pszMembership.length pszMembership).filter
                (fun p => decide (p.1.length > 0))).map
              (fun p => RemoveUserFromGroup os pszName pszDomain p.1 p.2)))).andThen
            ⟨[.ProgressMessage cost false], none⟩)) := by
  have heq := RemoveUser_eq_of_gate os cost pszName pszDomain iAttributes pszMembership
    hsid hgate
  have hLthrown : (if testFlag iAttributes SCAU_ALLOW_LOGON_AS_SERVICE then
      ModifyUserLocalServiceRight os pszDomain pszName false
      else (⟨[], none⟩ : Outcome)).thrown = none := by
    split
    · exact ModifyUserLocalServiceRight_remove_thrown os pszDomain pszName
    · rfl
  have hLcalls : ∀ c ∈ (if testFlag iAttributes SCAU_ALLOW_LOGON_AS_SERVICE then
      ModifyUserLocalServiceRight os pszDomain pszName false
      else (⟨[], none⟩ : Outcome)).calls,
      c.isGroupRemoval = false ∧ c.isNetUserDel = false := by
    split
    · exact ModifyUserLocalServiceRight_remove_calls os pszDomain pszName
    · intro c hc; simp at hc
  constructor
  · intro hbit
    have hB := RemoveUserAccountOrMembership_delete os pszName pszDomain iAttributes
      pszMembership hbit
    rw [heq]
    constructor
    · apply mem_andThen_right _ _ _ rfl
      apply mem_andThen_left
      apply mem_andThen_right _ _ _ hLthrown
      rw [hB]
      simp
    · apply forall_calls_andThen (fun c => c.isGroupRemoval = false)
      · intro c hc
        simp at hc
        subst hc
        rfl
      · apply forall_calls_andThen (fun c => c.isGroupRemoval = false)
        · apply forall_calls_andThen (fun c => c.isGroupRemoval = false)
          · exact fun c hc => (hLcalls c hc).1
          · intro c hc
            rw [hB] at hc
            rcases List.mem_append.mp hc with h | h
            · exact (GetDomainOrControllerName_calls_other os pszDomain c h).1
            · simp at h
              subst h
              rfl
        · intro c hc
          simp at hc
          subst hc
          rfl
  · intro hbit
    have hB := RemoveUserAccountOrMembership_membership os pszName pszDomain iAttributes
      pszMembership hbit
    rw [hB] at heq
    refine ⟨?_, heq⟩
    rw [heq]
    apply forall_calls_andThen (fun c => c.isNetUserDel = false)
    · intro c hc
      simp at hc
      subst hc
      rfl
    · apply forall_calls_andThen (fun c => c.isNetUserDel = false)
      · apply forall_calls_andThen (fun c => c.isNetUserDel = false)
        · exact fun c hc => (hLcalls c hc).2
        · apply forall_calls_runInOrder
          intro o ho c hc
          obtain ⟨p, _, rfl⟩ := List.mem_map.mp ho
          exact (RemoveUserFromGroup_calls os pszName pszDomain p.1 p.2 c hc).2
      · intro c hc
        simp at hc
        subst hc
        rfl

/-- Witness for C23 (amended): on an operating system where every call succeeds, attributes 0 give
the delete call alone, and attributes 0x200 (don't create) give one global-group removal
for each of the two pairs with a group name, in order. -/
theorem C23_remove_user_amended_witness :
    (RemoveUser successOS 1 "Alice".toList [] 0 "Admins|CORP||X|Users|".toList).calls =
      [.LookupAccountName "Alice".toList, .NetUserDel [] "Alice".toList,
       .ProgressMessage 1 false] ∧
    RemoveUser successOS 1 "Alice".toList [] 512 "Admins|CORP||X|Users|".toList =
      ⟨[.LookupAccountName "Alice".toList,
        .NetGroupDelUser (some "CORP".toList) "Admins".toList "Alice".toList,
        .NetGroupDelUser none "Users".toList "Alice".toList,
        .ProgressMessage 1 false], none⟩ :=
  ⟨by decide,
   ((C23_remove_user_amended successOS 1 "Alice".toList [] 512
      "Admins|CORP||X|Users|".toList (by decide) (by decide)).2 (by decide)).2⟩

/-! ### URL reservation rows without ACL rows -/

theorem ScheduleUrlReservationsLoop_append (h : MsiSession) (todoScheduled : WCA_TODO)
    (pre post : List UrlReservationRecord) (st : CString × Int) :
    ScheduleUrlReservationsLoop h todoScheduled (pre ++ post) st =
      ScheduleUrlReservationsLoop h todoScheduled post
        (ScheduleUrlReservationsLoop h todoScheduled pre st) := by
  induction pre generalizing st with
  | nil => rfl
  | cons r rs ih =>
    obtain ⟨strAllCAData, iInstanceCount⟩ := st
    simp only [List.cons_append, ScheduleUrlReservationsLoop]
    split_ifs <;> exact ih _

theorem ScheduleUrlReservationsLoop_skip_no_acl (h : MsiSession) (todoScheduled : WCA_TODO)
    (record : UrlReservationRecord) (more : List UrlReservationRecord) (st : CString × Int)
    (hacl : h.UrlReservationAcl record.Reservation = []) :
    ScheduleUrlReservationsLoop h todoScheduled (record :: more) st =
      ScheduleUrlReservationsLoop h todoScheduled more st := by
  obtain ⟨strAllCAData, iInstanceCount⟩ := st
  simp only [ScheduleUrlReservationsLoop, hacl, ScheduleUrlReservationsAcl]
  split_ifs <;> first | rfl | simp_all

theorem ScheduleUrlReservationsAcl_ne_nil (h : MsiSession)
    (rows : List UrlReservationAclRecord) (strAcl : CString)
    (hne : rows ≠ [] ∨ strAcl ≠ []) :
    ScheduleUrlReservationsAcl h rows strAcl ≠ [] := by
  induction rows generalizing strAcl with
  | nil =>
    rcases hne with h1 | h1
    · exact absurd rfl h1
    · exact h1
  | cons a more ih =>
    rw [ScheduleUrlReservationsAcl]
    apply ih
    right
    apply appendBlock_ne_nil
    simp

/-- C24: a UrlReservation row that has no ACL rows contributes nothing to the plan string
and is not counted (the planner's loop state after a table holding the row is the state
after the table without it); every planned record has ACL rows and a non-empty ACL field,
and the plan string and the count the planner schedules are those of the planned
records. -/
theorem C24_rows_without_acl_are_dropped (h : MsiSession) (todoScheduled : WCA_TODO)
    (record : UrlReservationRecord) (pre post : List UrlReservationRecord)
    (st : CString × Int)
    (hacl : h.UrlReservationAcl record.Reservation = []) :
    ScheduleUrlReservationsLoop h todoScheduled (pre ++ record :: post) st =
      ScheduleUrlReservationsLoop h todoScheduled (pre ++ post) st ∧
    record ∉ plannedUrlReservations h todoScheduled ∧
    (∀ r ∈ plannedUrlReservations h todoScheduled,
      h.UrlReservationAcl r.Reservation ≠ [] ∧
      (plannedUrlReservationItem h r).strAcl ≠ []) ∧
    ScheduleUrlReservationsLoop h todoScheduled h.UrlReservation ([], 0) =
      (joinFields '\t' ((plannedUrlReservations h todoScheduled).map
          (fun r => encodeUrlReservationItem (plannedUrlReservationItem h r))),
       ((plannedUrlReservations h todoScheduled).length : Int)) := by
  have hmem : ∀ r ∈ plannedUrlReservations h todoScheduled,
      (ScheduleUrlReservationsAcl h (h.UrlReservationAcl r.Reservation) []) ≠ [] := by
    intro r hr
    unfold plannedUrlReservations at hr
    have := (List.mem_filter.mp hr).2
    simp only [Bool.and_eq_true, Bool.not_eq_true', List.isEmpty_eq_false] at this
    exact this.2
  refine ⟨?_, ?_, ?_, ScheduleUrlReservationsLoop_plan h todoScheduled⟩
  · rw [ScheduleUrlReservationsLoop_append, ScheduleUrlReservationsLoop_append,
      ScheduleUrlReservationsLoop_skip_no_acl h todoScheduled record post _ hacl]
  · intro hr
    have := hmem record hr
    rw [hacl] at this
    exact this rfl
  · intro r hr
    refine ⟨?_, hmem r hr⟩
    intro he
    have := hmem r hr
    rw [he] at this
    exact this rfl

/-- Witness for C24: in the session whose second row has no ACL rows, the Install pass
plans the first row alone and schedules a cost of one unit. -/
theorem C24_rows_without_acl_are_dropped_witness :
    ScheduleUrlReservationsLoop exampleNoAclSession WCA_TODO_INSTALL
        ([⟨"r1".toList, "c1".toList, "http://+:80/app/".toList, 2⟩] ++
          ⟨"r9".toList, "c1".toList, "http://+:82/".toList, 0⟩ :: []) ([], 0) =
      ScheduleUrlReservationsLoop exampleNoAclSession WCA_TODO_INSTALL
        ([⟨"r1".toList, "c1".toList, "http://+:80/app/".toList, 2⟩] ++ []) ([], 0) ∧
    ScheduleUrlReservations exampleNoAclSession WCA_TODO_INSTALL =
      [⟨"SuiExecUrlReservationsInstall", "1\thttp://+:80/app/\t2\tjdoe|CORP|1".toList, 1⟩,
       ⟨"SuiRollbackUrlReservationsInstall",
         "1\thttp://+:80/app/\t2\tjdoe|CORP|1".toList, 1⟩] :=
  ⟨(C24_rows_without_acl_are_dropped exampleNoAclSession WCA_TODO_INSTALL
      ⟨"r9".toList, "c1".toList, "http://+:82/".toList, 0⟩
      [⟨"r1".toList, "c1".toList, "http://+:80/app/".toList, 2⟩] [] ([], 0)
      (by decide)).1,
   by decide⟩

/-! ### ProgressMessage and a cancelling host -/

theorem ProgressMessageTry_thrown (host : ProgressHost) (fExplicitProgressMessages : Bool)
    (uiCost : Int) (fExtendProgressBar : Bool) :
    (ProgressMessageTry host fExplicitProgressMessages uiCost fExtendProgressBar).thrown
        = none ∨
      ∃ hr, (ProgressMessageTry host fExplicitProgressMessages uiCost
        fExtendProgressBar).thrown = some (.com_error hr) := by
  unfold ProgressMessageTry
  simp only []
  split_ifs <;> first | exact Or.inl rfl | exact Or.inr ⟨_, rfl⟩

theorem ProgressMessage_thrown (host : ProgressHost) (fExplicitProgressMessages : Bool)
    (uiCost : Int) (fExtendProgressBar : Bool) :
    (ProgressMessage host fExplicitProgressMessages uiCost fExtendProgressBar).thrown
      = none := by
  unfold ProgressMessage
  rcases ProgressMessageTry_thrown host fExplicitProgressMessages uiCost fExtendProgressBar
    with h | ⟨hr, h⟩
  · simp [h]
  · simp [h]

/-- C21, as stated, fails: ProgressMessage throws the user-exit error inside its own try
block, and its handler for `_com_error` writes it to the log and returns.  Whatever the
host answers, nothing is raised to the caller; with a host that answers Cancel the try
block throws `HRESULT_FROM_WIN32 (ERROR_INSTALL_USEREXIT)` and ProgressMessage returns
normally after logging it, both when the explicit-mode message is still to be sent and
when it has been sent. -/
theorem C21_progress_message_swallows_user_exit :
    (∀ (host : ProgressHost) (fExplicitProgressMessages : Bool) (uiCost : Int)
        (fExtendProgressBar : Bool),
      (ProgressMessage host fExplicitProgressMessages uiCost fExtendProgressBar).thrown
        = none) ∧
    (ProgressMessageTry cancellingHost true 1 false).thrown =
      some (.com_error (HRESULT_FROM_WIN32 ERROR_INSTALL_USEREXIT)) ∧
    ProgressMessage cancellingHost true 1 false =
      ⟨[.progress 2 1 0,
        .error "Caught exception in ProgressMessage" (some (-2147023294))], none, true⟩ ∧
    ProgressMessage cancellingHost false 1 false =
      ⟨[.progress 1 1 0,
        .error "Caught exception in ProgressMessage" (some (-2147023294))], none, false⟩ :=
  ⟨ProgressMessage_thrown, by decide, by decide, by decide⟩
/-! ### What the scheduling entry points return for a Win32 error -/

theorem HRESULT_FROM_WIN32_of_pos (er : Nat) (h0 : 0 < er) (h1 : er < 2147483648) :
    HRESULT_FROM_WIN32 er = ((er % 65536 : Nat) : Int) - 2147024896 := by
  have hand : er &&& 0xFFFF = er % 65536 := by
    have := Nat.and_pow_two_sub_one_eq_mod er 16
    simpa using this
  have hor : (er % 65536) ||| 0x80070000 = 2147942400 + er % 65536 := by
    have := Nat.mul_add_lt_is_or (show er % 65536 < 2 ^ 16 by omega) 32775
    rw [Nat.lor_comm]
    simpa using this.symm
  unfold HRESULT_FROM_WIN32 toHRESULT
  rw [hand, hor]
  have hmod : er % 4294967296 = er := Nat.mod_eq_of_lt (by omega)
  have hlt : er % 65536 < 65536 := Nat.mod_lt _ (by decide)
  have hmod2 : (2147942400 + er % 65536) % 4294967296 = 2147942400 + er % 65536 :=
    Nat.mod_eq_of_lt (by omega)
  rw [hmod, hmod2]
  simp only [h1, if_true]
  rw [if_neg (by omega), if_neg (by omega)]
  push_cast
  omega

theorem WCode_HRESULT_FROM_WIN32 (er : Nat) (h0 : 0 < er) (h1 : er < 2147483648) :
    WCode (HRESULT_FROM_WIN32 er) = 0 ∧ FAILED (HRESULT_FROM_WIN32 er) = true := by
  rw [HRESULT_FROM_WIN32_of_pos er h0 h1]
  have hlt : er % 65536 < 65536 := Nat.mod_lt _ (by decide)
  constructor
  · unfold WCode WCODE_HRESULT_FIRST WCODE_HRESULT_LAST
    rw [if_neg (by omega)]
  · unfold FAILED
    simp only [decide_eq_true_eq]
    omega

theorem schedEntryPoint_scheduleFrom (er : Nat) (planner : Bool → List DeferredAction)
    (h0 : 0 < er) (h1 : er < 2147483648) (ht : er ≠ ERROR_INVALID_TABLE) :
    scheduleFrom er planner = .error (.com_error (HRESULT_FROM_WIN32 er)) ∧
    schedEntryPoint (scheduleFrom er planner) = .ok 0 := by
  have hIs : IsTable er = .error (.com_error (HRESULT_FROM_WIN32 er)) := by
    unfold IsTable ERROR_SUCCESS
    rw [if_neg (by omega), if_neg (fun e => ht e.symm)]
  have hs : scheduleFrom er planner = .error (.com_error (HRESULT_FROM_WIN32 er)) := by
    unfold scheduleFrom
    rw [hIs]
  refine ⟨hs, ?_⟩
  rw [hs]
  show Except.ok (WCode (HRESULT_FROM_WIN32 er)) = Except.ok 0
  rw [(WCode_HRESULT_FROM_WIN32 er h0 h1).1]

theorem schedEntryPoint_scheduleFromThrowing (er : Nat)
    (planner : Bool → List DeferredAction) (thrown : Bool → Option Thrown)
    (h0 : 0 < er) (h1 : er < 2147483648) (ht : er ≠ ERROR_INVALID_TABLE) :
    schedEntryPoint (scheduleFromThrowing er planner thrown) = .ok 0 := by
  have hIs : IsTable er = .error (.com_error (HRESULT_FROM_WIN32 er)) := by
    unfold IsTable ERROR_SUCCESS
    rw [if_neg (by omega), if_neg (fun e => ht e.symm)]
  have hs : scheduleFromThrowing er planner thrown
      = .error (.com_error (HRESULT_FROM_WIN32 er)) := by
    unfold scheduleFromThrowing
    rw [hIs]
  rw [hs]
  show Except.ok (WCode (HRESULT_FROM_WIN32 er)) = Except.ok 0
  rw [(WCode_HRESULT_FROM_WIN32 er h0 h1).1]

/-- C22, as stated, fails: the six scheduling entry points return `e.WCode ()` from their
handler, and `_com_error::WCode` is 0 for every `HRESULT` outside `0x80040200` to
`0x8004FFFF`.  For every Win32 error code between 1 and `0x7FFFFFFF` other than
`ERROR_INVALID_TABLE` that the table check reports, the planner throws the failed
`HRESULT_FROM_WIN32` of the code and each entry point returns 0, the success code; the
executor entry points return `ERROR_INSTALL_FAILURE` for the same exception. -/
theorem C22_sched_entry_points_return_zero (er : Nat) (h : MsiSession)
    (h0 : 0 < er) (h1 : er < 2147483648) (ht : er ≠ ERROR_INVALID_TABLE) :
    FAILED (HRESULT_FROM_WIN32 er) = true ∧
    scheduleFrom er (fun fTable => ScheduleUsers { h with hasUserEx := fTable }
      WCA_TODO_INSTALL) = .error (.com_error (HRESULT_FROM_WIN32 er)) ∧
    SchedUsersInstall er h = .ok 0 ∧
    SchedUsersUninstall er h = .ok 0 ∧
    SchedGroupsInstall er h = .ok 0 ∧
    SchedGroupsUninstall er h = .ok 0 ∧
    SchedUrlReservationsInstall er h = .ok 0 ∧
    SchedUrlReservationsUninstall er h = .ok 0 ∧
    execEntryPoint ⟨[], some (.com_error (HRESULT_FROM_WIN32 er))⟩ =
      .ok ERROR_INSTALL_FAILURE :=
  ⟨(WCode_HRESULT_FROM_WIN32 er h0 h1).2,
   (schedEntryPoint_scheduleFrom er _ h0 h1 ht).1,
   schedEntryPoint_scheduleFromThrowing er _ _ h0 h1 ht,
   schedEntryPoint_scheduleFromThrowing er _ _ h0 h1 ht,
   (schedEntryPoint_scheduleFrom er _ h0 h1 ht).2,
   (schedEntryPoint_scheduleFrom er _ h0 h1 ht).2,
   schedEntryPoint_scheduleFromThrowing er _ _ h0 h1 ht,
   schedEntryPoint_scheduleFromThrowing er _ _ h0 h1 ht,
   rfl⟩

/-- Witness for C22: the table check reporting `ERROR_INVALID_HANDLE` (6) in the example
session; the exception carries `0x80070006` and `SchedUsersInstall` returns 0. -/
theorem C22_sched_entry_points_return_zero_witness :
    HRESULT_FROM_WIN32 ERROR_INVALID_HANDLE = -2147024890 ∧
    SchedUsersInstall ERROR_INVALID_HANDLE exampleSession = .ok 0 ∧
    SchedUrlReservationsUninstall ERROR_INVALID_HANDLE exampleSession = .ok 0 :=
  ⟨by decide,
   (C22_sched_entry_points_return_zero ERROR_INVALID_HANDLE exampleSession
     (by decide) (by decide) (by decide)).2.2.1,
   (C22_sched_entry_points_return_zero ERROR_INVALID_HANDLE exampleSession
     (by decide) (by decide) (by decide)).2.2.2.2.2.2.2.1⟩

/-! ### ValidateInstanceName and the reserved characters -/

theorem startsWith_of_length_lt (s pszSub : CString) (h : s.length < pszSub.length) :
    startsWith s pszSub = false := by
  induction s generalizing pszSub with
  | nil =>
    cases pszSub with
    | nil => simp at h
    | cons p ps => rfl
  | cons c cs ih =>
    cases pszSub with
    | nil => simp at h
    | cons p ps =>
      have : cs.length < ps.length := by simpa using h
      simp [startsWith, ih ps this]

theorem FindString_of_length_lt (s pszSub : CString) (h : s.length < pszSub.length) :
    FindString s pszSub = -1 := by
  induction s with
  | nil =>
    cases pszSub with
    | nil => simp at h
    | cons p ps => rfl
  | cons c cs ih =>
    have hcs : cs.length < pszSub.length := by
      simp only [List.length_cons] at h
      omega
    rw [FindString, startsWith_of_length_lt _ _ h, ih hcs]
    simp

/-- C26, as stated, fails: ValidateInstanceName looks for the six-character string
`.$/\[]` inside the instance name (`CString::Find` with a string argument), not for any
one of the six characters.  For every custom instance whose non-empty name is shorter
than six characters and whose service name fits in 256 characters, it sets
SUI_INSTANCENAME_VALID to `1` and throws nothing, whatever characters the name holds. -/
theorem C26_short_names_pass_validation (GetProperty : String → CString)
    (htype : GetProperty "INSTANCETYPE" ≠ "0".toList)
    (hne : 0 < (GetProperty "INSTANCENAME").length)
    (hshort : (GetProperty "INSTANCENAME").length < 6)
    (hfit : (GetProperty "InstancePrefix").length + (GetProperty "INSTANCENAME").length + 4
      ≤ 256) :
    ValidateInstanceName GetProperty = ⟨[("SUI_INSTANCENAME_VALID", "1".toList)], none⟩ := by
  have hfind : FindString (GetProperty "INSTANCENAME") ".$/\\[]".toList = -1 :=
    FindString_of_length_lt _ _ (by simpa using hshort)
  have hlen : ¬ (GetProperty "InstancePrefix" ++
      '$' :: GetProperty "INSTANCENAME" ++ ".XX".toList).length > 256 := by
    simp only [List.length_append, List.length_cons]
    have : ".XX".toList.length = 3 := by decide
    omega
  unfold ValidateInstanceName
  simp only [htype, if_false, hfind, ne_eq, not_true_eq_false]
  rw [if_neg (by omega), if_neg hlen]

/-- Witness for C26: the custom instance names `a.b`, `$` and `[x]/y` hold reserved
characters and pass validation; the name made of the six characters in order is
refused, as is the empty name. -/
theorem C26_short_names_pass_validation_witness :
    (containsReservedCharacter "a.b".toList = true ∧
      ValidateInstanceName (customInstance "a.b".toList) =
        ⟨[("SUI_INSTANCENAME_VALID", "1".toList)], none⟩) ∧
    ValidateInstanceName (customInstance "$".toList) =
      ⟨[("SUI_INSTANCENAME_VALID", "1".toList)], none⟩ ∧
    ValidateInstanceName (customInstance "[x]/y".toList) =
      ⟨[("SUI_INSTANCENAME_VALID", "1".toList)], none⟩ ∧
    ValidateInstanceName (customInstance "x.$/\\[]".toList) =
      ⟨[], some (.com_error 1603)⟩ ∧
    ValidateInstanceName (customInstance []) = ⟨[], some (.com_error 1603)⟩ :=
  ⟨⟨by decide,
    C26_short_names_pass_validation (customInstance "a.b".toList)
      (by decide) (by decide) (by decide) (by decide)⟩,
   by decide, by decide, by decide, by decide⟩

end ZenTrunk
